import Mathlib

/-!
JWT-SVID validation (`pkg/common/jwtsvid/validate.go`).

A shallow embedding of `keyStore.FindPublicKey` and `ValidateToken`.

Go returns tuples such as `(spiffeid.ID, map[string]interface{}, error)`; they are kept as
tuples here (`nil` is `none`), so that statements about "error and no identity" are statements
about the returned components and not about the shape of a sum type.

The calls into the dependencies `go-jose.v2/jwt` (token parsing, unverified claims, verified
claims) and `go-spiffe/v2/spiffeid` (`FromString`) are fields of the structure `Deps`: the
validation code is embedded for every behaviour of those calls.  `jwt.Claims.Validate` is a pure
function of the claims and the expectation and is embedded as such.
-/

namespace jwtsvid

/-! ## Data model -/

/-- The type `spiffeid.TrustDomain`: a struct holding the trust domain name. -/
structure TrustDomain where
  name : String
  deriving DecidableEq, Repr

/-- The type `spiffeid.ID`: a trust domain and a path.  `ID.zero` is the Go zero value
`spiffeid.ID{}`. -/
structure ID where
  td : TrustDomain
  path : String
  deriving DecidableEq, Repr

/-- The zero value `spiffeid.ID{}`. -/
def ID.zero : ID := ⟨⟨""⟩, ""⟩

/-- The method `spiffeid.ID.TrustDomain`. -/
def ID.TrustDomain (id : ID) : TrustDomain := id.td

/-- The interface type `crypto.PublicKey`: the nil interface value or some key. -/
inductive PublicKey where
  | nil : PublicKey
  | key (material : String) : PublicKey
  deriving DecidableEq, Repr

/-- The type `jose.Header`, with the two fields `ValidateToken` reads. -/
structure Header where
  KeyID : String
  Algorithm : String
  deriving DecidableEq, Repr

/-- The type `jwt.JSONWebToken`: the exported `Headers` and the serialized token the payload
closures of the library close over. -/
structure JSONWebToken where
  Headers : List Header
  raw : String
  deriving DecidableEq, Repr

/-- The least value of the Go type `int64`. -/
def minInt64 : Int := -9223372036854775808

/-- The greatest value of the Go type `int64`. -/
def maxInt64 : Int := 9223372036854775807

/-- The value an `int64` computation gives for the mathematical result `x`: Go integer
arithmetic wraps around. -/
def wrapInt64 (x : Int) : Int :=
  (x + 9223372036854775808) % 18446744073709551616 - 9223372036854775808

/-- The type `time.Time`, by the values of its methods `sec()` and `nsec()`: the seconds since
January 1, year 1, an `int64`, and the nanoseconds within the second.  The monotonic clock
reading is left out: it is compared only when both times carry one, and the times of the claims
carry none. -/
structure Time where
  sec : Int
  nsec : Int
  deriving DecidableEq, Repr

/-- The zero value `time.Time{}`: January 1, year 1, 00:00:00 UTC. -/
def Time.zero : Time := ⟨0, 0⟩

/-- The method `time.Time.IsZero`. -/
def Time.IsZero (t : Time) : Bool := decide (t.sec = 0 ∧ t.nsec = 0)

/-- The method `(*time.Time).addSec`: a sum that leaves the `int64` range is replaced by the
greatest or the least second. -/
def Time.addSec (t : Time) (d : Int) : Time :=
  let sum := wrapInt64 (t.sec + d)
  if decide (sum > t.sec) = decide (d > 0) then { t with sec := sum }
  else if d > 0 then { t with sec := maxInt64 }
  else { t with sec := -maxInt64 }

/-- The method `time.Time.Add`, the duration in nanoseconds. -/
def Time.Add (t : Time) (d : Int) : Time :=
  let dsec := Int.tdiv d 1000000000
  let nsec := t.nsec + Int.tmod d 1000000000
  if nsec ≥ 1000000000 then Time.addSec { t with nsec := nsec - 1000000000 } (dsec + 1)
  else if nsec < 0 then Time.addSec { t with nsec := nsec + 1000000000 } (dsec - 1)
  else Time.addSec { t with nsec := nsec } dsec

/-- The method `time.Time.Before`. -/
def Time.Before (t u : Time) : Bool :=
  decide (t.sec < u.sec ∨ (t.sec = u.sec ∧ t.nsec < u.nsec))

/-- The method `time.Time.After`. -/
def Time.After (t u : Time) : Bool :=
  decide (t.sec > u.sec ∨ (t.sec = u.sec ∧ t.nsec > u.nsec))

/-- The constant `time.Minute`, in nanoseconds. -/
def Minute : Int := 60 * 1000000000

/-- The constant `jwt.DefaultLeeway = 1.0 * time.Minute`. -/
def DefaultLeeway : Int := 1 * Minute

/-- The constant `unixToInternal` of package `time`: the seconds from January 1, year 1 to the
Unix epoch. -/
def unixToInternal : Int := 62135596800

/-- The function `time.unixTime`, which `time.Unix(sec, nsec)` calls at once when `nsec` is in
the range of a second: the sum `sec + unixToInternal` is an `int64` sum and wraps around. -/
def unixTime (sec nsec : Int) : Time := ⟨wrapInt64 (sec + unixToInternal), nsec⟩

/-- The method `(*jwt.NumericDate).Time`: a numeric date is an `int64` number of seconds since
the Unix epoch; a nil pointer gives the zero time, any other the time `time.Unix(int64(*n), 0)`. -/
def NumericDateTime : Option Int → Time
  | none => Time.zero
  | some s => unixTime s 0

/-- The type `jwt.Claims`: the registered claims; the three dates are of type
`*jwt.NumericDate` in Go, a pointer to an `int64` number of seconds. -/
structure Claims where
  Issuer : String
  Subject : String
  Audience : List String
  Expiry : Option Int
  NotBefore : Option Int
  IssuedAt : Option Int
  ID : String
  deriving DecidableEq, Repr

/-- The type `jwt.Expected`. -/
structure Expected where
  Issuer : String
  Subject : String
  Audience : List String
  ID : String
  Time : Time
  deriving DecidableEq, Repr

/-- The sentinel errors `jwt.Claims.Validate` returns. -/
inductive ValidationError where
  | ErrInvalidIssuer
  | ErrInvalidSubject
  | ErrInvalidID
  | ErrInvalidAudience
  | ErrNotValidYet
  | ErrExpired
  | ErrIssuedInTheFuture
  deriving DecidableEq, Repr

/-- The type `map[string]interface{}` the verified claims are decoded into; a string value is
kept as the string, any other value as its JSON text. -/
abbrev ClaimMap := List (String × String)

/-- The errors `FindPublicKey` and `ValidateToken` return, one constructor per error site.
  * `unableToParse`: "unable to parse JWT token"
  * `headerCount n`: "expected a single token header; got %d"
  * `unsupportedAlgorithm alg`: "unsupported token signature algorithm %q"
  * `missingKeyID`: "token header missing key id"
  * `wrap e`: `errs.Wrap(err)` of a library error
  * `missingSubject`: "token missing subject claim"
  * `invalidSubject e`: "token has in invalid subject claim: %v"
  * `noKeysForTrustDomain td`: "no keys found for trust domain %q"
  * `publicKeyNotFound kid td`: "public key %q not found in trust domain %q"
  * `expired`: "token has expired"
  * `audienceMismatch expected actual`: "expected audience in %q (audience=%q)"
  * `wrapValidation e`: `errs.Wrap(err)` of another validation error
  * `other msg`: an error of a `KeyStore` implementation other than `keyStore`. -/
inductive Error where
  | unableToParse
  | headerCount (n : Nat)
  | unsupportedAlgorithm (alg : String)
  | missingKeyID
  | wrap (e : String)
  | missingSubject
  | invalidSubject (e : String)
  | noKeysForTrustDomain (td : TrustDomain)
  | publicKeyNotFound (keyID : String) (td : TrustDomain)
  | expired
  | audienceMismatch (expected actual : List String)
  | wrapValidation (e : ValidationError)
  | other (msg : String)
  deriving DecidableEq, Repr

/-! ## The key store -/

/-- The interface `KeyStore`: one method, returning `(crypto.PublicKey, error)`. -/
structure KeyStore where
  FindPublicKey : TrustDomain → String → PublicKey × Option Error

/-- The Go type `map[spiffeid.TrustDomain]map[string]crypto.PublicKey`: a lookup either misses
(`none`, the `!ok` of Go) or yields the stored value. -/
abbrev TrustDomainKeys := TrustDomain → Option (String → Option PublicKey)

/-- The struct `keyStore`. -/
structure keyStore where
  trustDomainKeys : TrustDomainKeys

/-- The method `(*keyStore).FindPublicKey`. -/
def keyStore.FindPublicKey (t : keyStore) (td : TrustDomain) (keyID : String) :
    PublicKey × Option Error :=
  match t.trustDomainKeys td with
  | none => (PublicKey.nil, some (Error.noKeysForTrustDomain td))
  | some publicKeys =>
    match publicKeys keyID with
    | none => (PublicKey.nil, some (Error.publicKeyNotFound keyID td))
    | some publicKey => (publicKey, none)

/-- The constructor `NewKeyStore`: the `keyStore` over the given map, as a `KeyStore`. -/
def NewKeyStore (trustDomainKeys : TrustDomainKeys) : KeyStore :=
  ⟨keyStore.FindPublicKey ⟨trustDomainKeys⟩⟩

/-! ## Claim validation (`jwt.Claims.Validate`) -/

/-- The method `jwt.Audience.Contains`. -/
def AudienceContains (s : List String) (v : String) : Bool :=
  s.any (fun a => decide (a = v))

/-- The method `jwt.Claims.ValidateWithLeeway` of `go-jose.v2/jwt`: issuer, subject and id are
compared when expected, every expected audience must be among the claim's audiences, then
not-before, expiry and issued-at are compared with the leeway when a time is expected. -/
def Claims.ValidateWithLeeway (c : Claims) (e : Expected) (leeway : Int) :
    Option ValidationError :=
  if e.Issuer ≠ "" ∧ e.Issuer ≠ c.Issuer then some .ErrInvalidIssuer
  else if e.Subject ≠ "" ∧ e.Subject ≠ c.Subject then some .ErrInvalidSubject
  else if e.ID ≠ "" ∧ e.ID ≠ c.ID then some .ErrInvalidID
  else if e.Audience.length ≠ 0 ∧ e.Audience.any (fun v => !AudienceContains c.Audience v) then
    some .ErrInvalidAudience
  else if !e.Time.IsZero then
    if c.NotBefore ≠ none ∧ (e.Time.Add leeway).Before (NumericDateTime c.NotBefore) then
      some .ErrNotValidYet
    else if c.Expiry ≠ none ∧ (e.Time.Add (-leeway)).After (NumericDateTime c.Expiry) then
      some .ErrExpired
    else if c.IssuedAt ≠ none ∧ (e.Time.Add leeway).Before (NumericDateTime c.IssuedAt) then
      some .ErrIssuedInTheFuture
    else none
  else none

/-- The method `jwt.Claims.Validate`: validation with the default leeway of one minute. -/
def Claims.Validate (c : Claims) (e : Expected) : Option ValidationError :=
  c.ValidateWithLeeway e DefaultLeeway

/-! ## Token validation -/

/-- The library calls of `ValidateToken`; an error is kept as its message.
  * `ParseSigned`: `jwt.ParseSigned`
  * `UnsafeClaimsWithoutVerification`: the method of that name, decoding into a `jwt.Claims`
  * `VerifiedClaims`: the method `Claims(key, &claimsMap)`, which verifies the signature with
    the key and only then decodes the payload into the map
  * `FromString`: `spiffeid.FromString`. -/
structure Deps where
  ParseSigned : String → Except String JSONWebToken
  UnsafeClaimsWithoutVerification : JSONWebToken → Except String Claims
  VerifiedClaims : JSONWebToken → PublicKey → Except String ClaimMap
  FromString : String → Except String ID

/-- The algorithm `switch` of `ValidateToken`: the listed cases fall through, the default case
returns. -/
def supportedAlgorithm (alg : String) : Bool :=
  match alg with
  | "RS256" | "RS384" | "RS512" => true
  | "ES256" | "ES384" | "ES512" => true
  | "PS256" | "PS384" | "PS512" => true
  | _ => false

/-- The result type of `ValidateToken`: `(spiffeid.ID, map[string]interface{}, error)`. -/
abbrev Result := ID × Option ClaimMap × Option Error

/-- The conversion of a validation error at the end of `ValidateToken`. -/
def convertValidationError (audience : List String) (claims : Claims) :
    ValidationError → Error
  | .ErrExpired => Error.expired
  | .ErrInvalidAudience => Error.audienceMismatch audience claims.Audience
  | e => Error.wrapValidation e

/-- The part of `ValidateToken` after the key lookup: the verified parse into the claim map,
then the validation of the registered claims. -/
def verifyAndValidate (deps : Deps) (now : Time) (tok : JSONWebToken) (claims : Claims)
    (spiffeID : ID) (key : PublicKey) (audience : List String) : Result :=
  match deps.VerifiedClaims tok key with
  | .error e => (ID.zero, none, some (Error.wrap e))
  | .ok claimsMap =>
    match claims.Validate ⟨"", "", audience, "", now⟩ with
    | some err => (ID.zero, none, some (convertValidationError audience claims err))
    | none => (spiffeID, some claimsMap, none)

/-- The part of `ValidateToken` after the key id check: the unverified claims, the subject, the
key lookup, and then `verifyAndValidate`. -/
def resolveAndVerify (deps : Deps) (now : Time) (tok : JSONWebToken) (keyID : String)
    (keyStore : KeyStore) (audience : List String) : Result :=
  match deps.UnsafeClaimsWithoutVerification tok with
  | .error e => (ID.zero, none, some (Error.wrap e))
  | .ok claims =>
    if claims.Subject = "" then (ID.zero, none, some Error.missingSubject)
    else
      match deps.FromString claims.Subject with
      | .error e => (ID.zero, none, some (Error.invalidSubject e))
      | .ok spiffeID =>
        match keyStore.FindPublicKey spiffeID.TrustDomain keyID with
        | (_, some err) => (ID.zero, none, some err)
        | (key, none) => verifyAndValidate deps now tok claims spiffeID key audience

/-- The part of `ValidateToken` after the algorithm check: the key id check and the rest. -/
def afterAlgorithmCheck (deps : Deps) (now : Time) (tok : JSONWebToken) (h : Header)
    (keyStore : KeyStore) (audience : List String) : Result :=
  if h.KeyID = "" then (ID.zero, none, some Error.missingKeyID)
  else resolveAndVerify deps now tok h.KeyID keyStore audience

/-- The function `ValidateToken`; `now` is the value of `time.Now()`.  The match on `Headers`
is the test `len(tok.Headers) != 1` followed by the reads of `tok.Headers[0]`. -/
def ValidateToken (deps : Deps) (now : Time) (token : String) (keyStore : KeyStore)
    (audience : List String) : Result :=
  match deps.ParseSigned token with
  | .error _ => (ID.zero, none, some Error.unableToParse)
  | .ok tok =>
    match tok.Headers with
    | [h] =>
      if supportedAlgorithm h.Algorithm then
        afterAlgorithmCheck deps now tok h keyStore audience
      else (ID.zero, none, some (Error.unsupportedAlgorithm h.Algorithm))
    | hs => (ID.zero, none, some (Error.headerCount hs.length))

/-! ## A concrete instance of the library calls -/

/-- The trust domain `example.org`. -/
def exampleOrg : TrustDomain := ⟨"example.org"⟩

/-- The trust domain `other.org`. -/
def otherOrg : TrustDomain := ⟨"other.org"⟩

/-- The registered claims of the sample token: subject `spiffe://example.org/blog`, audience
`bar`, expiry at second 5000. -/
def blogClaims : Claims :=
  ⟨"", "spiffe://example.org/blog", ["bar"], some 5000, none, none, ""⟩

/-- A small instance of the library calls.  The serialized tokens are named by short strings:
`blog` carries one `ES256` header with key id `k1`, `hmac` one `HS256` header, `unsigned` no
header, `multi` two headers, `notyet` is `blog` with expiry at second 100 and not-before at
second 9000, `nokid` is `blog` with an empty key id, `nosub` is `blog` with an empty subject,
`badsub` is `blog` with the subject `example.org/blog`, anything else does not parse.  The signature of a token verifies
under the key `ec-1` only. -/
def sampleDeps : Deps where
  ParseSigned := fun s =>
    if s = "blog" then .ok ⟨[⟨"k1", "ES256"⟩], "blog"⟩
    else if s = "hmac" then .ok ⟨[⟨"k1", "HS256"⟩], "hmac"⟩
    else if s = "unsigned" then .ok ⟨[], "unsigned"⟩
    else if s = "multi" then .ok ⟨[⟨"k1", "ES256"⟩, ⟨"k2", "ES256"⟩], "multi"⟩
    else if s = "notyet" then .ok ⟨[⟨"k1", "ES256"⟩], "notyet"⟩
    else if s = "nokid" then .ok ⟨[⟨"", "ES256"⟩], "nokid"⟩
    else if s = "nosub" then .ok ⟨[⟨"k1", "ES256"⟩], "nosub"⟩
    else if s = "badsub" then .ok ⟨[⟨"k1", "ES256"⟩], "badsub"⟩
    else .error "square/go-jose: compact JWS format must have three parts"
  UnsafeClaimsWithoutVerification := fun tok =>
    if tok.raw = "notyet" then
      .ok { blogClaims with NotBefore := some 9000, Expiry := some 100 }
    else if tok.raw = "nosub" then .ok { blogClaims with Subject := "" }
    else if tok.raw = "badsub" then .ok { blogClaims with Subject := "example.org/blog" }
    else .ok blogClaims
  VerifiedClaims := fun _ key =>
    if key = PublicKey.key "ec-1" then
      .ok [("sub", "spiffe://example.org/blog"), ("aud", "bar"), ("exp", "5000")]
    else .error "square/go-jose: error in cryptographic primitive"
  FromString := fun s =>
    if s = "spiffe://example.org/blog" then .ok ⟨exampleOrg, "/blog"⟩
    else if s = "spiffe://example.org/admin" then .ok ⟨exampleOrg, "/admin"⟩
    else .error "scheme is missing or invalid"

/-- A key set holding `ec-1` under the key id `k1`. -/
def sampleKeys : String → Option PublicKey :=
  fun kid => if kid = "k1" then some (PublicKey.key "ec-1") else none

/-- A key store map with the key id `k1` under `example.org`. -/
def sampleMap : TrustDomainKeys :=
  fun td => if td = exampleOrg then some sampleKeys else none

/-- A key store map with the key id `k1` under `other.org` only. -/
def otherMap : TrustDomainKeys :=
  fun td => if td = otherOrg then some sampleKeys else none

/-- A key store map with another key, `ec-2`, under `example.org` and `k1`. -/
def wrongKeyMap : TrustDomainKeys :=
  fun td => if td = exampleOrg then
    some (fun kid => if kid = "k1" then some (PublicKey.key "ec-2") else none)
  else none

/-- The verified claim map of the token `blog`. -/
def blogMap : ClaimMap :=
  [("sub", "spiffe://example.org/blog"), ("aud", "bar"), ("exp", "5000")]

/-- A current time: 4000 seconds after the Unix epoch. -/
def sampleNow : Time := unixTime 4000 0

end jwtsvid

/-!
X.509 proof of possession (`pkg/common/plugin/x509pop/x509pop.go`).

A shallow embedding of the challenge, response and verification functions.  Results are kept
as the Go tuples: a nil pointer or nil error is `none`.  The cryptographic primitives
(`sha256`, `rsa.SignPSS`, `rsa.VerifyPSS`, `ecdsa.Sign`, `ecdsa.Verify`) are fields of the
structure `Crypto`; the random source `rand.Reader` is an explicit state.
-/

namespace x509pop

/-! ## Data model -/

/-- A byte of a Go `[]byte`. -/
abbrev Byte := Fin 256

/-- The constant `nonceLen`. -/
def nonceLen : Nat := 32

/-- The constant `x509.KeyUsageDigitalSignature`, the first bit of the key usage mask. -/
def KeyUsageDigitalSignature : Nat := 1

/-- The type `rsa.PublicKey`. -/
structure RSAPublicKey where
  N : Nat
  E : Nat
  deriving DecidableEq, Repr

/-- The type `rsa.PrivateKey`; it embeds its public key. -/
structure RSAPrivateKey where
  PublicKey : RSAPublicKey
  D : Nat
  deriving DecidableEq, Repr

/-- The type `ecdsa.PublicKey`. -/
structure ECDSAPublicKey where
  Curve : String
  X : Nat
  Y : Nat
  deriving DecidableEq, Repr

/-- The type `ecdsa.PrivateKey`; it embeds its public key. -/
structure ECDSAPrivateKey where
  PublicKey : ECDSAPublicKey
  D : Nat
  deriving DecidableEq, Repr

/-- A public key as an interface value, as the type switches see it: a `*rsa.PublicKey`, a
`*ecdsa.PublicKey`, or a value of another dynamic type, kept as the type name. -/
inductive PublicKey where
  | rsa (k : RSAPublicKey)
  | ecdsa (k : ECDSAPublicKey)
  | other (typeName : String)
  deriving DecidableEq, Repr

/-- A private key as an interface value: a `*rsa.PrivateKey`, a `*ecdsa.PrivateKey`, or a value
of another dynamic type, kept as the type name. -/
inductive PrivateKey where
  | rsa (k : RSAPrivateKey)
  | ecdsa (k : ECDSAPrivateKey)
  | other (typeName : String)
  deriving DecidableEq, Repr

/-- The type `x509.Certificate`, with the two fields `GenerateChallenge` reads. -/
structure Certificate where
  KeyUsage : Nat
  PublicKey : PublicKey
  deriving DecidableEq, Repr

/-- The type `RSASignatureChallenge`. -/
structure RSASignatureChallenge where
  Nonce : List Byte
  deriving DecidableEq, Repr

/-- The type `RSASignatureResponse`. -/
structure RSASignatureResponse where
  Nonce : List Byte
  Signature : List Byte
  deriving DecidableEq, Repr

/-- The type `ECDSASignatureChallenge`. -/
structure ECDSASignatureChallenge where
  Nonce : List Byte
  deriving DecidableEq, Repr

/-- The type `ECDSASignatureResponse`. -/
structure ECDSASignatureResponse where
  Nonce : List Byte
  R : List Byte
  S : List Byte
  deriving DecidableEq, Repr

/-- The type `Challenge`; each part is a pointer. -/
structure Challenge where
  RSASignature : Option RSASignatureChallenge
  ECDSASignature : Option ECDSASignatureChallenge
  deriving DecidableEq, Repr

/-- The type `Response`; each part is a pointer. -/
structure Response where
  RSASignature : Option RSASignatureResponse
  ECDSASignature : Option ECDSASignatureResponse
  deriving DecidableEq, Repr

/-- The errors of the package, one constructor per error site.
  * `notForDigitalSignature`: "certificate not intended for digital signature use"
  * `unsupportedPublicKeyType t`: "unsupported public key type %T"
  * `unsupportedPrivateKeyType t`: "unsupported private key type %T" (`CalculateResponse` and
    `VerifyChallengeResponse` both use this text)
  * `expectingRSAChallenge`, `expectingECDSAChallenge`: "expecting RSA challenge",
    "expecting ECDSA challenge"
  * `expectingRSAResponse`, `expectingECDSAResponse`: "expecting RSA response",
    "expecting ECDSA response"
  * `invalidChallengeNonce`, `invalidResponseNonce`: "invalid challenge nonce",
    "invalid response nonce"
  * `rsaVerifyFailed`, `ecdsaVerifyFailed`: "RSA signature verify failed",
    "ECDSA signature verify failed"
  * `lib msg`: an error returned by `rand.Read`, `rsa.SignPSS` or `ecdsa.Sign`. -/
inductive Error where
  | notForDigitalSignature
  | unsupportedPublicKeyType (t : String)
  | unsupportedPrivateKeyType (t : String)
  | expectingRSAChallenge
  | expectingECDSAChallenge
  | expectingRSAResponse
  | expectingECDSAResponse
  | invalidChallengeNonce
  | invalidResponseNonce
  | rsaVerifyFailed
  | ecdsaVerifyFailed
  | lib (msg : String)
  deriving DecidableEq, Repr

/-! ## The random source and the primitives -/

/-- The random source `rand.Reader`: the bytes it will deliver, how many it has delivered, and
the error it returns, if it fails. -/
structure Reader where
  stream : Nat → Byte
  pos : Nat
  err : Option String

/-- The call `rand.Read(b)`: it fills the slice it is given, whose length does not change, and
returns the error of the source. -/
def Reader.Read (r : Reader) (b : List Byte) : (List Byte × Option String) × Reader :=
  match r.err with
  | some e => ((b, some e), r)
  | none =>
    (((List.range b.length).map (fun i => r.stream (r.pos + i)), none),
      { r with pos := r.pos + b.length })

/-- The cryptographic primitives the package calls.
  * `Sum256`: the SHA-256 digest of a byte string
  * `SignPSS`: `rsa.SignPSS(rand.Reader, privateKey, crypto.SHA256, digest, nil)`
  * `VerifyPSS`: `rsa.VerifyPSS(publicKey, crypto.SHA256, digest, sig, nil)`, the error or nil
  * `ecdsaSign`: `ecdsa.Sign(rand.Reader, privateKey, digest)`, with the non-negative `r`, `s`
  * `ecdsaVerify`: `ecdsa.Verify(publicKey, digest, r, s)`. -/
structure Crypto where
  Sum256 : List Byte → List Byte
  SignPSS : Reader → RSAPrivateKey → List Byte → (List Byte × Option String) × Reader
  VerifyPSS : RSAPublicKey → List Byte → List Byte → Option String
  ecdsaSign : Reader → ECDSAPrivateKey → List Byte → ((Nat × Nat) × Option String) × Reader
  ecdsaVerify : ECDSAPublicKey → List Byte → Nat → Nat → Bool

/-- The state of a `hash.Hash`: the data written so far. -/
structure Digest where
  written : List Byte
  deriving DecidableEq, Repr

/-- The call `sha256.New()`. -/
def Digest.New : Digest := ⟨[]⟩

/-- The method `Write` of a `hash.Hash`: it adds the data to the running hash. -/
def Digest.Write (h : Digest) (p : List Byte) : Digest := ⟨h.written ++ p⟩

/-- The method `Sum` of the SHA-256 `hash.Hash`: it appends the digest of the data written so
far to `b`. -/
def Digest.Sum (c : Crypto) (h : Digest) (b : List Byte) : List Byte :=
  b ++ c.Sum256 h.written

/-- The big-endian bytes of `x`, at most `fuel` of them, without leading zero bytes. -/
def bytesFuel : Nat → Nat → List Byte
  | 0, _ => []
  | fuel + 1, x =>
    if x = 0 then [] else bytesFuel fuel (x / 256) ++ [⟨x % 256, Nat.mod_lt x (by decide)⟩]

/-- The method `(*big.Int).Bytes` on a non-negative integer: its big-endian bytes, without
leading zero bytes. -/
def Bytes (x : Nat) : List Byte := bytesFuel x x

/-- The method `(*big.Int).SetBytes`: the bytes read as a big-endian unsigned integer. -/
def SetBytes (buf : List Byte) : Nat := buf.foldl (fun acc b => acc * 256 + b.val) 0

/-! ## Nonces -/

/-- The function `generateNonce`. -/
def generateNonce (rand : Reader) : (List Byte × Option Error) × Reader :=
  match rand.Read (List.replicate nonceLen 0) with
  | ((_, some err), rand1) => (([], some (Error.lib err)), rand1)
  | ((b, none), rand1) => ((b, none), rand1)

/-- The function `combineNonces`. -/
def combineNonces (c : Crypto) (challenge response : List Byte) : List Byte × Option Error :=
  if challenge.length ≠ nonceLen then ([], some Error.invalidChallengeNonce)
  else if response.length ≠ nonceLen then ([], some Error.invalidResponseNonce)
  else
    let h := Digest.New
    let h := h.Write challenge
    let h := h.Write response
    (h.Sum c [], none)

/-! ## The RSA binding -/

/-- The function `GenerateRSASignatureChallenge`. -/
def GenerateRSASignatureChallenge (rand : Reader) :
    (Option RSASignatureChallenge × Option Error) × Reader :=
  match generateNonce rand with
  | ((_, some err), rand1) => ((none, some err), rand1)
  | ((nonce, none), rand1) => ((some ⟨nonce⟩, none), rand1)

/-- The function `CalculateRSASignatureResponse`. -/
def CalculateRSASignatureResponse (c : Crypto) (rand : Reader) (privateKey : RSAPrivateKey)
    (challenge : RSASignatureChallenge) :
    (Option RSASignatureResponse × Option Error) × Reader :=
  match generateNonce rand with
  | ((_, some err), rand1) => ((none, some err), rand1)
  | ((nonce, none), rand1) =>
    match combineNonces c challenge.Nonce nonce with
    | (_, some err) => ((none, some err), rand1)
    | (combined, none) =>
      match c.SignPSS rand1 privateKey combined with
      | ((_, some err), rand2) => ((none, some (Error.lib err)), rand2)
      | ((signature, none), rand2) => ((some ⟨nonce, signature⟩, none), rand2)

/-- The function `VerifyRSASignatureResponse`. -/
def VerifyRSASignatureResponse (c : Crypto) (publicKey : RSAPublicKey)
    (challenge : RSASignatureChallenge) (response : RSASignatureResponse) : Option Error :=
  match combineNonces c challenge.Nonce response.Nonce with
  | (_, some err) => some err
  | (combined, none) =>
    match c.VerifyPSS publicKey combined response.Signature with
    | some _ => some Error.rsaVerifyFailed
    | none => none

/-! ## The ECDSA binding -/

/-- The function `GenerateECDSASignatureChallenge`. -/
def GenerateECDSASignatureChallenge (rand : Reader) :
    (Option ECDSASignatureChallenge × Option Error) × Reader :=
  match generateNonce rand with
  | ((_, some err), rand1) => ((none, some err), rand1)
  | ((nonce, none), rand1) => ((some ⟨nonce⟩, none), rand1)

/-- The function `CalculateECDSASignatureResponse`. -/
def CalculateECDSASignatureResponse (c : Crypto) (rand : Reader)
    (privateKey : ECDSAPrivateKey) (challenge : ECDSASignatureChallenge) :
    (Option ECDSASignatureResponse × Option Error) × Reader :=
  match generateNonce rand with
  | ((_, some err), rand1) => ((none, some err), rand1)
  | ((nonce, none), rand1) =>
    match combineNonces c challenge.Nonce nonce with
    | (_, some err) => ((none, some err), rand1)
    | (combined, none) =>
      match c.ecdsaSign rand1 privateKey combined with
      | ((_, some err), rand2) => ((none, some (Error.lib err)), rand2)
      | (((r, s), none), rand2) => ((some ⟨nonce, Bytes r, Bytes s⟩, none), rand2)

/-- The function `VerifyECDSASignatureResponse`. -/
def VerifyECDSASignatureResponse (c : Crypto) (publicKey : ECDSAPublicKey)
    (challenge : ECDSASignatureChallenge) (response : ECDSASignatureResponse) :
    Option Error :=
  match combineNonces c challenge.Nonce response.Nonce with
  | (_, some err) => some err
  | (combined, none) =>
    let r := SetBytes response.R
    let s := SetBytes response.S
    if !c.ecdsaVerify publicKey combined r s then some Error.ecdsaVerifyFailed
    else none

/-! ## Dispatch on the key type -/

/-- The function `GenerateChallenge`. -/
def GenerateChallenge (rand : Reader) (cert : Certificate) :
    (Option Challenge × Option Error) × Reader :=
  if cert.KeyUsage &&& KeyUsageDigitalSignature = 0 then
    ((none, some Error.notForDigitalSignature), rand)
  else
    match cert.PublicKey with
    | .rsa _ =>
      match GenerateRSASignatureChallenge rand with
      | ((_, some err), rand1) => ((none, some err), rand1)
      | ((challenge, none), rand1) => ((some ⟨challenge, none⟩, none), rand1)
    | .ecdsa _ =>
      match GenerateECDSASignatureChallenge rand with
      | ((_, some err), rand1) => ((none, some err), rand1)
      | ((challenge, none), rand1) => ((some ⟨none, challenge⟩, none), rand1)
    | .other t => ((none, some (Error.unsupportedPublicKeyType t)), rand)

/-- The function `CalculateResponse`. -/
def CalculateResponse (c : Crypto) (rand : Reader) (privateKey : PrivateKey)
    (challenge : Challenge) : (Option Response × Option Error) × Reader :=
  match privateKey with
  | .rsa privateKey =>
    match challenge.RSASignature with
    | none => ((none, some Error.expectingRSAChallenge), rand)
    | some rsaChallenge =>
      match CalculateRSASignatureResponse c rand privateKey rsaChallenge with
      | ((_, some err), rand1) => ((none, some err), rand1)
      | ((response, none), rand1) => ((some ⟨response, none⟩, none), rand1)
  | .ecdsa privateKey =>
    match challenge.ECDSASignature with
    | none => ((none, some Error.expectingECDSAChallenge), rand)
    | some ecdsaChallenge =>
      match CalculateECDSASignatureResponse c rand privateKey ecdsaChallenge with
      | ((_, some err), rand1) => ((none, some err), rand1)
      | ((response, none), rand1) => ((some ⟨none, response⟩, none), rand1)
  | .other t => ((none, some (Error.unsupportedPrivateKeyType t)), rand)

/-- The function `VerifyChallengeResponse`. -/
def VerifyChallengeResponse (c : Crypto) (publicKey : PublicKey) (challenge : Challenge)
    (response : Response) : Option Error :=
  match publicKey with
  | .rsa publicKey =>
    match challenge.RSASignature with
    | none => some Error.expectingRSAChallenge
    | some rsaChallenge =>
      match response.RSASignature with
      | none => some Error.expectingRSAResponse
      | some rsaResponse => VerifyRSASignatureResponse c publicKey rsaChallenge rsaResponse
  | .ecdsa publicKey =>
    match challenge.ECDSASignature with
    | none => some Error.expectingECDSAChallenge
    | some ecdsaChallenge =>
      match response.ECDSASignature with
      | none => some Error.expectingECDSAResponse
      | some ecdsaResponse =>
        VerifyECDSASignatureResponse c publicKey ecdsaChallenge ecdsaResponse
  | .other t => some (Error.unsupportedPrivateKeyType t)

/-! ## Key pairs and a concrete instance of the primitives -/

/-- Whether `pub` is the public key of `priv`: both RSA or both ECDSA, and `pub` is the key
embedded in `priv`. -/
def KeyPair (priv : PrivateKey) (pub : PublicKey) : Prop :=
  match priv, pub with
  | .rsa k, .rsa p => p = k.PublicKey
  | .ecdsa k, .ecdsa p => p = k.PublicKey
  | _, _ => False

/-- A random source that delivers the bytes 0, 1, 2, ... -/
def sampleReader : Reader := ⟨fun i => ⟨i % 256, Nat.mod_lt i (by decide)⟩, 0, none⟩

/-- A random source that fails. -/
def failingReader : Reader := ⟨fun _ => 0, 0, some "unexpected EOF"⟩

/-- A small instance of the primitives, standing in for the real ones in witnesses: the digest
is the one-byte sum of the data, an RSA signature is the digest followed by the bytes of the
modulus, an ECDSA signature is the pair (digest + 1, X + 1). -/
def sampleCrypto : Crypto where
  Sum256 := fun data =>
    [⟨(data.foldl (fun acc b => acc + b.val) 0) % 256, Nat.mod_lt _ (by decide)⟩]
  SignPSS := fun rand k digest => ((digest ++ Bytes k.PublicKey.N, none), rand)
  VerifyPSS := fun p digest sig =>
    if sig = digest ++ Bytes p.N then none else some "crypto/rsa: verification error"
  ecdsaSign := fun rand k digest => (((SetBytes digest + 1, k.PublicKey.X + 1), none), rand)
  ecdsaVerify := fun p digest r s => decide (r = SetBytes digest + 1 ∧ s = p.X + 1)

/-- A sample RSA private key. -/
def sampleRSAKey : RSAPrivateKey := ⟨⟨3233, 17⟩, 2753⟩

/-- A sample ECDSA private key. -/
def sampleECDSAKey : ECDSAPrivateKey := ⟨⟨"P-256", 5, 7⟩, 11⟩

/-- A certificate for the sample RSA key with the digital-signature key usage. -/
def sampleRSACert : Certificate := ⟨1, .rsa sampleRSAKey.PublicKey⟩

/-- A certificate for the sample ECDSA key with the digital-signature and key-encipherment key
usages. -/
def sampleECDSACert : Certificate := ⟨5, .ecdsa sampleECDSAKey.PublicKey⟩

/-- A certificate for the sample RSA key with the key-encipherment key usage only. -/
def sampleEnciphermentCert : Certificate := ⟨4, .rsa sampleRSAKey.PublicKey⟩

/-- A certificate with the digital-signature key usage and an Ed25519 public key. -/
def sampleEd25519Cert : Certificate := ⟨1, .other "ed25519.PublicKey"⟩

/-- The 32-byte nonce 0, 1, ..., 31 that `sampleReader` delivers first. -/
def sampleNonce : List Byte :=
  (List.range 32).map (fun i => ⟨i % 256, Nat.mod_lt i (by decide)⟩)

end x509pop

/-!
SSH proof of possession, server configuration (`pkg/common/plugin/sshpop/sshpop.go`).

A shallow embedding of `pubkeysFromPath`, `certCheckerFromPubkeys` and `NewServer`.  The file
system and the calls into `spiffeid`, `hcl`, `golang.org/x/crypto/ssh` and `agentpathtemplate`
are fields of the structure `Env`.
-/

namespace sshpop

/-! ## Data model -/

/-- The type `spiffeid.TrustDomain`. -/
structure TrustDomain where
  name : String
  deriving DecidableEq, Repr

/-- The interface type `ssh.PublicKey`: the key type and the marshalled key. -/
structure PublicKey where
  keyType : String
  blob : String
  deriving DecidableEq, Repr

/-- The type `agentpathtemplate.Template`, kept as the text it was parsed from. -/
structure Template where
  text : String
  deriving DecidableEq, Repr

/-- The type `ssh.CertChecker`, with the one field `certCheckerFromPubkeys` sets. -/
structure CertChecker where
  IsHostAuthority : PublicKey → String → Bool

/-- The type `Server`. -/
structure Server where
  certChecker : CertChecker
  agentPathTemplate : Template
  trustDomain : TrustDomain
  canonicalDomain : String

/-- The type `ServerConfig`; `CertAuthorities` is a slice, nil (`none`) when the key is
absent. -/
structure ServerConfig where
  CertAuthorities : Option (List String)
  CertAuthoritiesPath : String
  CanonicalDomain : String
  AgentPathTemplate : String
  deriving DecidableEq, Repr

/-- The gRPC status codes `NewServer` uses. -/
inductive Code where
  | InvalidArgument
  | Internal
  deriving DecidableEq, Repr

/-- The plain errors of `pubkeysFromPath` and `certCheckerFromPubkeys`.
  * `readFile err`: the error of `os.ReadFile`
  * `noData path`: "no data found in file: %q"
  * `noCertAuthority`: "must provide at least one cert authority"
  * `parsePublicKey certAuthority err`: "failed to parse public key %q: %w". -/
inductive Error where
  | readFile (err : String)
  | noData (path : String)
  | noCertAuthority
  | parsePublicKey (certAuthority : String) (err : String)
  deriving DecidableEq, Repr

/-- The status errors of `NewServer`, one constructor per error site.
  * `invalidTrustDomain err`: "trust_domain global configuration is invalid: %v"
  * `decodeFailed err`: "failed to decode configuration: %v"
  * `missingAuthorities`: "missing required config value for \"cert_authorities\" or
    \"cert_authorities_path\""
  * `authoritiesFile err`: "failed to get cert authorities from file: %v"
  * `certChecker err`: "failed to create cert checker: %v"
  * `templateParse template`: "failed to parse agent svid template: %q". -/
inductive StatusError where
  | invalidTrustDomain (err : String)
  | decodeFailed (err : String)
  | missingAuthorities
  | authoritiesFile (err : Error)
  | certChecker (err : Error)
  | templateParse (template : String)
  deriving DecidableEq, Repr

/-- The status code of each error of `NewServer`. -/
def StatusError.code : StatusError → Code
  | .certChecker _ => Code.Internal
  | _ => Code.InvalidArgument

/-- The file system and the library calls.
  * `TrustDomainFromString`: `spiffeid.TrustDomainFromString`
  * `Decode`: `hcl.Decode` into a new `ServerConfig`
  * `ReadFile`: `os.ReadFile`, the contents as a string
  * `ParseAuthorizedKey`: `ssh.ParseAuthorizedKey`, the key it returns
  * `FingerprintSHA256`: `ssh.FingerprintSHA256`
  * `Parse`: `agentpathtemplate.Parse`
  * `DefaultAgentPathTemplate`: the package variable of that name, the parsed default
    template. -/
structure Env where
  TrustDomainFromString : String → Except String TrustDomain
  Decode : String → Except String ServerConfig
  ReadFile : String → Except String String
  ParseAuthorizedKey : String → Except String PublicKey
  FingerprintSHA256 : PublicKey → String
  Parse : String → Except String Template
  DefaultAgentPathTemplate : Template

/-! ## The authorities file -/

/-- The newline character. -/
def newline : Char := Char.ofNat 10

/-- The segments of a string between newline characters. -/
def splitLines : List Char → List (List Char)
  | [] => [[]]
  | c :: cs =>
    if c = newline then [] :: splitLines cs
    else
      match splitLines cs with
      | [] => [[c]]
      | seg :: rest => (c :: seg) :: rest

/-- The call `strings.Split(s, "\n")`.  The text is split as a sequence of characters: in
UTF-8 the newline is one byte and is no part of the encoding of another character. -/
def Split (s : String) : List String := (splitLines s.toList).map String.mk

/-- The loop of `pubkeysFromPath`: empty segments are skipped, the others appended in order. -/
def appendPubkeys (pubkeys : List String) : List String → List String
  | [] => pubkeys
  | pubkey :: rest =>
    if pubkey = "" then appendPubkeys pubkeys rest
    else appendPubkeys (pubkeys ++ [pubkey]) rest

/-- The function `pubkeysFromPath`.  The slice `pubkeys` is nil exactly when nothing was
appended to it, that is when it is empty. -/
def pubkeysFromPath (env : Env) (pubkeysPath : String) : List String × Option Error :=
  match env.ReadFile pubkeysPath with
  | .error err => ([], some (Error.readFile err))
  | .ok pubkeysBytes =>
    let splitPubkeys := Split pubkeysBytes
    let pubkeys := appendPubkeys [] splitPubkeys
    if pubkeys = [] then ([], some (Error.noData pubkeysPath))
    else (pubkeys, none)

/-! ## The certificate checker -/

/-- The statement `authorities[fingerprint] = true` on a `map[string]bool`; a lookup of a key
that is not in the map gives `false`. -/
def setAuthority (authorities : String → Bool) (fingerprint : String) : String → Bool :=
  fun fp => if fp = fingerprint then true else authorities fp

/-- The loop of `certCheckerFromPubkeys`: each authority is parsed and its fingerprint is
entered in the map; the first parse error ends the loop. -/
def collectAuthorities (env : Env) (authorities : String → Bool) :
    List String → (String → Bool) × Option Error
  | [] => (authorities, none)
  | certAuthority :: rest =>
    match env.ParseAuthorizedKey certAuthority with
    | .error err => (authorities, some (Error.parsePublicKey certAuthority err))
    | .ok authority =>
      collectAuthorities env (setAuthority authorities (env.FingerprintSHA256 authority)) rest

/-- The function `certCheckerFromPubkeys`. -/
def certCheckerFromPubkeys (env : Env) (certAuthorities : List String) :
    Option CertChecker × Option Error :=
  if certAuthorities.length = 0 then (none, some Error.noCertAuthority)
  else
    match collectAuthorities env (fun _ => false) certAuthorities with
    | (_, some err) => (none, some err)
    | (authorities, none) =>
      (some ⟨fun auth _ => authorities (env.FingerprintSHA256 auth)⟩, none)

/-! ## The server -/

/-- The part of `NewServer` that gathers the authorities: those of the configuration, then
those of the file, if a path is configured. -/
def gatherCertAuthorities (env : Env) (config : ServerConfig) :
    List String × Option StatusError :=
  let certAuthorities : List String :=
    match config.CertAuthorities with
    | some configured => [] ++ configured
    | none => []
  if config.CertAuthoritiesPath ≠ "" then
    match pubkeysFromPath env config.CertAuthoritiesPath with
    | (_, some err) => ([], some (StatusError.authoritiesFile err))
    | (fileCertAuthorities, none) => (certAuthorities ++ fileCertAuthorities, none)
  else (certAuthorities, none)

/-- The function `NewServer`; the test `len(config.AgentPathTemplate) > 0` is the test that
the string is not empty. -/
def NewServer (env : Env) (trustDomain configString : String) :
    Option Server × Option StatusError :=
  match env.TrustDomainFromString trustDomain with
  | .error err => (none, some (StatusError.invalidTrustDomain err))
  | .ok td =>
    match env.Decode configString with
    | .error err => (none, some (StatusError.decodeFailed err))
    | .ok config =>
      if config.CertAuthorities = none ∧ config.CertAuthoritiesPath = "" then
        (none, some StatusError.missingAuthorities)
      else
        match gatherCertAuthorities env config with
        | (_, some err) => (none, some err)
        | (certAuthorities, none) =>
          match certCheckerFromPubkeys env certAuthorities with
          | (_, some err) => (none, some (StatusError.certChecker err))
          | (none, none) => (none, none)
          | (some certChecker, none) =>
            if config.AgentPathTemplate ≠ "" then
              match env.Parse config.AgentPathTemplate with
              | .error _ => (none, some (StatusError.templateParse config.AgentPathTemplate))
              | .ok tmpl => (some ⟨certChecker, tmpl, td, config.CanonicalDomain⟩, none)
            else
              (some ⟨certChecker, env.DefaultAgentPathTemplate, td, config.CanonicalDomain⟩,
                none)

/-! ## A concrete instance -/

/-- A small instance of the environment.  The file `/etc/spire/authorities` holds two keys,
a whitespace-only line, a line ending in a carriage return and empty lines; the file
`/etc/spire/empty` holds newlines only.  A key line parses when it starts with `ssh-`; the
fingerprint of a key is `SHA256:` followed by its blob. -/
def sampleEnv : Env where
  TrustDomainFromString := fun s =>
    if s = "example.org" then .ok ⟨"example.org"⟩ else .error "trust domain is malformed"
  Decode := fun s =>
    if s = "inline" then .ok ⟨some ["ssh-ed25519 AAAA"], "", "", ""⟩
    else if s = "file" then .ok ⟨none, "/etc/spire/authorities", "", "/\x7b\x7b .Hostname \x7d\x7d"⟩
    else if s = "none" then .ok ⟨none, "", "", ""⟩
    else if s = "empty" then .ok ⟨some [], "", "", ""⟩
    else if s = "badkey" then .ok ⟨some ["ssh-ed25519 AAAA", "garbage"], "", "", ""⟩
    else if s = "badtemplate" then .ok ⟨some ["ssh-ed25519 AAAA"], "", "", "\x7b\x7b"⟩
    else .error "unexpected token"
  ReadFile := fun path =>
    if path = "/etc/spire/authorities" then
      .ok (String.mk ("ssh-ed25519 AAAA".toList ++ [newline, newline] ++ "  ".toList
        ++ [newline] ++ "ssh-rsa BBBB".toList ++ [Char.ofNat 13, newline]))
    else if path = "/etc/spire/empty" then .ok (String.mk [newline, newline])
    else .error "open: no such file or directory"
  ParseAuthorizedKey := fun s =>
    if "ssh-ed25519 ".toList.isPrefixOf s.toList then
      .ok ⟨"ssh-ed25519", String.mk (s.toList.drop 12)⟩
    else if "ssh-rsa ".toList.isPrefixOf s.toList then
      .ok ⟨"ssh-rsa", String.mk (s.toList.drop 8)⟩
    else .error "ssh: no key found"
  FingerprintSHA256 := fun k => "SHA256:" ++ k.blob
  Parse := fun s => if s = "\x7b\x7b" then .error "template: unclosed action" else .ok ⟨s⟩
  DefaultAgentPathTemplate := ⟨"/\x7b\x7b .PluginName\x7d\x7d/\x7b\x7b .Fingerprint \x7d\x7d"⟩

end sshpop

/-!
Peer credentials of a connection (`pkg/common/peertracker/uds.go`).

A shallow embedding of `CallerFromUDSConn` and `receiveTCPConn`.  A connection is the record of
what its dynamic type offers; the platform function `getCallerInfoFromFileDescriptor` and
`http.ReadRequest` are parameters.  Closing the connection and printing the request have no
effect on the result and are left out.
-/

namespace peertracker

/-! ## Data model -/

/-- The errors: the package variable `ErrInvalidConnection`, and the errors of the operating
system and of the libraries. -/
inductive Error where
  | ErrInvalidConnection
  | other (msg : String)
  deriving DecidableEq, Repr

/-- The struct `CallerInfo`: the address of the peer (a `net.Addr`, nil is `none`) and its
process, user and group id.  `CallerFromUDSConn` sets `Addr`; the other fields are set by the
platform function. -/
structure CallerInfo where
  Addr : Option String
  PID : Int
  UID : Nat
  GID : Nat
  deriving DecidableEq, Repr

/-- The zero value of `CallerInfo`, the value of `var info CallerInfo`. -/
def CallerInfo.zero : CallerInfo := ⟨none, 0, 0, 0⟩

/-- A `syscall.RawConn`, by what its method `Control` does: `controlFd` is the descriptor the
callback is called with (`none` when it is not called), `controlErr` the error `Control`
returns. -/
structure RawConn where
  controlFd : Option Nat
  controlErr : Option Error
  deriving DecidableEq, Repr

/-- A `*net.TCPConn`, by its method `Read`: the bytes a read into a buffer of the given length
gives, or the error. -/
structure TCPConn where
  Read : Nat → Except String String

/-- A `net.Conn`, by its dynamic type:
  * `SyscallConn`: `none` when the type does not implement `syscall.Conn`, otherwise the result
    of the method `SyscallConn()`
  * `TCPConn`: the connection as a `*net.TCPConn`, `none` when it is of another type
  * `RemoteAddr`: the result of the method `RemoteAddr()`. -/
structure Conn where
  SyscallConn : Option (Except Error RawConn)
  TCPConn : Option TCPConn
  RemoteAddr : Option String

/-- The request `http.ReadRequest` returns. -/
structure Request where
  Method : String
  RequestURI : String
  deriving DecidableEq, Repr

/-! ## The two functions -/

/-- The function `CallerFromUDSConn`.  The callback given to `Control` assigns `info` and
`err`; where it is not called they keep their values, the zero `CallerInfo` and nil. -/
def CallerFromUDSConn (getCallerInfoFromFileDescriptor : Nat → CallerInfo × Option Error)
    (conn : Conn) : CallerInfo × Option Error :=
  let info := CallerInfo.zero
  match conn.SyscallConn with
  | none => (info, some Error.ErrInvalidConnection)
  | some (.error err) => (info, some err)
  | some (.ok rawconn) =>
    let (info, err) :=
      match rawconn.controlFd with
      | some fd => getCallerInfoFromFileDescriptor fd
      | none => (info, none)
    match rawconn.controlErr with
    | some ctrlErr => (info, some ctrlErr)
    | none =>
      match err with
      | some err => (info, some err)
      | none => ({ info with Addr := conn.RemoteAddr }, none)

/-- The function `receiveTCPConn`. -/
def receiveTCPConn (ReadRequest : String → Except String Request) (conn : Conn) :
    CallerInfo × Option Error :=
  let info := CallerInfo.zero
  match conn.TCPConn with
  | none => (info, some Error.ErrInvalidConnection)
  | some tcpCon =>
    match tcpCon.Read 4096 with
    | .error _ => (info, some Error.ErrInvalidConnection)
    | .ok payload =>
      match ReadRequest payload with
      | .error _ => (info, some Error.ErrInvalidConnection)
      | .ok _ => (info, none)

/-! ## A concrete instance -/

/-- A platform function, after `getsockopt` with `SO_PEERCRED` on Linux: descriptor 7, a Unix
domain socket, belongs to process 4242 of user and group 1000; descriptor 9, a TCP socket, has
no peer credentials, and the call gives process 0 and the user and group 4294967295 without an
error; any other descriptor is not open. -/
def sampleGetCallerInfo : Nat → CallerInfo × Option Error := fun fd =>
  if fd = 7 then (⟨none, 4242, 1000, 1000⟩, none)
  else if fd = 9 then (⟨none, 0, 4294967295, 4294967295⟩, none)
  else (CallerInfo.zero, some (Error.other "getsockopt: bad file descriptor"))

/-- A Unix domain socket connection on descriptor 7. -/
def sampleUDSConn : Conn := ⟨some (.ok ⟨some 7, none⟩), none, some "@"⟩

/-- An in-memory connection, as `net.Pipe` gives: it has no descriptor. -/
def samplePipeConn : Conn := ⟨none, none, some "pipe"⟩

/-- A request reader that accepts what starts with `GET `. -/
def sampleReadRequest : String → Except String Request := fun payload =>
  if "GET ".toList.isPrefixOf payload.toList then .ok ⟨"GET", "/"⟩
  else .error "malformed HTTP request"

/-- A TCP connection, on descriptor 9, on which a peer has sent a well-formed request.  The
type `*net.TCPConn` implements `syscall.Conn`. -/
def sampleTCPConn : Conn :=
  ⟨some (.ok ⟨some 9, none⟩),
    some ⟨fun _ => .ok (String.mk ("GET / HTTP/1.1".toList ++ [Char.ofNat 13, Char.ofNat 10]
      ++ "Host: spire".toList ++ [Char.ofNat 13, Char.ofNat 10, Char.ofNat 13, Char.ofNat 10]))⟩,
    some "10.0.0.5:51234"⟩

end peertracker

/-!
The gRPC status errors the plugins return (`google.golang.org/grpc/status`).
-/

namespace status

/-- The status codes the plugins use. -/
inductive Code where
  | InvalidArgument
  | FailedPrecondition
  | Internal
  | DeadlineExceeded
  | Canceled
  deriving DecidableEq, Repr

/-- A Go `error`: a status error with its code and message, or the error of a library. -/
inductive Error where
  | status (code : Code) (message : String)
  | plain (message : String)
  deriving DecidableEq, Repr

end status

/-!
The AWS node attestor of the agent (`pkg/agent/plugin/nodeattestor/awsiid/iid.go`).

The plugin is its stored configuration; the mutex, which guards that field, is left out, the
calls being taken one after the other.
-/

namespace awsiid

/-- The type `IIDAttestorConfig`. -/
structure IIDAttestorConfig where
  EC2MetadataEndpoint : String
  deriving DecidableEq, Repr

/-- The type `IIDAttestorPlugin`: the pointer `config`, nil (`none`) until it is set. -/
structure IIDAttestorPlugin where
  config : Option IIDAttestorConfig
  deriving DecidableEq, Repr

/-- The type `caws.IIDAttestationData`. -/
structure IIDAttestationData where
  Document : String
  Signature : String
  deriving DecidableEq, Repr

/-- The type `configv1.ConfigureResponse`. -/
structure ConfigureResponse where
  deriving DecidableEq, Repr

/-- The calls out of the package.
  * `Decode`: `hcl.Decode` into a new `IIDAttestorConfig`
  * `fetchMetadata`: the function of that name, which queries the metadata service
  * `Marshal`: `json.Marshal`
  * `Send`: `stream.Send` of the payload. -/
structure Env where
  Decode : String → Except String IIDAttestorConfig
  fetchMetadata : String → Except String IIDAttestationData
  Marshal : IIDAttestationData → Except String String
  Send : String → Option status.Error

/-- The function `New`. -/
def New : IIDAttestorPlugin := ⟨none⟩

/-- The method `Configure`: the plugin after the call, and what the call returns. -/
def Configure (env : Env) (p : IIDAttestorPlugin) (HclConfiguration : String) :
    IIDAttestorPlugin × Option ConfigureResponse × Option status.Error :=
  match env.Decode HclConfiguration with
  | .error err =>
    (p, none, some (status.Error.status status.Code.InvalidArgument
      ("unable to decode configuration: " ++ err)))
  | .ok config => ({ p with config := some config }, some {}, none)

/-- The method `getConfig`. -/
def getConfig (p : IIDAttestorPlugin) : Option IIDAttestorConfig × Option status.Error :=
  if p.config = none then
    (none, some (status.Error.status status.Code.FailedPrecondition "not configured"))
  else (p.config, none)

/-- The method `AidAttestation`. -/
def AidAttestation (env : Env) (p : IIDAttestorPlugin) : Option status.Error :=
  match getConfig p with
  | (_, some err) => some err
  | (none, none) => some (status.Error.plain "invalid memory address or nil pointer dereference")
  | (some c, none) =>
    match env.fetchMetadata c.EC2MetadataEndpoint with
    | .error err => some (status.Error.plain err)
    | .ok attestationData =>
      match env.Marshal attestationData with
      | .error err =>
        some (status.Error.status status.Code.Internal
          ("unable to marshal attestation data: " ++ err))
      | .ok respData => env.Send respData

/-- A call on the plugin. -/
inductive Call where
  | Configure (HclConfiguration : String)
  | AidAttestation
  deriving DecidableEq, Repr

/-- The plugin after one call. -/
def step (env : Env) (p : IIDAttestorPlugin) : Call → IIDAttestorPlugin
  | .Configure hclConfiguration => (Configure env p hclConfiguration).1
  | .AidAttestation => p

/-- The plugin after a sequence of calls. -/
def run (env : Env) (p : IIDAttestorPlugin) (calls : List Call) : IIDAttestorPlugin :=
  calls.foldl (step env) p

/-- Whether a call is a `Configure` that succeeds. -/
def Call.succeeds (env : Env) : Call → Bool
  | .Configure hclConfiguration =>
    match env.Decode hclConfiguration with
    | .ok _ => true
    | .error _ => false
  | .AidAttestation => false

/-- A small instance: the configuration text is the endpoint, and a text that starts with an
opening brace does not decode. -/
def sampleEnv : Env where
  Decode := fun s =>
    if "\x7b".toList.isPrefixOf s.toList then .error "object expected closing RBRACE"
    else .ok ⟨s⟩
  fetchMetadata := fun endpoint => .ok ⟨"doc@" ++ endpoint, "sig"⟩
  Marshal := fun d => .ok (d.Document ++ "|" ++ d.Signature)
  Send := fun _ => none

end awsiid

/-!
The GCP node attestor of the agent (`pkg/agent/plugin/nodeattestor/gcpiit/iit.go`).
-/

namespace gcpiit

/-- The constant `defaultIdentityTokenHost`. -/
def defaultIdentityTokenHost : String := "metadata.google.internal"

/-- The constant `defaultServiceAccount`. -/
def defaultServiceAccount : String := "default"

/-- The type `IITAttestorConfig`. -/
structure IITAttestorConfig where
  IdentityTokenHost : String
  ServiceAccount : String
  deriving DecidableEq, Repr

/-- The type `IITAttestorPlugin`: the pointer `config`, nil (`none`) until it is set. -/
structure IITAttestorPlugin where
  config : Option IITAttestorConfig
  deriving DecidableEq, Repr

/-- The type `configv1.ConfigureResponse`. -/
structure ConfigureResponse where
  deriving DecidableEq, Repr

/-- The calls out of the package.
  * `Decode`: `hcl.Decode` into a new `IITAttestorConfig`
  * `identityTokenURL`: the function of that name, which formats the address with `net/url`
  * `retrieveInstanceIdentityToken`: the function of that name, which queries the metadata
    server
  * `Send`: `stream.Send` of the payload. -/
structure Env where
  Decode : String → Except String IITAttestorConfig
  identityTokenURL : String → String → String
  retrieveInstanceIdentityToken : String → Except String String
  Send : String → Option status.Error

/-- The function `New`. -/
def New : IITAttestorPlugin := ⟨none⟩

/-- The two assignments of `Configure` that fill in the defaults. -/
def withDefaults (config : IITAttestorConfig) : IITAttestorConfig :=
  let config :=
    if config.ServiceAccount = "" then { config with ServiceAccount := defaultServiceAccount }
    else config
  if config.IdentityTokenHost = "" then
    { config with IdentityTokenHost := defaultIdentityTokenHost }
  else config

/-- The method `Configure`: the plugin after the call, and what the call returns. -/
def Configure (env : Env) (p : IITAttestorPlugin) (HclConfiguration : String) :
    IITAttestorPlugin × Option ConfigureResponse × Option status.Error :=
  match env.Decode HclConfiguration with
  | .error err =>
    (p, none, some (status.Error.status status.Code.InvalidArgument
      ("unable to decode configuration: " ++ err)))
  | .ok config => ({ p with config := some (withDefaults config) }, some {}, none)

/-- The method `getConfig`. -/
def getConfig (p : IITAttestorPlugin) : Option IITAttestorConfig × Option status.Error :=
  if p.config = none then
    (none, some (status.Error.status status.Code.FailedPrecondition "not configured"))
  else (p.config, none)

/-- The method `AidAttestation`. -/
def AidAttestation (env : Env) (p : IITAttestorPlugin) : Option status.Error :=
  match getConfig p with
  | (_, some err) => some err
  | (none, none) => some (status.Error.plain "invalid memory address or nil pointer dereference")
  | (some c, none) =>
    match env.retrieveInstanceIdentityToken
        (env.identityTokenURL c.IdentityTokenHost c.ServiceAccount) with
    | .error err =>
      some (status.Error.status status.Code.Internal
        ("unable to retrieve valid identity token: " ++ err))
    | .ok identityToken => env.Send identityToken

/-- A call on the plugin. -/
inductive Call where
  | Configure (HclConfiguration : String)
  | AidAttestation
  deriving DecidableEq, Repr

/-- The plugin after one call. -/
def step (env : Env) (p : IITAttestorPlugin) : Call → IITAttestorPlugin
  | .Configure hclConfiguration => (Configure env p hclConfiguration).1
  | .AidAttestation => p

/-- The plugin after a sequence of calls. -/
def run (env : Env) (p : IITAttestorPlugin) (calls : List Call) : IITAttestorPlugin :=
  calls.foldl (step env) p

/-- Whether a call is a `Configure` that succeeds. -/
def Call.succeeds (env : Env) : Call → Bool
  | .Configure hclConfiguration =>
    match env.Decode hclConfiguration with
    | .ok _ => true
    | .error _ => false
  | .AidAttestation => false

/-- A small instance: the configuration text is the service account, the host is left empty,
and a text that starts with an opening brace does not decode. -/
def sampleEnv : Env where
  Decode := fun s =>
    if "\x7b".toList.isPrefixOf s.toList then .error "object expected closing RBRACE"
    else .ok ⟨"", s⟩
  identityTokenURL := fun host serviceAccount => "http://" ++ host ++ "/" ++ serviceAccount
  retrieveInstanceIdentityToken := fun url => .ok ("token from " ++ url)
  Send := fun _ => none

end gcpiit

/-!
The Kubernetes workload attestor of the agent
(`pkg/agent/plugin/workloadattestor/k8swsat/k8s_sat.go`).

A shallow embedding of `Attest` and `getSelectorValuesFromToken`.  The parser of
`github.com/golang-jwt/jwt`, with the base64 and JSON decoders of the standard library under
it, is modelled from the libraries; a run-time panic of the Go code is an outcome of its own.
-/

namespace k8swsat

/-! ## Data model -/

/-- A decoded JSON value, as `encoding/json` stores it in an `interface{}`.  A number is kept
as its literal; the conversion to `float64`, which fails on a literal out of range, is left
out. -/
inductive JSON where
  | null
  | bool (b : Bool)
  | number (literal : String)
  | string (s : String)
  | array (items : List JSON)
  | object (fields : List (String × JSON))
  deriving Repr

/-- The type `jwt.MapClaims`, a `map[string]interface{}`. -/
abbrev MapClaims := List (String × JSON)

/-- The type `workloadattestorv1.AttestRequest`. -/
structure AttestRequest where
  Pid : Int
  Meta : List (String × String)
  deriving DecidableEq, Repr

/-- The type `workloadattestorv1.AttestResponse`. -/
structure AttestResponse where
  SelectorValues : List String
  deriving DecidableEq, Repr

/-- What a call comes to: it returns, it panics, or the model has no step left. -/
inductive Outcome (α : Type) where
  | returned (value : α)
  | panicked (msg : String)
  | outOfSteps
  deriving DecidableEq, Repr

/-- The constant `defaultMaxPollAttempts`. -/
def defaultMaxPollAttempts : Nat := 60

/-- The variable `defaultSAToken` of `k8s_sat_posix.go`. -/
def defaultSAToken : String :=
  "eyJhbGciOiJSUzI1NiIsImtpZCI6ImRUcVFNWVQ0YlM4b0dORnh0QVpmbER6Y3QwRTVGWWdUeWlDRkpkUURKTUUifQ.eyJhdWQiOlsiaHR0cHM6Ly9rdWJlcm5ldGVzLmRlZmF1bHQuc3ZjLmNsdXN0ZXIubG9jYWwiLCJrM3MiXSwiZXhwIjoxNzA4MTA2MTQ4LCJpYXQiOjE2NzY1NzAxNDgsImlzcyI6Imh0dHBzOi8va3ViZXJuZXRlcy5kZWZhdWx0LnN2Yy5jbHVzdGVyLmxvY2FsIiwia3ViZXJuZXRlcy5pbyI6eyJuYW1lc3BhY2UiOiJkZWZhdWx0IiwicG9kIjp7Im5hbWUiOiJzaCIsInVpZCI6IjRhZjNmMWJhLTZmOTMtNGZlMS1iMzA0LWFhNDBiOWRlODNmZCJ9LCJzZXJ2aWNlYWNjb3VudCI6eyJuYW1lIjoiZGVmYXVsdCIsInVpZCI6IjQ1MGQyZWRmLTVmYTYtNGY1Yi05MDJhLTVlNzUyZWY4ZGM2YiJ9LCJ3YXJuYWZ0ZXIiOjE2NzY1NzM3NTV9LCJuYmYiOjE2NzY1NzAxNDgsInN1YiI6InN5c3RlbTpzZXJ2aWNlYWNjb3VudDpkZWZhdWx0OmRlZmF1bHQifQ.Eu9Gl2mWRbJ_RUDha-sSkI3s9SYPHYxUF1H8B2qrkbuUksYdM5uTKfpdtUfAr4CN6E_SY6NbOrZUln_XabgIsweG0qOH2yEdOXITVBX_0gidjvt2eRvQOXu-PnQVaYT_XODO2ggdAwUoIoAUvXdWjTBaYdPkVjqZe0_VvWi2jRh1KyJcivyOGdF2S_SZ9s5vcbH40fydW-MsbdhZjLR-VckeSX_YJGJkgtHnOjTMDkOA7mwJ0Yz17I-xQQ-hsgCLd7VB8-hXC4RmJQtOeqZInDXNMOmQVljhdm6Nmu4vLfMtPkWZpue9PnT2vcjO9FhLUwlpZEcCaDN3tQG88q2ypA"

/-- The calls out of the package.
  * `formatValue`: the text `fmt.Sprintf("%s", v)` gives for a value that is not a string
    (`none` is the nil interface)
  * `ctxDone`: whether, at the given attempt, the context is done before the retry interval
    has passed. -/
structure Env where
  formatValue : Option JSON → String
  ctxDone : Nat → Bool

/-! ## The token parser of `github.com/golang-jwt/jwt` -/

/-- The segments of a text between full stops: `strings.Split(s, ".")`. -/
def splitDots : List Char → List (List Char)
  | [] => [[]]
  | c :: cs =>
    if c = Char.ofNat 46 then [] :: splitDots cs
    else
      match splitDots cs with
      | [] => [[c]]
      | seg :: rest => (c :: seg) :: rest

/-- The value of a character in the URL alphabet of base64, `none` for any other character. -/
def base64URLValue (c : Char) : Option Nat :=
  let n := c.toNat
  if 65 ≤ n ∧ n ≤ 90 then some (n - 65)
  else if 97 ≤ n ∧ n ≤ 122 then some (n - 71)
  else if 48 ≤ n ∧ n ≤ 57 then some (n + 4)
  else if n = 45 then some 62
  else if n = 95 then some 63
  else none

/-- The padding character of base64, the equals sign. -/
def padChar : Char := Char.ofNat 61

/-- The method `base64.URLEncoding.DecodeString` on a text without line breaks: quanta of four
characters give three bytes; the last quantum may end in one or two padding characters and
gives two bytes or one. -/
def decodeQuanta : List Char → Option (List Nat)
  | [] => some []
  | a :: b :: c :: d :: rest =>
    match base64URLValue a, base64URLValue b with
    | some v0, some v1 =>
      if c = padChar then
        if d = padChar ∧ rest = [] then some [(v0 * 4 + v1 / 16) % 256]
        else none
      else
        match base64URLValue c with
        | none => none
        | some v2 =>
          if d = padChar then
            if rest = [] then
              some [(v0 * 4 + v1 / 16) % 256, (v1 * 16 + v2 / 4) % 256]
            else none
          else
            match base64URLValue d with
            | none => none
            | some v3 =>
              match decodeQuanta rest with
              | none => none
              | some bytes =>
                some ((v0 * 4 + v1 / 16) % 256 :: (v1 * 16 + v2 / 4) % 256
                  :: (v2 * 64 + v3) % 256 :: bytes)
    | _, _ => none
  | _ => none

/-- The function `jwt.DecodeSegment`: the segment is padded to a multiple of four characters
and decoded with `base64.URLEncoding`, which skips carriage returns and line feeds. -/
def DecodeSegment (seg : List Char) : Option (List Nat) :=
  let l := seg.length % 4
  let padded := if l > 0 then seg ++ List.replicate (4 - l) padChar else seg
  decodeQuanta (padded.filter (fun c => c ≠ Char.ofNat 10 ∧ c ≠ Char.ofNat 13))

/-! ## The decoder of `encoding/json` -/

/-- The white space of JSON: space, tab, line feed and carriage return. -/
def isSpace (b : Nat) : Bool := b = 32 ∨ b = 9 ∨ b = 10 ∨ b = 13

/-- The rest of a text after its leading white space. -/
def skipSpace : List Nat → List Nat
  | [] => []
  | b :: rest => if isSpace b then skipSpace rest else b :: rest

/-- The value of a hexadecimal digit. -/
def hexValue (b : Nat) : Option Nat :=
  if 48 ≤ b ∧ b ≤ 57 then some (b - 48)
  else if 97 ≤ b ∧ b ≤ 102 then some (b - 87)
  else if 65 ≤ b ∧ b ≤ 70 then some (b - 55)
  else none

/-- The function `getu4`: the number an escape of the form `\uXXXX` at the head of the text
stands for. -/
def getu4 : List Nat → Option Nat
  | 92 :: 117 :: a :: b :: c :: d :: _ =>
    match hexValue a, hexValue b, hexValue c, hexValue d with
    | some x, some y, some z, some w => some (((x * 16 + y) * 16 + z) * 16 + w)
    | _, _, _, _ => none
  | _ => none

/-- The replacement character U+FFFD. -/
def replacementChar : Char := Char.ofNat 65533

/-- Whether a byte is a continuation byte of UTF-8. -/
def isCont (b : Nat) : Bool := 128 ≤ b ∧ b ≤ 191

/-- The function `utf8.DecodeRune`: the first character of a text and the rest; a byte that
starts no valid encoding gives the replacement character. -/
def decodeRune : List Nat → Char × List Nat
  | [] => (replacementChar, [])
  | b0 :: rest =>
    if b0 < 128 then (Char.ofNat b0, rest)
    else
      match rest with
      | b1 :: b2 :: b3 :: rest3 =>
        if 194 ≤ b0 ∧ b0 ≤ 223 ∧ isCont b1 then
          (Char.ofNat ((b0 % 32) * 64 + b1 % 64), b2 :: b3 :: rest3)
        else if 224 ≤ b0 ∧ b0 ≤ 239 ∧ isCont b1 ∧ isCont b2 ∧ (b0 = 224 → 160 ≤ b1)
            ∧ (b0 = 237 → b1 ≤ 159) then
          (Char.ofNat (((b0 % 16) * 64 + b1 % 64) * 64 + b2 % 64), b3 :: rest3)
        else if 240 ≤ b0 ∧ b0 ≤ 244 ∧ isCont b1 ∧ isCont b2 ∧ isCont b3
            ∧ (b0 = 240 → 144 ≤ b1) ∧ (b0 = 244 → b1 ≤ 143) then
          (Char.ofNat ((((b0 % 8) * 64 + b1 % 64) * 64 + b2 % 64) * 64 + b3 % 64), rest3)
        else (replacementChar, rest)
      | b1 :: b2 :: [] =>
        if 194 ≤ b0 ∧ b0 ≤ 223 ∧ isCont b1 then (Char.ofNat ((b0 % 32) * 64 + b1 % 64), [b2])
        else if 224 ≤ b0 ∧ b0 ≤ 239 ∧ isCont b1 ∧ isCont b2 ∧ (b0 = 224 → 160 ≤ b1)
            ∧ (b0 = 237 → b1 ≤ 159) then
          (Char.ofNat (((b0 % 16) * 64 + b1 % 64) * 64 + b2 % 64), [])
        else (replacementChar, rest)
      | b1 :: [] =>
        if 194 ≤ b0 ∧ b0 ≤ 223 ∧ isCont b1 then (Char.ofNat ((b0 % 32) * 64 + b1 % 64), [])
        else (replacementChar, rest)
      | [] => (replacementChar, [])

/-- The text of a JSON string after its opening quote, up to the closing quote, and the rest of
the input.  The characters read so far are held in reverse order.  Byte 34 is the quote, 92 the
backslash, and 47, 98, 102, 110, 114, 116 and 117 are the slash and the letters b, f, n, r, t
and u of the escapes; a control character is not allowed in a string. -/
def parseString : Nat → List Nat → List Char → Option (String × List Nat)
  | 0, _, _ => none
  | _ + 1, [], _ => none
  | fuel + 1, b :: rest, acc =>
    if b = 34 then some (String.mk acc.reverse, rest)
    else if b = 92 then
      match rest with
      | [] => none
      | e :: rest1 =>
        if e = 34 then parseString fuel rest1 (Char.ofNat 34 :: acc)
        else if e = 92 then parseString fuel rest1 (Char.ofNat 92 :: acc)
        else if e = 47 then parseString fuel rest1 (Char.ofNat 47 :: acc)
        else if e = 98 then parseString fuel rest1 (Char.ofNat 8 :: acc)
        else if e = 102 then parseString fuel rest1 (Char.ofNat 12 :: acc)
        else if e = 110 then parseString fuel rest1 (Char.ofNat 10 :: acc)
        else if e = 114 then parseString fuel rest1 (Char.ofNat 13 :: acc)
        else if e = 116 then parseString fuel rest1 (Char.ofNat 9 :: acc)
        else if e = 117 then
          match getu4 (b :: rest) with
          | none => none
          | some rr =>
            let after := rest1.drop 4
            if 55296 ≤ rr ∧ rr ≤ 57343 then
              match getu4 after with
              | some rr1 =>
                if rr ≤ 56319 ∧ 56320 ≤ rr1 ∧ rr1 ≤ 57343 then
                  parseString fuel (after.drop 6)
                    (Char.ofNat ((rr - 55296) * 1024 + (rr1 - 56320) + 65536) :: acc)
                else parseString fuel after (replacementChar :: acc)
              | none => parseString fuel after (replacementChar :: acc)
            else parseString fuel after (Char.ofNat rr :: acc)
        else none
    else if b < 32 then none
    else
      match decodeRune (b :: rest) with
      | (c, rest1) => parseString fuel rest1 (c :: acc)

/-- Whether a byte is a decimal digit. -/
def isDigit (b : Nat) : Bool := 48 ≤ b ∧ b ≤ 57

/-- The longest run of digits at the head of a text, and the rest. -/
def takeDigits : List Nat → List Nat × List Nat
  | [] => ([], [])
  | b :: rest =>
    if isDigit b then
      match takeDigits rest with
      | (ds, rest1) => (b :: ds, rest1)
    else ([], b :: rest)

/-- The literal of a JSON number at the head of a text, and the rest: an optional minus sign,
the integer part without a leading zero, an optional fraction and an optional exponent. -/
def parseNumber (input : List Nat) : Option (List Nat × List Nat) :=
  let (sign, rest0) :=
    match input with
    | 45 :: rest => ([45], rest)
    | _ => ([], input)
  let intPart : Option (List Nat × List Nat) :=
    match rest0 with
    | 48 :: rest => some ([48], rest)
    | _ =>
      match takeDigits rest0 with
      | ([], _) => none
      | (ds, rest) => some (ds, rest)
  match intPart with
  | none => none
  | some (ds, rest1) =>
    let frac : Option (List Nat × List Nat) :=
      match rest1 with
      | 46 :: rest =>
        match takeDigits rest with
        | ([], _) => none
        | (fs, rest2) => some (46 :: fs, rest2)
      | _ => some ([], rest1)
    match frac with
    | none => none
    | some (fs, rest2) =>
      let exponent : Option (List Nat × List Nat) :=
        match rest2 with
        | e :: rest =>
          if e = 101 ∨ e = 69 then
            let (esign, rest3) :=
              match rest with
              | s :: rest4 => if s = 43 ∨ s = 45 then ([s], rest4) else ([], rest)
              | [] => ([], rest)
            match takeDigits rest3 with
            | ([], _) => none
            | (es, rest4) => some (e :: esign ++ es, rest4)
          else some ([], rest2)
        | [] => some ([], rest2)
      match exponent with
      | none => none
      | some (es, rest3) => some (sign ++ ds ++ fs ++ es, rest3)

/-- The assignment `m[key] = value` on a map held as a list of entries. -/
def setField (fields : List (String × JSON)) (key : String) (value : JSON) :
    List (String × JSON) :=
  if fields.any (fun kv => kv.1 = key) then
    fields.map (fun kv => if kv.1 = key then (key, value) else kv)
  else fields ++ [(key, value)]

mutual
/-- The JSON value at the head of a text, after white space, and the rest of the text.  Bytes
123 and 125 are the braces, 91 and 93 the brackets, 34 the quote, 58 the colon, 44 the comma,
and 116, 102 and 110 the first letters of `true`, `false` and `null`. -/
def parseValue : Nat → List Nat → Option (JSON × List Nat)
  | 0, _ => none
  | fuel + 1, input =>
    match skipSpace input with
    | [] => none
    | b :: rest =>
      if b = 123 then
        match skipSpace rest with
        | 125 :: rest1 => some (JSON.object [], rest1)
        | rest1 => parseMembers fuel rest1 []
      else if b = 91 then
        match skipSpace rest with
        | 93 :: rest1 => some (JSON.array [], rest1)
        | _ => parseElements fuel rest []
      else if b = 34 then
        match parseString (rest.length + 1) rest [] with
        | none => none
        | some (s, rest1) => some (JSON.string s, rest1)
      else if b = 116 then
        match rest with
        | 114 :: 117 :: 101 :: rest1 => some (JSON.bool true, rest1)
        | _ => none
      else if b = 102 then
        match rest with
        | 97 :: 108 :: 115 :: 101 :: rest1 => some (JSON.bool false, rest1)
        | _ => none
      else if b = 110 then
        match rest with
        | 117 :: 108 :: 108 :: rest1 => some (JSON.null, rest1)
        | _ => none
      else
        match parseNumber (b :: rest) with
        | none => none
        | some (literal, rest1) =>
          some (JSON.number (String.mk (literal.map Char.ofNat)), rest1)
/-- The members of a JSON object from the position of a key on, up to the closing brace. -/
def parseMembers : Nat → List Nat → List (String × JSON) → Option (JSON × List Nat)
  | 0, _, _ => none
  | fuel + 1, input, fields =>
    match input with
    | 34 :: rest =>
      match parseString (rest.length + 1) rest [] with
      | none => none
      | some (key, rest1) =>
        match skipSpace rest1 with
        | 58 :: rest2 =>
          match parseValue fuel rest2 with
          | none => none
          | some (value, rest3) =>
            match skipSpace rest3 with
            | 44 :: rest4 => parseMembers fuel (skipSpace rest4) (setField fields key value)
            | 125 :: rest4 => some (JSON.object (setField fields key value), rest4)
            | _ => none
        | _ => none
    | _ => none
/-- The elements of a JSON array from the position of a value on, up to the closing bracket. -/
def parseElements : Nat → List Nat → List JSON → Option (JSON × List Nat)
  | 0, _, _ => none
  | fuel + 1, input, items =>
    match parseValue fuel input with
    | none => none
    | some (value, rest1) =>
      match skipSpace rest1 with
      | 44 :: rest2 => parseElements fuel rest2 (items ++ [value])
      | 93 :: rest2 => some (JSON.array (items ++ [value]), rest2)
      | _ => none
end

/-- The function `json.Unmarshal` into a `map[string]interface{}`: the text must hold one JSON
value and white space; an object gives its entries, `null` leaves the map as it is. -/
def Unmarshal (data : List Nat) : Option (List (String × JSON)) :=
  match parseValue (data.length + 1) data with
  | some (JSON.object fields, rest) => if skipSpace rest = [] then some fields else none
  | some (JSON.null, rest) => if skipSpace rest = [] then some [] else none
  | _ => none

/-- The method `(*json.Decoder).Decode` into a `jwt.MapClaims`: the first JSON value of the text
is read; an object gives its entries, `null` leaves the map as it is. -/
def Decode (data : List Nat) : Option MapClaims :=
  match parseValue (data.length + 1) data with
  | some (JSON.object fields, _) => some fields
  | some (JSON.null, _) => some []
  | _ => none

/-- The names under which the package, in its release 3.2.2, registers a signing method. -/
def signingMethods : List String :=
  ["ES256", "ES384", "ES512", "EdDSA", "HS256", "HS384", "HS512", "none",
    "PS256", "PS384", "PS512", "RS256", "RS384", "RS512"]

/-- The method `(*jwt.Parser).ParseUnverified` with a `jwt.MapClaims`: the claims of the token
it returns, or its error. -/
@[irreducible]
def ParseUnverified (tokenString : String) : Except String MapClaims :=
  match splitDots tokenString.toList with
  | [part0, part1, _] =>
    match DecodeSegment part0 with
    | none => .error "illegal base64 data"
    | some headerBytes =>
      match Unmarshal headerBytes with
      | none => .error "invalid character in the header"
      | some header =>
        match DecodeSegment part1 with
        | none => .error "illegal base64 data"
        | some claimBytes =>
          match Decode claimBytes with
          | none => .error "invalid character in the claims"
          | some claims =>
            match header.lookup "alg" with
            | some (JSON.string method) =>
              if method ∈ signingMethods then .ok claims
              else .error "signing method (alg) is unavailable."
            | _ => .error "signing method (alg) is unspecified."
  | _ => .error "token contains an invalid number of segments"

/-! ## The functions -/

/-- The verb `%s` of `fmt.Sprintf` on an `interface{}`: a string is printed as it is. -/
def formatS (env : Env) : Option JSON → String
  | some (.string s) => s
  | v => env.formatValue v

/-- The function `getSelectorValuesFromToken`.  A type assertion on a value that is not a JSON
object panics. -/
def getSelectorValuesFromToken (env : Env) (token : String) : Outcome (List String) :=
  match ParseUnverified token with
  | .error _ => .returned []
  | .ok claims =>
    match claims.lookup "kubernetes.io" with
    | some (.object saAndNs) =>
      let namespace_ := saAndNs.lookup "namespace"
      match saAndNs.lookup "serviceaccount" with
      | some (.object serviceaccount) =>
        let saName := serviceaccount.lookup "name"
        .returned ["sa:" ++ formatS env saName, "ns:" ++ formatS env namespace_]
      | _ => .panicked "interface conversion: interface is not map[string]interface"
    | _ => .panicked "interface conversion: interface is not map[string]interface"

/-- The loop of `Attest` from the given attempt on, for at most `steps` iterations.  The local
variable `log` is a nil interface, so the call `log.Warn` panics. -/
def attestLoop (env : Env) : Nat → Nat → Outcome (Option AttestResponse × Option status.Error)
  | 0, _ => .outOfSteps
  | steps + 1, attempt =>
    let token := defaultSAToken
    match getSelectorValuesFromToken env token with
    | .panicked msg => .panicked msg
    | .outOfSteps => .outOfSteps
    | .returned values =>
      let selectorValues : List String := [] ++ values
      let attestResponse : Option AttestResponse :=
        if selectorValues.length > 0 then some ⟨selectorValues⟩ else none
      if attestResponse ≠ none then .returned (attestResponse, none)
      else if attempt ≥ defaultMaxPollAttempts then
        .panicked "invalid memory address or nil pointer dereference"
      else if env.ctxDone attempt then
        .returned (none, some (status.Error.status status.Code.Canceled
          "no selectors found: context canceled"))
      else attestLoop env steps (attempt + 1)

/-- The method `Attest`: the loop starts at attempt 1 and ends at attempt
`defaultMaxPollAttempts` at the latest. -/
def Attest (env : Env) (_req : AttestRequest) :
    Outcome (Option AttestResponse × Option status.Error) :=
  attestLoop env defaultMaxPollAttempts 1

/-! ## The payload of the embedded token -/

/-- The claims of `defaultSAToken`: the JSON object its second segment encodes. -/
def defaultSATokenClaims : MapClaims :=
  [("aud", .array [.string "https://kubernetes.default.svc.cluster.local", .string "k3s"]),
   ("exp", .number "1708106148"),
   ("iat", .number "1676570148"),
   ("iss", .string "https://kubernetes.default.svc.cluster.local"),
   ("kubernetes.io", .object
     [("namespace", .string "default"),
      ("pod", .object [("name", .string "sh"),
        ("uid", .string "4af3f1ba-6f93-4fe1-b304-aa40b9de83fd")]),
      ("serviceaccount", .object [("name", .string "default"),
        ("uid", .string "450d2edf-5fa6-4f5b-902a-5e752ef8dc6b")]),
      ("warnafter", .number "1676573755")]),
   ("nbf", .number "1676570148"),
   ("sub", .string "system:serviceaccount:default:default")]

end k8swsat

namespace jwtsvid

/-! ## Lemmas on the stages of `ValidateToken` -/

/-- The nine algorithm names of the `switch`. -/
def allowedAlgorithms : List String :=
  ["RS256", "RS384", "RS512", "ES256", "ES384", "ES512", "PS256", "PS384", "PS512"]

theorem supportedAlgorithm_iff (alg : String) :
    supportedAlgorithm alg = true ↔ alg ∈ allowedAlgorithms := by
  unfold supportedAlgorithm allowedAlgorithms
  constructor
  · intro h
    split at h <;> simp_all
  · intro h
    simp only [List.mem_cons, List.mem_singleton, List.not_mem_nil, or_false] at h
    rcases h with h | h | h | h | h | h | h | h | h <;> subst h <;> rfl

/-- The result of `ValidateToken` once the token has parsed with its single header. -/
theorem ValidateToken_single_header (deps : Deps) (now : Time) (token : String)
    (keyStore : KeyStore) (audience : List String) (tok : JSONWebToken) (h : Header)
    (hparse : deps.ParseSigned token = .ok tok) (hhdr : tok.Headers = [h]) :
    ValidateToken deps now token keyStore audience =
      if supportedAlgorithm h.Algorithm then
        afterAlgorithmCheck deps now tok h keyStore audience
      else (ID.zero, none, some (Error.unsupportedAlgorithm h.Algorithm)) := by
  unfold ValidateToken
  rw [hparse]
  simp only [hhdr]

/-- The result of `ValidateToken` once the header, algorithm, key id and subject checks have
passed: the key lookup decides. -/
theorem ValidateToken_resolved (deps : Deps) (now : Time) (token : String)
    (keyStore : KeyStore) (audience : List String) (tok : JSONWebToken) (h : Header)
    (claims : Claims) (spiffeID : ID)
    (hparse : deps.ParseSigned token = .ok tok) (hhdr : tok.Headers = [h])
    (halg : supportedAlgorithm h.Algorithm = true) (hkid : h.KeyID ≠ "")
    (hclaims : deps.UnsafeClaimsWithoutVerification tok = .ok claims)
    (hsub : claims.Subject ≠ "") (hid : deps.FromString claims.Subject = .ok spiffeID) :
    ValidateToken deps now token keyStore audience =
      match keyStore.FindPublicKey spiffeID.TrustDomain h.KeyID with
      | (_, some err) => (ID.zero, none, some err)
      | (key, none) => verifyAndValidate deps now tok claims spiffeID key audience := by
  rw [ValidateToken_single_header deps now token keyStore audience tok h hparse hhdr]
  simp only [halg, if_true, afterAlgorithmCheck, hkid, if_false, resolveAndVerify, hclaims,
    hsub, hid]

/-- Every result of `verifyAndValidate` is an error with the zero id and no map, or the given
id with the verified map. -/
theorem verifyAndValidate_cases (deps : Deps) (now : Time) (tok : JSONWebToken)
    (claims : Claims) (spiffeID : ID) (key : PublicKey) (audience : List String) :
    (∃ e, verifyAndValidate deps now tok claims spiffeID key audience
        = (ID.zero, none, some e)) ∨
    (∃ claimsMap, deps.VerifiedClaims tok key = .ok claimsMap ∧
      claims.Validate ⟨"", "", audience, "", now⟩ = none ∧
      verifyAndValidate deps now tok claims spiffeID key audience
        = (spiffeID, some claimsMap, none)) := by
  unfold verifyAndValidate
  cases hv : deps.VerifiedClaims tok key with
  | error e => exact Or.inl ⟨_, rfl⟩
  | ok claimsMap =>
    cases hval : claims.Validate ⟨"", "", audience, "", now⟩ with
    | some err => exact Or.inl ⟨_, rfl⟩
    | none => exact Or.inr ⟨claimsMap, rfl, rfl, rfl⟩

/-- Every result of `ValidateToken` is an error with the zero id and no map, or comes from a
run in which every step passed; in that case the id is the one parsed from the subject of the
unverified claims and the map is the verified parse under the key that was looked up. -/
theorem ValidateToken_cases (deps : Deps) (now : Time) (token : String)
    (keyStore : KeyStore) (audience : List String) :
    (∃ e, ValidateToken deps now token keyStore audience = (ID.zero, none, some e)) ∨
    (∃ tok h claims spiffeID key claimsMap,
      deps.ParseSigned token = .ok tok ∧ tok.Headers = [h] ∧
      supportedAlgorithm h.Algorithm = true ∧ h.KeyID ≠ "" ∧
      deps.UnsafeClaimsWithoutVerification tok = .ok claims ∧ claims.Subject ≠ "" ∧
      deps.FromString claims.Subject = .ok spiffeID ∧
      keyStore.FindPublicKey spiffeID.TrustDomain h.KeyID = (key, none) ∧
      deps.VerifiedClaims tok key = .ok claimsMap ∧
      claims.Validate ⟨"", "", audience, "", now⟩ = none ∧
      ValidateToken deps now token keyStore audience = (spiffeID, some claimsMap, none)) := by
  cases hparse : deps.ParseSigned token with
  | error e =>
    left
    exact ⟨Error.unableToParse, by simp only [ValidateToken, hparse]⟩
  | ok tok =>
    by_cases hone : ∃ h, tok.Headers = [h]
    · obtain ⟨h, hhdr⟩ := hone
      by_cases halg : supportedAlgorithm h.Algorithm = true
      · by_cases hkid : h.KeyID = ""
        · left
          refine ⟨Error.missingKeyID, ?_⟩
          rw [ValidateToken_single_header deps now token keyStore audience tok h hparse hhdr]
          simp only [halg, if_true, afterAlgorithmCheck, hkid]
        · cases hclaims : deps.UnsafeClaimsWithoutVerification tok with
          | error e =>
            left
            refine ⟨Error.wrap e, ?_⟩
            rw [ValidateToken_single_header deps now token keyStore audience tok h hparse hhdr]
            simp only [halg, if_true, afterAlgorithmCheck, hkid, if_false, resolveAndVerify,
              hclaims]
          | ok claims =>
            by_cases hsub : claims.Subject = ""
            · left
              refine ⟨Error.missingSubject, ?_⟩
              rw [ValidateToken_single_header deps now token keyStore audience tok h hparse
                hhdr]
              simp only [halg, if_true, afterAlgorithmCheck, hkid, if_false, resolveAndVerify,
                hclaims, hsub]
            · cases hid : deps.FromString claims.Subject with
              | error e =>
                left
                refine ⟨Error.invalidSubject e, ?_⟩
                rw [ValidateToken_single_header deps now token keyStore audience tok h hparse
                  hhdr]
                simp only [halg, if_true, afterAlgorithmCheck, hkid, if_false,
                  resolveAndVerify, hclaims, hsub, hid]
              | ok spiffeID =>
                rw [ValidateToken_resolved deps now token keyStore audience tok h claims
                  spiffeID hparse hhdr halg hkid hclaims hsub hid]
                rcases hfind : keyStore.FindPublicKey spiffeID.TrustDomain h.KeyID with
                  ⟨key, _ | err⟩
                · simp only []
                  rcases verifyAndValidate_cases deps now tok claims spiffeID key audience with
                    ⟨e, he⟩ | ⟨claimsMap, hv, hval, hres⟩
                  · left; exact ⟨e, he⟩
                  · right
                    exact ⟨tok, h, claims, spiffeID, key, claimsMap, rfl, hhdr, halg, hkid,
                      hclaims, hsub, hid, hfind, hv, hval, hres⟩
                · left; exact ⟨err, rfl⟩
      · left
        refine ⟨Error.unsupportedAlgorithm h.Algorithm, ?_⟩
        rw [ValidateToken_single_header deps now token keyStore audience tok h hparse hhdr]
        simp only [halg]
        rfl
    · left
      refine ⟨Error.headerCount tok.Headers.length, ?_⟩
      unfold ValidateToken
      rw [hparse]
      simp only []
      split
      · next h heq => exact absurd ⟨h, heq⟩ hone
      · rfl

/-! ## Lemmas on `Validate` -/

theorem AudienceContains_iff (s : List String) (v : String) :
    AudienceContains s v = true ↔ v ∈ s := by
  unfold AudienceContains
  simp only [List.any_eq_true, decide_eq_true_eq]
  constructor
  · rintro ⟨a, ha, rfl⟩; exact ha
  · intro hv; exact ⟨v, hv, rfl⟩

/-- The audience test of `ValidateWithLeeway` fires exactly when some expected audience is not
among the claim's audiences. -/
theorem audience_test_iff (c : Claims) (audience : List String) :
    (audience.length ≠ 0 ∧ audience.any (fun v => !AudienceContains c.Audience v) = true) ↔
      ∃ v ∈ audience, v ∉ c.Audience := by
  constructor
  · rintro ⟨_, hany⟩
    rw [List.any_eq_true] at hany
    obtain ⟨v, hv, hb⟩ := hany
    refine ⟨v, hv, fun hin => ?_⟩
    rw [(AudienceContains_iff _ _).mpr hin] at hb
    exact absurd hb (by decide)
  · rintro ⟨v, hv, hnot⟩
    constructor
    · intro h0
      rw [List.length_eq_zero] at h0
      subst h0
      exact absurd hv (List.not_mem_nil v)
    · rw [List.any_eq_true]
      refine ⟨v, hv, ?_⟩
      have hf : AudienceContains c.Audience v = false := by
        rw [Bool.eq_false_iff]; exact fun h => hnot ((AudienceContains_iff _ _).mp h)
      rw [hf]; rfl

/-- The form of `Validate` under the expectation `ValidateToken` builds: no issuer, subject or
id is expected, so the audience test comes first, then the three time tests. -/
theorem Validate_eq (c : Claims) (audience : List String) (now : Time) :
    c.Validate ⟨"", "", audience, "", now⟩ =
      if audience.length ≠ 0 ∧ audience.any (fun v => !AudienceContains c.Audience v) = true
      then some .ErrInvalidAudience
      else if (!now.IsZero) = true then
        if c.NotBefore ≠ none ∧
            (now.Add DefaultLeeway).Before (NumericDateTime c.NotBefore) = true then
          some .ErrNotValidYet
        else if c.Expiry ≠ none ∧
            (now.Add (-DefaultLeeway)).After (NumericDateTime c.Expiry) = true then
          some .ErrExpired
        else if c.IssuedAt ≠ none ∧
            (now.Add DefaultLeeway).Before (NumericDateTime c.IssuedAt) = true then
          some .ErrIssuedInTheFuture
        else none
      else none := by
  unfold Claims.Validate Claims.ValidateWithLeeway
  rw [if_neg (fun h => h.1 rfl), if_neg (fun h => h.1 rfl), if_neg (fun h => h.1 rfl)]

/-- The method `Validate` reports an invalid audience exactly when some expected audience is not
among the claim's audiences. -/
theorem Validate_audience (c : Claims) (audience : List String) (now : Time) :
    c.Validate ⟨"", "", audience, "", now⟩ = some ValidationError.ErrInvalidAudience ↔
      ∃ v ∈ audience, v ∉ c.Audience := by
  rw [Validate_eq, ← audience_test_iff]
  by_cases ht : audience.length ≠ 0 ∧
      audience.any (fun v => !AudienceContains c.Audience v) = true
  · rw [if_pos ht]; exact ⟨fun _ => ht, fun _ => rfl⟩
  · rw [if_neg ht]
    refine ⟨fun h => ?_, fun h => absurd h ht⟩
    exfalso
    split_ifs at h <;> cases h

/-- An `int64` result that is in the range of `int64` is the mathematical result. -/
theorem wrapInt64_of_range (x : Int) (hlo : minInt64 ≤ x) (hhi : x ≤ maxInt64) :
    wrapInt64 x = x := by
  unfold wrapInt64
  unfold minInt64 at hlo
  unfold maxInt64 at hhi
  omega

/-- One minute added to a time whose second is at least a minute below the last one. -/
theorem Add_leeway (now : Time) (hlo : minInt64 ≤ now.sec) (hhi : now.sec ≤ maxInt64 - 60)
    (hnsec : 0 ≤ now.nsec ∧ now.nsec < 1000000000) :
    now.Add DefaultLeeway = ⟨now.sec + 60, now.nsec⟩ := by
  have hd : Int.tdiv DefaultLeeway 1000000000 = 60 := by decide
  have hm : Int.tmod DefaultLeeway 1000000000 = 0 := by decide
  have hw : wrapInt64 (now.sec + 60) = now.sec + 60 :=
    wrapInt64_of_range _ (by omega) (by omega)
  unfold Time.Add
  simp only [hd, hm, add_zero]
  rw [if_neg (by omega), if_neg (by omega)]
  unfold Time.addSec
  simp only [hw]
  rw [if_pos (by simp)]

/-- One minute taken from a time whose second is at least a minute above the first one. -/
theorem Add_neg_leeway (now : Time) (hlo : minInt64 + 60 ≤ now.sec) (hhi : now.sec ≤ maxInt64)
    (hnsec : 0 ≤ now.nsec ∧ now.nsec < 1000000000) :
    now.Add (-DefaultLeeway) = ⟨now.sec - 60, now.nsec⟩ := by
  have hd : Int.tdiv (-DefaultLeeway) 1000000000 = -60 := by decide
  have hm : Int.tmod (-DefaultLeeway) 1000000000 = 0 := by decide
  have hw : wrapInt64 (now.sec + -60) = now.sec - 60 := by
    have h := wrapInt64_of_range (now.sec + -60) (by omega) (by omega)
    rw [h]
    omega
  unfold Time.Add
  simp only [hd, hm, add_zero]
  rw [if_neg (by omega), if_neg (by omega)]
  unfold Time.addSec
  simp only [hw]
  rw [if_pos (by simp)]

/-- The method `Validate` reports expiry when the audience and not-before tests pass and the
expiry lies more than the leeway of one minute before the current time, the dates being in the
range in which the `int64` sums of `time.Unix` and `Time.Add` do not wrap. -/
theorem Validate_expired (c : Claims) (audience : List String) (now : Time) (exp : Int)
    (haud : ∀ v ∈ audience, v ∈ c.Audience) (hnow : now ≠ Time.zero)
    (hsec : now.sec ≤ maxInt64 - 60) (hnsec : 0 ≤ now.nsec ∧ now.nsec < 1000000000)
    (hnbf : ∀ nbf, c.NotBefore = some nbf →
      minInt64 ≤ nbf ∧ nbf ≤ 9223371974719179007 ∧ nbf + unixToInternal ≤ now.sec + 60)
    (hexp : c.Expiry = some exp) (hexp64 : minInt64 ≤ exp)
    (hlate : exp + unixToInternal < now.sec - 60 ∨
      (exp + unixToInternal = now.sec - 60 ∧ 0 < now.nsec)) :
    c.Validate ⟨"", "", audience, "", now⟩ = some ValidationError.ErrExpired := by
  rw [Validate_eq]
  have hsec2 : now.sec ≤ 9223372036854775807 - 60 := hsec
  have hexp2 : -9223372036854775808 ≤ exp := hexp64
  have hlate2 : exp + 62135596800 < now.sec - 60 ∨
      (exp + 62135596800 = now.sec - 60 ∧ 0 < now.nsec) := hlate
  have ht : ¬ (audience.length ≠ 0 ∧
      audience.any (fun v => !AudienceContains c.Audience v) = true) := by
    rw [audience_test_iff]
    rintro ⟨v, hv, hnot⟩
    exact hnot (haud v hv)
  have hz : (!now.IsZero) = true := by
    have hne : ¬ (now.sec = 0 ∧ now.nsec = 0) := by
      rintro ⟨h1, h2⟩
      apply hnow
      cases now
      simp only [Time.zero, Time.mk.injEq]
      exact ⟨h1, h2⟩
    simp [Time.IsZero, hne]
  have hlo : minInt64 + 60 ≤ now.sec := by
    show -9223372036854775808 + 60 ≤ now.sec
    omega
  have hlo2 : minInt64 ≤ now.sec := by
    show -9223372036854775808 ≤ now.sec
    omega
  have hhi2 : now.sec ≤ maxInt64 := by
    show now.sec ≤ 9223372036854775807
    omega
  have hn : ¬ (c.NotBefore ≠ none ∧
      (now.Add DefaultLeeway).Before (NumericDateTime c.NotBefore) = true) := by
    rintro ⟨hne, hb⟩
    cases hnb : c.NotBefore with
    | none => exact hne hnb
    | some nbf =>
      obtain ⟨h1, h2, h3⟩ := hnbf nbf hnb
      have h1b : -9223372036854775808 ≤ nbf := h1
      have h3b : nbf + 62135596800 ≤ now.sec + 60 := h3
      have hw : wrapInt64 (nbf + unixToInternal) = nbf + 62135596800 :=
        wrapInt64_of_range _
          (by show -9223372036854775808 ≤ nbf + 62135596800; omega)
          (by show nbf + 62135596800 ≤ 9223372036854775807; omega)
      rw [hnb, Add_leeway now hlo2 hsec hnsec] at hb
      simp only [Time.Before, NumericDateTime, unixTime, hw, decide_eq_true_eq] at hb
      omega
  have he : c.Expiry ≠ none ∧
      (now.Add (-DefaultLeeway)).After (NumericDateTime c.Expiry) = true := by
    refine ⟨by rw [hexp]; exact Option.some_ne_none _, ?_⟩
    have hw : wrapInt64 (exp + unixToInternal) = exp + 62135596800 :=
      wrapInt64_of_range _
        (by show -9223372036854775808 ≤ exp + 62135596800; omega)
        (by show exp + 62135596800 ≤ 9223372036854775807; omega)
    rw [hexp, Add_neg_leeway now hlo hhi2 hnsec]
    simp only [Time.After, NumericDateTime, unixTime, hw, decide_eq_true_eq]
    omega
  rw [if_neg ht, if_pos hz, if_neg hn, if_pos he]

/-- The result of `ValidateToken` once the key lookup has returned a key and the verified parse
has succeeded: the validation of the registered claims decides. -/
theorem ValidateToken_verified (deps : Deps) (now : Time) (token : String)
    (keyStore : KeyStore) (audience : List String) (tok : JSONWebToken) (h : Header)
    (claims : Claims) (spiffeID : ID) (key : PublicKey) (claimsMap : ClaimMap)
    (hparse : deps.ParseSigned token = .ok tok) (hhdr : tok.Headers = [h])
    (halg : supportedAlgorithm h.Algorithm = true) (hkid : h.KeyID ≠ "")
    (hclaims : deps.UnsafeClaimsWithoutVerification tok = .ok claims)
    (hsub : claims.Subject ≠ "") (hid : deps.FromString claims.Subject = .ok spiffeID)
    (hfind : keyStore.FindPublicKey spiffeID.TrustDomain h.KeyID = (key, none))
    (hver : deps.VerifiedClaims tok key = .ok claimsMap) :
    ValidateToken deps now token keyStore audience =
      match claims.Validate ⟨"", "", audience, "", now⟩ with
      | some err => (ID.zero, none, some (convertValidationError audience claims err))
      | none => (spiffeID, some claimsMap, none) := by
  rw [ValidateToken_resolved deps now token keyStore audience tok h claims spiffeID
    hparse hhdr halg hkid hclaims hsub hid, hfind]
  simp only [verifyAndValidate, hver]

/-! ## The key store claims -/

/-- C1: for every key store map and every token that passes the header-count, algorithm, key-id
and subject checks, if the map holds no key under the pair (trust domain of the subject, key id
of the header) then `ValidateToken` returns the zero id, no claim map and one of the two lookup
errors, whatever the map holds under other trust domains. -/
theorem ValidateToken_key_not_found (deps : Deps) (now : Time) (token : String)
    (m : TrustDomainKeys) (audience : List String) (tok : JSONWebToken) (h : Header)
    (claims : Claims) (spiffeID : ID)
    (hparse : deps.ParseSigned token = .ok tok) (hhdr : tok.Headers = [h])
    (halg : supportedAlgorithm h.Algorithm = true) (hkid : h.KeyID ≠ "")
    (hclaims : deps.UnsafeClaimsWithoutVerification tok = .ok claims)
    (hsub : claims.Subject ≠ "") (hid : deps.FromString claims.Subject = .ok spiffeID)
    (hnone : ¬ ∃ keys k, m spiffeID.TrustDomain = some keys ∧ keys h.KeyID = some k) :
    ValidateToken deps now token (NewKeyStore m) audience
        = (ID.zero, none, some (Error.noKeysForTrustDomain spiffeID.TrustDomain)) ∨
    ValidateToken deps now token (NewKeyStore m) audience
        = (ID.zero, none, some (Error.publicKeyNotFound h.KeyID spiffeID.TrustDomain)) := by
  rw [ValidateToken_resolved deps now token (NewKeyStore m) audience tok h claims spiffeID
    hparse hhdr halg hkid hclaims hsub hid]
  simp only [NewKeyStore, keyStore.FindPublicKey]
  cases htd : m spiffeID.TrustDomain with
  | none => left; rfl
  | some keys =>
    cases hk : keys h.KeyID with
    | none => right; simp only [hk]
    | some k => exact absurd ⟨keys, k, htd, hk⟩ hnone

/-- Witness of C1: the token `blog` names `example.org` and `k1`; the map holds `k1` under
`other.org` only, and validation fails with the lookup error. -/
theorem ValidateToken_key_not_found_witness :
    otherMap otherOrg = some sampleKeys ∧ sampleKeys "k1" = some (PublicKey.key "ec-1") ∧
    (ValidateToken sampleDeps sampleNow "blog" (NewKeyStore otherMap) ["bar"]
        = (ID.zero, none, some (Error.noKeysForTrustDomain exampleOrg)) ∨
     ValidateToken sampleDeps sampleNow "blog" (NewKeyStore otherMap) ["bar"]
        = (ID.zero, none, some (Error.publicKeyNotFound "k1" exampleOrg))) :=
  ⟨rfl, rfl,
    ValidateToken_key_not_found sampleDeps sampleNow "blog" otherMap ["bar"]
      ⟨[⟨"k1", "ES256"⟩], "blog"⟩ ⟨"k1", "ES256"⟩ blogClaims ⟨exampleOrg, "/blog"⟩
      rfl rfl (by decide) (by decide) rfl (by decide) rfl
      (by
        rintro ⟨keys, k, htd, _⟩
        have hmiss : otherMap exampleOrg = none := rfl
        rw [show (⟨exampleOrg, "/blog"⟩ : ID).TrustDomain = exampleOrg from rfl, hmiss] at htd
        exact Option.noConfusion htd)⟩

/-- C2: `NewKeyStore(m).FindPublicKey(td, kid)` returns the key `k` with no error exactly when
`m` has an entry for `td` that maps `kid` to `k`; in every other case it returns the nil key
and an error; and a map that agrees with `m` at `td` gives the same result, whatever it holds
under other trust domains. -/
theorem FindPublicKey_spec (m : TrustDomainKeys) (td : TrustDomain) (kid : String) :
    (∀ k, (NewKeyStore m).FindPublicKey td kid = (k, none) ↔
      ∃ keys, m td = some keys ∧ keys kid = some k) ∧
    ((¬ ∃ keys k, m td = some keys ∧ keys kid = some k) →
      ∃ e, (NewKeyStore m).FindPublicKey td kid = (PublicKey.nil, some e)) ∧
    (∀ m2 : TrustDomainKeys, m2 td = m td →
      (NewKeyStore m2).FindPublicKey td kid = (NewKeyStore m).FindPublicKey td kid) := by
  refine ⟨fun k => ?_, fun hnone => ?_, fun m2 h2 => ?_⟩
  · simp only [NewKeyStore, keyStore.FindPublicKey]
    cases htd : m td with
    | none => simp
    | some keys =>
      cases hk : keys kid with
      | none =>
        simp only [hk]
        constructor
        · intro h
          exact absurd (congrArg (fun r => r.2) h) (by simp)
        · rintro ⟨keys2, h2, h3⟩
          have hkeys : keys = keys2 := Option.some.inj h2
          rw [← hkeys, hk] at h3
          exact Option.noConfusion h3
      | some k2 =>
        simp only [hk]
        constructor
        · intro h
          have hkk : k2 = k := congrArg (fun r => r.1) h
          exact ⟨keys, rfl, by rw [hk, hkk]⟩
        · rintro ⟨keys2, h2, h3⟩
          have hkeys : keys = keys2 := Option.some.inj h2
          rw [← hkeys, hk] at h3
          rw [Option.some.inj h3]
  · simp only [NewKeyStore, keyStore.FindPublicKey]
    cases htd : m td with
    | none => exact ⟨_, rfl⟩
    | some keys =>
      cases hk : keys kid with
      | none => exact ⟨Error.publicKeyNotFound kid td, by simp only [hk]⟩
      | some k => exact absurd ⟨keys, k, htd, hk⟩ hnone
  · simp only [NewKeyStore, keyStore.FindPublicKey, h2]

/-! ## The header and algorithm claims -/

/-- C3: for a token that parses with exactly one header, `ValidateToken` goes on to the key id
check and beyond when the declared algorithm is one of the nine listed names, and for any other
declared algorithm returns the zero id, no claim map and the unsupported-algorithm error. -/
theorem ValidateToken_algorithm_check (deps : Deps) (now : Time) (token : String)
    (keyStore : KeyStore) (audience : List String) (tok : JSONWebToken) (h : Header)
    (hparse : deps.ParseSigned token = .ok tok) (hhdr : tok.Headers = [h]) :
    (h.Algorithm ∈ ["RS256", "RS384", "RS512", "ES256", "ES384", "ES512",
        "PS256", "PS384", "PS512"] →
      ValidateToken deps now token keyStore audience
        = afterAlgorithmCheck deps now tok h keyStore audience) ∧
    (h.Algorithm ∉ ["RS256", "RS384", "RS512", "ES256", "ES384", "ES512",
        "PS256", "PS384", "PS512"] →
      ValidateToken deps now token keyStore audience
        = (ID.zero, none, some (Error.unsupportedAlgorithm h.Algorithm))) := by
  rw [ValidateToken_single_header deps now token keyStore audience tok h hparse hhdr]
  constructor
  · intro hin
    rw [if_pos ((supportedAlgorithm_iff h.Algorithm).mpr hin)]
  · intro hnin
    rw [if_neg (fun hs => hnin ((supportedAlgorithm_iff h.Algorithm).mp hs))]

/-- Witness of C3: the token `hmac` declares `HS256` and is rejected; the token `blog` declares
`ES256` and goes on. -/
theorem ValidateToken_algorithm_check_witness :
    ValidateToken sampleDeps sampleNow "hmac" (NewKeyStore sampleMap) ["bar"]
      = (ID.zero, none, some (Error.unsupportedAlgorithm "HS256")) ∧
    ValidateToken sampleDeps sampleNow "blog" (NewKeyStore sampleMap) ["bar"]
      = afterAlgorithmCheck sampleDeps sampleNow ⟨[⟨"k1", "ES256"⟩], "blog"⟩ ⟨"k1", "ES256"⟩
          (NewKeyStore sampleMap) ["bar"] :=
  ⟨(ValidateToken_algorithm_check sampleDeps sampleNow "hmac" (NewKeyStore sampleMap) ["bar"]
      ⟨[⟨"k1", "HS256"⟩], "hmac"⟩ ⟨"k1", "HS256"⟩ rfl rfl).2 (by decide),
   (ValidateToken_algorithm_check sampleDeps sampleNow "blog" (NewKeyStore sampleMap) ["bar"]
      ⟨[⟨"k1", "ES256"⟩], "blog"⟩ ⟨"k1", "ES256"⟩ rfl rfl).1 (by decide)⟩

/-- C4: for a token whose declared algorithm is outside the allow-list, `ValidateToken` returns
the unsupported-algorithm error with the zero id and no claim map, and the result is the same
for any two key stores. -/
theorem ValidateToken_unsupported_ignores_keyStore (deps : Deps) (now : Time) (token : String)
    (ks1 ks2 : KeyStore) (audience : List String) (tok : JSONWebToken) (h : Header)
    (hparse : deps.ParseSigned token = .ok tok) (hhdr : tok.Headers = [h])
    (halg : h.Algorithm ∉ ["RS256", "RS384", "RS512", "ES256", "ES384", "ES512",
        "PS256", "PS384", "PS512"]) :
    ValidateToken deps now token ks1 audience
      = (ID.zero, none, some (Error.unsupportedAlgorithm h.Algorithm)) ∧
    ValidateToken deps now token ks1 audience = ValidateToken deps now token ks2 audience := by
  have hns : ¬ supportedAlgorithm h.Algorithm = true :=
    fun hs => halg ((supportedAlgorithm_iff h.Algorithm).mp hs)
  rw [ValidateToken_single_header deps now token ks1 audience tok h hparse hhdr,
    ValidateToken_single_header deps now token ks2 audience tok h hparse hhdr,
    if_neg hns, if_neg hns]
  exact ⟨rfl, rfl⟩

/-- Witness of C4: the token `hmac` gets the same unsupported-algorithm result under a store
that holds its key and under a store that fails every lookup. -/
theorem ValidateToken_unsupported_ignores_keyStore_witness :
    ValidateToken sampleDeps sampleNow "hmac" (NewKeyStore sampleMap) ["bar"]
      = (ID.zero, none, some (Error.unsupportedAlgorithm "HS256")) ∧
    ValidateToken sampleDeps sampleNow "hmac" (NewKeyStore sampleMap) ["bar"]
      = ValidateToken sampleDeps sampleNow "hmac"
          ⟨fun _ _ => (PublicKey.nil, some (Error.other "store unavailable"))⟩ ["bar"] :=
  ValidateToken_unsupported_ignores_keyStore sampleDeps sampleNow "hmac" (NewKeyStore sampleMap)
    ⟨fun _ _ => (PublicKey.nil, some (Error.other "store unavailable"))⟩ ["bar"]
    ⟨[⟨"k1", "HS256"⟩], "hmac"⟩ ⟨"k1", "HS256"⟩ rfl rfl (by decide)

/-- C10: for every input string, a token that does not parse, or that parses with a number of
signature headers other than one (none, or two or more), yields the zero id, no claim map and
an error: the parse error or the header-count error. -/
theorem ValidateToken_requires_single_header (deps : Deps) (now : Time) (token : String)
    (keyStore : KeyStore) (audience : List String) :
    (∀ e, deps.ParseSigned token = .error e →
      ValidateToken deps now token keyStore audience
        = (ID.zero, none, some Error.unableToParse)) ∧
    (∀ tok, deps.ParseSigned token = .ok tok → tok.Headers.length ≠ 1 →
      ValidateToken deps now token keyStore audience
        = (ID.zero, none, some (Error.headerCount tok.Headers.length))) := by
  constructor
  · intro e he
    simp only [ValidateToken, he]
  · intro tok hparse hlen
    unfold ValidateToken
    rw [hparse]
    simp only []
    split
    · next h heq => rw [heq] at hlen; exact absurd rfl hlen
    · rfl

/-! ## The verification claims -/

/-- C5: `ValidateToken` returns success (a nil error) only if the signature-verified parse
succeeded under the key that the key store returned for (trust domain of the subject, key id),
and then the returned claim map is that verified parse; whenever the verified parse fails, it
returns the wrapped error with the zero id and no claim map. -/
theorem ValidateToken_success_requires_verification (deps : Deps) (now : Time)
    (token : String) (keyStore : KeyStore) (audience : List String) :
    ((ValidateToken deps now token keyStore audience).2.2 = none →
      ∃ tok h claims spiffeID key claimsMap,
        deps.ParseSigned token = .ok tok ∧ tok.Headers = [h] ∧
        deps.UnsafeClaimsWithoutVerification tok = .ok claims ∧
        deps.FromString claims.Subject = .ok spiffeID ∧
        keyStore.FindPublicKey spiffeID.TrustDomain h.KeyID = (key, none) ∧
        deps.VerifiedClaims tok key = .ok claimsMap ∧
        ValidateToken deps now token keyStore audience = (spiffeID, some claimsMap, none)) ∧
    (∀ tok h claims spiffeID key e,
      deps.ParseSigned token = .ok tok → tok.Headers = [h] →
      supportedAlgorithm h.Algorithm = true → h.KeyID ≠ "" →
      deps.UnsafeClaimsWithoutVerification tok = .ok claims → claims.Subject ≠ "" →
      deps.FromString claims.Subject = .ok spiffeID →
      keyStore.FindPublicKey spiffeID.TrustDomain h.KeyID = (key, none) →
      deps.VerifiedClaims tok key = .error e →
      ValidateToken deps now token keyStore audience
        = (ID.zero, none, some (Error.wrap e))) := by
  constructor
  · intro hok
    rcases ValidateToken_cases deps now token keyStore audience with
      ⟨e, he⟩ | ⟨tok, h, claims, spiffeID, key, claimsMap, hparse, hhdr, _, _, hclaims, _,
        hid, hfind, hver, _, hres⟩
    · rw [he] at hok
      exact Option.noConfusion hok
    · exact ⟨tok, h, claims, spiffeID, key, claimsMap, hparse, hhdr, hclaims, hid, hfind,
        hver, hres⟩
  · intro tok h claims spiffeID key e hparse hhdr halg hkid hclaims hsub hid hfind hver
    rw [ValidateToken_resolved deps now token keyStore audience tok h claims spiffeID
      hparse hhdr halg hkid hclaims hsub hid, hfind]
    simp only [verifyAndValidate, hver]

/-- Witness of C5: the token `blog` succeeds under the store holding the key `ec-1`, with the
verified map, and fails with the wrapped verification error under the store holding `ec-2`. -/
theorem ValidateToken_success_requires_verification_witness :
    (∃ tok h claims spiffeID key claimsMap,
        sampleDeps.ParseSigned "blog" = .ok tok ∧ tok.Headers = [h] ∧
        sampleDeps.UnsafeClaimsWithoutVerification tok = .ok claims ∧
        sampleDeps.FromString claims.Subject = .ok spiffeID ∧
        (NewKeyStore sampleMap).FindPublicKey spiffeID.TrustDomain h.KeyID = (key, none) ∧
        sampleDeps.VerifiedClaims tok key = .ok claimsMap ∧
        ValidateToken sampleDeps sampleNow "blog" (NewKeyStore sampleMap) ["bar"]
          = (spiffeID, some claimsMap, none)) ∧
    ValidateToken sampleDeps sampleNow "blog" (NewKeyStore wrongKeyMap) ["bar"]
      = (ID.zero, none, some (Error.wrap "square/go-jose: error in cryptographic primitive")) :=
  ⟨(ValidateToken_success_requires_verification sampleDeps sampleNow "blog"
      (NewKeyStore sampleMap) ["bar"]).1 rfl,
   (ValidateToken_success_requires_verification sampleDeps sampleNow "blog"
      (NewKeyStore wrongKeyMap) ["bar"]).2 ⟨[⟨"k1", "ES256"⟩], "blog"⟩ ⟨"k1", "ES256"⟩
      blogClaims ⟨exampleOrg, "/blog"⟩ (PublicKey.key "ec-2")
      "square/go-jose: error in cryptographic primitive"
      rfl rfl (by decide) (by decide) rfl (by decide) rfl rfl rfl⟩

/-- C6: the two parses of go-jose decode the payload of the same token, so the subject that
`UnsafeClaimsWithoutVerification` reports is the `sub` entry of every claim map that the
signature-verified parse of that token returns.  Given this, whenever `ValidateToken` returns
success, the returned claim map is the signature-verified parse under the key that was looked
up, and the returned SPIFFE ID is the one `spiffeid.FromString` gives for the `sub` entry of
that verified map; and the returned id and map are the same for any other behaviour of the
parse without verification that obeys the same rule: they are determined by the verified parse. -/
theorem ValidateToken_returns_verified_values (deps : Deps) (now : Time) (token : String)
    (keyStore : KeyStore) (audience : List String)
    (hsame : ∀ tok claims key claimsMap, deps.ParseSigned token = .ok tok →
      deps.UnsafeClaimsWithoutVerification tok = .ok claims →
      deps.VerifiedClaims tok key = .ok claimsMap →
      claimsMap.lookup "sub" = some claims.Subject)
    (hok : (ValidateToken deps now token keyStore audience).2.2 = none) :
    (∃ tok h key claimsMap sub,
      deps.ParseSigned token = .ok tok ∧ tok.Headers = [h] ∧
      keyStore.FindPublicKey
        (ValidateToken deps now token keyStore audience).1.TrustDomain h.KeyID = (key, none) ∧
      deps.VerifiedClaims tok key = .ok claimsMap ∧
      (ValidateToken deps now token keyStore audience).2.1 = some claimsMap ∧
      claimsMap.lookup "sub" = some sub ∧
      deps.FromString sub = .ok (ValidateToken deps now token keyStore audience).1) ∧
    (∀ unverified : JSONWebToken → Except String Claims,
      (∀ tok claims key claimsMap, deps.ParseSigned token = .ok tok →
        unverified tok = .ok claims → deps.VerifiedClaims tok key = .ok claimsMap →
        claimsMap.lookup "sub" = some claims.Subject) →
      (ValidateToken { deps with UnsafeClaimsWithoutVerification := unverified } now token
        keyStore audience).2.2 = none →
      ValidateToken { deps with UnsafeClaimsWithoutVerification := unverified } now token
        keyStore audience = ValidateToken deps now token keyStore audience) := by
  rcases ValidateToken_cases deps now token keyStore audience with
    ⟨e, he⟩ | ⟨tok, h, claims, spiffeID, key, claimsMap, hparse, hhdr, _, _, hclaims, _,
      hid, hfind, hver, _, hres⟩
  · rw [he] at hok
    exact Option.noConfusion hok
  · have hsub := hsame tok claims key claimsMap hparse hclaims hver
    refine ⟨?_, fun unverified hsame2 hok2 => ?_⟩
    · rw [hres]
      exact ⟨tok, h, key, claimsMap, claims.Subject, hparse, hhdr, hfind, hver, rfl, hsub, hid⟩
    · rcases ValidateToken_cases { deps with UnsafeClaimsWithoutVerification := unverified }
          now token keyStore audience with
        ⟨e, he⟩ | ⟨tok2, h2, claims2, spiffeID2, key2, claimsMap2, hparse2, hhdr2, _, _,
          hclaims2, _, hid2, hfind2, hver2, _, hres2⟩
      · rw [he] at hok2
        exact Option.noConfusion hok2
      · have hparse2b : deps.ParseSigned token = .ok tok2 := hparse2
        have hclaims2b : unverified tok2 = .ok claims2 := hclaims2
        have hid2b : deps.FromString claims2.Subject = .ok spiffeID2 := hid2
        have hver2b : deps.VerifiedClaims tok2 key2 = .ok claimsMap2 := hver2
        have htok : tok2 = tok := by
          rw [hparse] at hparse2b
          exact (Except.ok.inj hparse2b).symm
        subst htok
        have hh : h2 = h := by
          rw [hhdr] at hhdr2
          exact (List.cons.inj hhdr2).1.symm
        subst hh
        have hsub2 := hsame2 tok2 claims2 key claimsMap hparse hclaims2b hver
        have hsubject : claims2.Subject = claims.Subject := by
          rw [hsub] at hsub2
          exact (Option.some.inj hsub2).symm
        have hidEq : spiffeID2 = spiffeID := by
          rw [hsubject, hid] at hid2b
          exact (Except.ok.inj hid2b).symm
        subst hidEq
        have hkey : key2 = key := by
          rw [hfind] at hfind2
          exact (congrArg Prod.fst hfind2).symm
        subst hkey
        have hmap : claimsMap2 = claimsMap := by
          rw [hver] at hver2b
          exact (Except.ok.inj hver2b).symm
        subst hmap
        rw [hres, hres2]

/-- Witness of C6: the successful run on the token `blog`, whose two parses report the subject
`spiffe://example.org/blog`. -/
theorem ValidateToken_returns_verified_values_witness :
    (∃ tok h key claimsMap sub,
      sampleDeps.ParseSigned "blog" = .ok tok ∧ tok.Headers = [h] ∧
      (NewKeyStore sampleMap).FindPublicKey
        (ValidateToken sampleDeps sampleNow "blog" (NewKeyStore sampleMap)
          ["bar"]).1.TrustDomain h.KeyID = (key, none) ∧
      sampleDeps.VerifiedClaims tok key = .ok claimsMap ∧
      (ValidateToken sampleDeps sampleNow "blog" (NewKeyStore sampleMap) ["bar"]).2.1
        = some claimsMap ∧
      claimsMap.lookup "sub" = some sub ∧
      sampleDeps.FromString sub
        = .ok (ValidateToken sampleDeps sampleNow "blog" (NewKeyStore sampleMap) ["bar"]).1) ∧
    (ValidateToken sampleDeps sampleNow "blog" (NewKeyStore sampleMap) ["bar"]).1
      = ⟨exampleOrg, "/blog"⟩ :=
  ⟨(ValidateToken_returns_verified_values sampleDeps sampleNow "blog" (NewKeyStore sampleMap)
      ["bar"]
      (by
        intro tok claims key claimsMap h1 h2 h3
        have htok : tok = ⟨[⟨"k1", "ES256"⟩], "blog"⟩ := (Except.ok.inj h1).symm
        subst htok
        have hclaims : claims = blogClaims := (Except.ok.inj h2).symm
        subst hclaims
        by_cases hkey : key = PublicKey.key "ec-1"
        · subst hkey
          have hmap : claimsMap = blogMap := (Except.ok.inj h3).symm
          subst hmap
          rfl
        · simp only [sampleDeps, hkey, if_false, reduceCtorEq] at h3)
      rfl).1,
    rfl⟩

/-- C7: given that `spiffeid.FromString` never returns the zero id without an error, every
result of `ValidateToken` is either an error with the zero id and a nil claim map, or a nil
error with a non-zero id and a claim map; so a nil error never comes with the zero id, and an
error never comes with a non-zero id or a claim map. -/
theorem ValidateToken_result_shape (deps : Deps) (now : Time) (token : String)
    (keyStore : KeyStore) (audience : List String)
    (hFrom : ∀ s id, deps.FromString s = .ok id → id ≠ ID.zero) :
    ((∃ e, ValidateToken deps now token keyStore audience = (ID.zero, none, some e)) ∨
     (∃ id m, id ≠ ID.zero ∧
        ValidateToken deps now token keyStore audience = (id, some m, none))) ∧
    ((ValidateToken deps now token keyStore audience).2.2 = none →
      (ValidateToken deps now token keyStore audience).1 ≠ ID.zero) ∧
    ((ValidateToken deps now token keyStore audience).2.2 ≠ none →
      (ValidateToken deps now token keyStore audience).1 = ID.zero ∧
      (ValidateToken deps now token keyStore audience).2.1 = none) := by
  rcases ValidateToken_cases deps now token keyStore audience with
    ⟨e, he⟩ | ⟨tok, h, claims, spiffeID, key, claimsMap, _, _, _, _, _, _, hid, _, _, _, hres⟩
  · rw [he]
    exact ⟨Or.inl ⟨e, rfl⟩, fun hnil => Option.noConfusion hnil, fun _ => ⟨rfl, rfl⟩⟩
  · rw [hres]
    have hne : spiffeID ≠ ID.zero := hFrom claims.Subject spiffeID hid
    exact ⟨Or.inr ⟨spiffeID, claimsMap, hne, rfl⟩, fun _ => hne, fun herr => absurd rfl herr⟩

/-- Witness of C7: the sample `FromString` never yields the zero id, and the result for the
token `blog` has one of the two shapes. -/
theorem ValidateToken_result_shape_witness :
    ((∃ e, ValidateToken sampleDeps sampleNow "blog" (NewKeyStore sampleMap) ["bar"]
        = (ID.zero, none, some e)) ∨
     (∃ id m, id ≠ ID.zero ∧
        ValidateToken sampleDeps sampleNow "blog" (NewKeyStore sampleMap) ["bar"]
          = (id, some m, none))) ∧
    ((ValidateToken sampleDeps sampleNow "blog" (NewKeyStore sampleMap) ["bar"]).2.2 = none →
      (ValidateToken sampleDeps sampleNow "blog" (NewKeyStore sampleMap) ["bar"]).1
        ≠ ID.zero) ∧
    ((ValidateToken sampleDeps sampleNow "blog" (NewKeyStore sampleMap) ["bar"]).2.2 ≠ none →
      (ValidateToken sampleDeps sampleNow "blog" (NewKeyStore sampleMap) ["bar"]).1
        = ID.zero ∧
      (ValidateToken sampleDeps sampleNow "blog" (NewKeyStore sampleMap) ["bar"]).2.1
        = none) :=
  ValidateToken_result_shape sampleDeps sampleNow "blog" (NewKeyStore sampleMap) ["bar"]
    (by
      intro s id hs
      simp only [sampleDeps] at hs
      split_ifs at hs
      · cases hs; decide
      · cases hs; decide)

/-! ## The registered-claims claims -/

/-- Counterexample to C8 as stated: the token `blog` (audience `bar`, signature valid, not
expired) shares the value `bar` with the expected list `bar, baz` and still fails with the
audience error; and with the empty expected list, which shares no value with it, it passes. -/
theorem ValidateToken_audience_intersection_counterexample :
    ("bar" ∈ blogClaims.Audience ∧ "bar" ∈ ["bar", "baz"] ∧
      ValidateToken sampleDeps sampleNow "blog" (NewKeyStore sampleMap) ["bar", "baz"]
        = (ID.zero, none, some (Error.audienceMismatch ["bar", "baz"] ["bar"]))) ∧
    ((¬ ∃ v, v ∈ blogClaims.Audience ∧ v ∈ ([] : List String)) ∧
      ValidateToken sampleDeps sampleNow "blog" (NewKeyStore sampleMap) []
        = (⟨exampleOrg, "/blog"⟩, some blogMap, none)) := by
  refine ⟨⟨by decide, by decide, rfl⟩, ⟨?_, rfl⟩⟩
  rintro ⟨v, _, hv⟩
  exact absurd hv (List.not_mem_nil v)

/-- C8 as amended: for a token whose signature has verified under the looked-up key,
`ValidateToken` fails the audience check exactly when some value of the expected audience list
is missing from the token's `aud` claim (never for the empty list): in that case it returns the
audience-mismatch error with the zero id and no claim map, and when every expected value is
among the token's audiences the result is never the audience-mismatch error. -/
theorem ValidateToken_audience_check (deps : Deps) (now : Time) (token : String)
    (keyStore : KeyStore) (audience : List String) (tok : JSONWebToken) (h : Header)
    (claims : Claims) (spiffeID : ID) (key : PublicKey) (claimsMap : ClaimMap)
    (hparse : deps.ParseSigned token = .ok tok) (hhdr : tok.Headers = [h])
    (halg : supportedAlgorithm h.Algorithm = true) (hkid : h.KeyID ≠ "")
    (hclaims : deps.UnsafeClaimsWithoutVerification tok = .ok claims)
    (hsub : claims.Subject ≠ "") (hid : deps.FromString claims.Subject = .ok spiffeID)
    (hfind : keyStore.FindPublicKey spiffeID.TrustDomain h.KeyID = (key, none))
    (hver : deps.VerifiedClaims tok key = .ok claimsMap) :
    ((∃ v ∈ audience, v ∉ claims.Audience) →
      ValidateToken deps now token keyStore audience
        = (ID.zero, none, some (Error.audienceMismatch audience claims.Audience))) ∧
    ((∀ v ∈ audience, v ∈ claims.Audience) →
      ∀ expected actual, (ValidateToken deps now token keyStore audience).2.2
        ≠ some (Error.audienceMismatch expected actual)) := by
  rw [ValidateToken_verified deps now token keyStore audience tok h claims spiffeID key
    claimsMap hparse hhdr halg hkid hclaims hsub hid hfind hver]
  constructor
  · intro hex
    rw [(Validate_audience claims audience now).mpr hex]
    rfl
  · intro hall expected actual
    have hno : claims.Validate ⟨"", "", audience, "", now⟩
        ≠ some ValidationError.ErrInvalidAudience := by
      intro hv
      obtain ⟨v, hv1, hv2⟩ := (Validate_audience claims audience now).mp hv
      exact hv2 (hall v hv1)
    cases hval : claims.Validate ⟨"", "", audience, "", now⟩ with
    | none => simp
    | some err =>
      rw [hval] at hno
      cases err <;> simp [convertValidationError] at hno ⊢

/-- Witness of C8 as amended: the token `blog` with audience `bar` fails against the expected
list `baz` and does not fail the audience check against the expected list `bar`. -/
theorem ValidateToken_audience_check_witness :
    ValidateToken sampleDeps sampleNow "blog" (NewKeyStore sampleMap) ["baz"]
      = (ID.zero, none, some (Error.audienceMismatch ["baz"] ["bar"])) ∧
    ∀ expected actual,
      (ValidateToken sampleDeps sampleNow "blog" (NewKeyStore sampleMap) ["bar"]).2.2
        ≠ some (Error.audienceMismatch expected actual) :=
  ⟨(ValidateToken_audience_check sampleDeps sampleNow "blog" (NewKeyStore sampleMap) ["baz"]
      ⟨[⟨"k1", "ES256"⟩], "blog"⟩ ⟨"k1", "ES256"⟩ blogClaims ⟨exampleOrg, "/blog"⟩
      (PublicKey.key "ec-1") blogMap rfl rfl (by decide) (by decide) rfl (by decide) rfl rfl
      rfl).1 ⟨"baz", by decide, by decide⟩,
   (ValidateToken_audience_check sampleDeps sampleNow "blog" (NewKeyStore sampleMap) ["bar"]
      ⟨[⟨"k1", "ES256"⟩], "blog"⟩ ⟨"k1", "ES256"⟩ blogClaims ⟨exampleOrg, "/blog"⟩
      (PublicKey.key "ec-1") blogMap rfl rfl (by decide) (by decide) rfl (by decide) rfl rfl
      rfl).2 (by decide)⟩

/-- Counterexample to C9 as stated, on tokens whose signature verifies and whose `exp` is
earlier than the current time: the token `blog` (expiry at second 5000) validated at second
5030 succeeds; validated at second 5061 against the expected audience `baz` it fails with the
audience error, not the expiry error; and the token `notyet` (expiry at second 100, not-before
at second 9000) validated at second 4000 fails with the wrapped not-valid-yet error. -/
theorem ValidateToken_expiry_counterexample :
    (blogClaims.Expiry = some 5000 ∧
      (NumericDateTime (some 5000)).Before (unixTime 5030 0) = true ∧
      ValidateToken sampleDeps (unixTime 5030 0) "blog" (NewKeyStore sampleMap) ["bar"]
        = (⟨exampleOrg, "/blog"⟩, some blogMap, none)) ∧
    ((NumericDateTime (some 5000)).Before (unixTime 5061 0) = true ∧
      ValidateToken sampleDeps (unixTime 5061 0) "blog" (NewKeyStore sampleMap) ["baz"]
        = (ID.zero, none, some (Error.audienceMismatch ["baz"] ["bar"]))) ∧
    ((NumericDateTime (some 100)).Before sampleNow = true ∧
      ValidateToken sampleDeps sampleNow "notyet" (NewKeyStore sampleMap) ["bar"]
        = (ID.zero, none, some (Error.wrapValidation ValidationError.ErrNotValidYet))) :=
  ⟨⟨rfl, by decide, rfl⟩, ⟨by decide, rfl⟩, ⟨by decide, rfl⟩⟩

/-- C9 as amended: for a token whose signature has verified under the looked-up key, whose
`aud` claim holds every expected audience, whose `nbf` claim (if any) is at most one minute
after the current time, and whose `exp` claim is more than one minute (the default leeway)
earlier than the current time, `ValidateToken` returns the error "token has expired" with the
zero id and no claim map.  The current time is a `time.Time` other than the zero time, with its
second at least a minute below the last `int64` second and its nanoseconds within a second;
`exp` and `nbf` are `int64` seconds since the Unix epoch, and `nbf` is at most
9223371974719179007, so that no sum of `time.Unix` or `Time.Add` wraps. -/
theorem ValidateToken_expired (deps : Deps) (now : Time) (token : String)
    (keyStore : KeyStore) (audience : List String) (tok : JSONWebToken) (h : Header)
    (claims : Claims) (spiffeID : ID) (key : PublicKey) (claimsMap : ClaimMap) (exp : Int)
    (hparse : deps.ParseSigned token = .ok tok) (hhdr : tok.Headers = [h])
    (halg : supportedAlgorithm h.Algorithm = true) (hkid : h.KeyID ≠ "")
    (hclaims : deps.UnsafeClaimsWithoutVerification tok = .ok claims)
    (hsub : claims.Subject ≠ "") (hid : deps.FromString claims.Subject = .ok spiffeID)
    (hfind : keyStore.FindPublicKey spiffeID.TrustDomain h.KeyID = (key, none))
    (hver : deps.VerifiedClaims tok key = .ok claimsMap)
    (haud : ∀ v ∈ audience, v ∈ claims.Audience) (hnow : now ≠ Time.zero)
    (hsec : now.sec ≤ maxInt64 - 60) (hnsec : 0 ≤ now.nsec ∧ now.nsec < 1000000000)
    (hnbf : ∀ nbf, claims.NotBefore = some nbf →
      minInt64 ≤ nbf ∧ nbf ≤ 9223371974719179007 ∧ nbf + unixToInternal ≤ now.sec + 60)
    (hexp : claims.Expiry = some exp) (hexp64 : minInt64 ≤ exp)
    (hlate : exp + unixToInternal < now.sec - 60 ∨
      (exp + unixToInternal = now.sec - 60 ∧ 0 < now.nsec)) :
    ValidateToken deps now token keyStore audience = (ID.zero, none, some Error.expired) := by
  rw [ValidateToken_verified deps now token keyStore audience tok h claims spiffeID key
    claimsMap hparse hhdr halg hkid hclaims hsub hid hfind hver,
    Validate_expired claims audience now exp haud hnow hsec hnsec hnbf hexp hexp64 hlate]
  rfl

/-- Witness of C9 as amended: the token `blog` (expiry at second 5000) validated at second 5061
fails with the expiry error. -/
theorem ValidateToken_expired_witness :
    ValidateToken sampleDeps (unixTime 5061 0) "blog" (NewKeyStore sampleMap) ["bar"]
      = (ID.zero, none, some Error.expired) :=
  ValidateToken_expired sampleDeps (unixTime 5061 0) "blog" (NewKeyStore sampleMap) ["bar"]
    ⟨[⟨"k1", "ES256"⟩], "blog"⟩ ⟨"k1", "ES256"⟩ blogClaims ⟨exampleOrg, "/blog"⟩
    (PublicKey.key "ec-1") blogMap 5000 rfl rfl (by decide) (by decide) rfl (by decide) rfl
    rfl rfl (by decide) (by decide) (by decide) (by decide)
    (by intro nbf hn; exact Option.noConfusion hn) rfl (by decide) (by decide)

/-! ## The key id and subject claims -/

/-- C11: for a token with a single header and an allow-listed algorithm whose header has an
empty key id, `ValidateToken` returns the error "token header missing key id" with the zero id
and no claim map, and the result is the same for any two key stores: no lookup takes place. -/
theorem ValidateToken_missing_key_id (deps : Deps) (now : Time) (token : String)
    (ks1 ks2 : KeyStore) (audience : List String) (tok : JSONWebToken) (h : Header)
    (hparse : deps.ParseSigned token = .ok tok) (hhdr : tok.Headers = [h])
    (halg : h.Algorithm ∈ ["RS256", "RS384", "RS512", "ES256", "ES384", "ES512",
        "PS256", "PS384", "PS512"])
    (hkid : h.KeyID = "") :
    ValidateToken deps now token ks1 audience = (ID.zero, none, some Error.missingKeyID) ∧
    ValidateToken deps now token ks1 audience = ValidateToken deps now token ks2 audience := by
  have hs : supportedAlgorithm h.Algorithm = true := (supportedAlgorithm_iff h.Algorithm).mpr halg
  rw [ValidateToken_single_header deps now token ks1 audience tok h hparse hhdr,
    ValidateToken_single_header deps now token ks2 audience tok h hparse hhdr,
    if_pos hs, if_pos hs]
  simp only [afterAlgorithmCheck, hkid, if_true, and_self]

/-- Witness of C11: the token `nokid` fails with the missing-key-id error under a store that
holds a key and under a store that fails every lookup. -/
theorem ValidateToken_missing_key_id_witness :
    ValidateToken sampleDeps sampleNow "nokid" (NewKeyStore sampleMap) ["bar"]
      = (ID.zero, none, some Error.missingKeyID) ∧
    ValidateToken sampleDeps sampleNow "nokid" (NewKeyStore sampleMap) ["bar"]
      = ValidateToken sampleDeps sampleNow "nokid"
          ⟨fun _ _ => (PublicKey.nil, some (Error.other "store unavailable"))⟩ ["bar"] :=
  ValidateToken_missing_key_id sampleDeps sampleNow "nokid" (NewKeyStore sampleMap)
    ⟨fun _ _ => (PublicKey.nil, some (Error.other "store unavailable"))⟩ ["bar"]
    ⟨[⟨"", "ES256"⟩], "nokid"⟩ ⟨"", "ES256"⟩ rfl rfl (by decide) rfl

/-- C12: for a token that passes the header, algorithm and key-id checks and whose unverified
claims have an empty subject or a subject that `spiffeid.FromString` rejects, `ValidateToken`
returns a subject error ("token missing subject claim" or "token has in invalid subject claim")
with the zero id and no claim map; the result is the same for any other key store and any other
behaviour of the signature-verified parse: neither is reached. -/
theorem ValidateToken_bad_subject (deps : Deps) (now : Time) (token : String)
    (keyStore : KeyStore) (audience : List String) (tok : JSONWebToken) (h : Header)
    (claims : Claims)
    (hparse : deps.ParseSigned token = .ok tok) (hhdr : tok.Headers = [h])
    (halg : h.Algorithm ∈ ["RS256", "RS384", "RS512", "ES256", "ES384", "ES512",
        "PS256", "PS384", "PS512"])
    (hkid : h.KeyID ≠ "")
    (hclaims : deps.UnsafeClaimsWithoutVerification tok = .ok claims)
    (hbad : claims.Subject = "" ∨ ∃ e, deps.FromString claims.Subject = .error e) :
    ∃ err, (err = Error.missingSubject ∨ ∃ e, err = Error.invalidSubject e) ∧
      ValidateToken deps now token keyStore audience = (ID.zero, none, some err) ∧
      ∀ (ks2 : KeyStore) (verified : JSONWebToken → PublicKey → Except String ClaimMap),
        ValidateToken { deps with VerifiedClaims := verified } now token ks2 audience
          = (ID.zero, none, some err) := by
  have hs : supportedAlgorithm h.Algorithm = true := (supportedAlgorithm_iff h.Algorithm).mpr halg
  have hform : ∀ (d : Deps) (ks : KeyStore), d.ParseSigned = deps.ParseSigned →
      d.UnsafeClaimsWithoutVerification = deps.UnsafeClaimsWithoutVerification →
      d.FromString = deps.FromString →
      ValidateToken d now token ks audience =
        if claims.Subject = "" then (ID.zero, none, some Error.missingSubject)
        else
          match deps.FromString claims.Subject with
          | .error e => (ID.zero, none, some (Error.invalidSubject e))
          | .ok spiffeID =>
            match ks.FindPublicKey spiffeID.TrustDomain h.KeyID with
            | (_, some err) => (ID.zero, none, some err)
            | (key, none) => verifyAndValidate d now tok claims spiffeID key audience := by
    intro d ks hp hu hf
    rw [ValidateToken_single_header d now token ks audience tok h (by rw [hp]; exact hparse)
      hhdr, if_pos hs]
    simp only [afterAlgorithmCheck, hkid, if_false, resolveAndVerify, hu, hclaims, hf]
  by_cases hsub : claims.Subject = ""
  · refine ⟨Error.missingSubject, Or.inl rfl, ?_, fun ks2 verified => ?_⟩
    · rw [hform deps keyStore rfl rfl rfl, if_pos hsub]
    · rw [hform { deps with VerifiedClaims := verified } ks2 rfl rfl rfl, if_pos hsub]
  · rcases hbad with hempty | ⟨e, he⟩
    · exact absurd hempty hsub
    · refine ⟨Error.invalidSubject e, Or.inr ⟨e, rfl⟩, ?_, fun ks2 verified => ?_⟩
      · rw [hform deps keyStore rfl rfl rfl, if_neg hsub, he]
      · rw [hform { deps with VerifiedClaims := verified } ks2 rfl rfl rfl, if_neg hsub, he]

/-- Witness of C12: the token `nosub` fails with the missing-subject error and the token
`badsub` with the invalid-subject error. -/
theorem ValidateToken_bad_subject_witness :
    (∃ err, (err = Error.missingSubject ∨ ∃ e, err = Error.invalidSubject e) ∧
      ValidateToken sampleDeps sampleNow "nosub" (NewKeyStore sampleMap) ["bar"]
        = (ID.zero, none, some err) ∧
      ∀ (ks2 : KeyStore) (verified : JSONWebToken → PublicKey → Except String ClaimMap),
        ValidateToken { sampleDeps with VerifiedClaims := verified } sampleNow "nosub" ks2
          ["bar"] = (ID.zero, none, some err)) ∧
    (∃ err, (err = Error.missingSubject ∨ ∃ e, err = Error.invalidSubject e) ∧
      ValidateToken sampleDeps sampleNow "badsub" (NewKeyStore sampleMap) ["bar"]
        = (ID.zero, none, some err) ∧
      ∀ (ks2 : KeyStore) (verified : JSONWebToken → PublicKey → Except String ClaimMap),
        ValidateToken { sampleDeps with VerifiedClaims := verified } sampleNow "badsub" ks2
          ["bar"] = (ID.zero, none, some err)) :=
  ⟨ValidateToken_bad_subject sampleDeps sampleNow "nosub" (NewKeyStore sampleMap) ["bar"]
      ⟨[⟨"k1", "ES256"⟩], "nosub"⟩ ⟨"k1", "ES256"⟩ { blogClaims with Subject := "" }
      rfl rfl (by decide) (by decide) rfl (Or.inl rfl),
   ValidateToken_bad_subject sampleDeps sampleNow "badsub" (NewKeyStore sampleMap) ["bar"]
      ⟨[⟨"k1", "ES256"⟩], "badsub"⟩ ⟨"k1", "ES256"⟩
      { blogClaims with Subject := "example.org/blog" }
      rfl rfl (by decide) (by decide) rfl (Or.inr ⟨"scheme is missing or invalid", rfl⟩)⟩

end jwtsvid

namespace x509pop

/-! ## Lemmas on nonces and big-endian bytes -/

theorem SetBytes_append_singleton (l : List Byte) (b : Byte) :
    SetBytes (l ++ [b]) = SetBytes l * 256 + b.val := by
  simp only [SetBytes, List.foldl_append, List.foldl_cons, List.foldl_nil]

theorem SetBytes_bytesFuel (fuel x : Nat) (h : x ≤ fuel) : SetBytes (bytesFuel fuel x) = x := by
  induction fuel generalizing x with
  | zero =>
    have hx : x = 0 := Nat.le_zero.mp h
    subst hx
    rfl
  | succ n ih =>
    unfold bytesFuel
    by_cases hx : x = 0
    · rw [if_pos hx, hx]; rfl
    · rw [if_neg hx, SetBytes_append_singleton, ih (x / 256) (by omega)]
      show x / 256 * 256 + x % 256 = x
      omega

/-- Decoding the bytes of a non-negative integer gives the integer back. -/
theorem SetBytes_Bytes (x : Nat) : SetBytes (Bytes x) = x :=
  SetBytes_bytesFuel x x (Nat.le_refl x)

/-- A nonce that `generateNonce` returns without error has `nonceLen` bytes. -/
theorem generateNonce_length (rand rand1 : Reader) (b : List Byte)
    (h : generateNonce rand = ((b, none), rand1)) : b.length = nonceLen := by
  unfold generateNonce Reader.Read at h
  cases herr : rand.err with
  | some e =>
    rw [herr] at h
    simp only [Prod.mk.injEq, reduceCtorEq, and_false, false_and] at h
  | none =>
    rw [herr] at h
    simp only [Prod.mk.injEq, and_true] at h
    rw [← h.1]
    simp only [List.length_map, List.length_range, List.length_replicate]

/-- The result of `generateNonce` on a source that does not fail. -/
theorem generateNonce_ok (rand : Reader) (h : rand.err = none) :
    generateNonce rand =
      (((List.range nonceLen).map (fun i => rand.stream (rand.pos + i)), none),
        { rand with pos := rand.pos + nonceLen }) := by
  unfold generateNonce Reader.Read
  rw [h]
  simp only [List.length_replicate]

/-- The result of `generateNonce` on a source that fails. -/
theorem generateNonce_fail (rand : Reader) (e : String) (h : rand.err = some e) :
    generateNonce rand = (([], some (Error.lib e)), rand) := by
  unfold generateNonce Reader.Read
  rw [h]

/-- On two nonces of `nonceLen` bytes, `combineNonces` is the digest of their concatenation. -/
theorem combineNonces_eq (c : Crypto) (challenge response : List Byte)
    (h1 : challenge.length = nonceLen) (h2 : response.length = nonceLen) :
    combineNonces c challenge response = (c.Sum256 (challenge ++ response), none) := by
  unfold combineNonces
  rw [if_neg (fun h => h h1), if_neg (fun h => h h2)]
  simp only [Digest.New, Digest.Write, Digest.Sum, List.nil_append]

/-- When `combineNonces` returns no error, both nonces have `nonceLen` bytes. -/
theorem combineNonces_ok (c : Crypto) (challenge response combined : List Byte)
    (h : combineNonces c challenge response = (combined, none)) :
    challenge.length = nonceLen ∧ response.length = nonceLen ∧
      combined = c.Sum256 (challenge ++ response) := by
  by_cases h1 : challenge.length = nonceLen
  · by_cases h2 : response.length = nonceLen
    · rw [combineNonces_eq c challenge response h1 h2] at h
      exact ⟨h1, h2, (congrArg Prod.fst h).symm⟩
    · unfold combineNonces at h
      rw [if_neg (fun h => h h1), if_pos h2] at h
      exact absurd (congrArg Prod.snd h) (by simp)
  · unfold combineNonces at h
    rw [if_pos h1] at h
    exact absurd (congrArg Prod.snd h) (by simp)

/-- What a successful `CalculateRSASignatureResponse` returns: a nonce of `nonceLen` bytes and
the signature of the digest of the two nonces. -/
theorem CalculateRSASignatureResponse_ok (c : Crypto) (rand rand2 : Reader)
    (k : RSAPrivateKey) (ch : RSASignatureChallenge) (resp : RSASignatureResponse)
    (h : CalculateRSASignatureResponse c rand k ch = ((some resp, none), rand2)) :
    ch.Nonce.length = nonceLen ∧ resp.Nonce.length = nonceLen ∧
      ∃ rand1, c.SignPSS rand1 k (c.Sum256 (ch.Nonce ++ resp.Nonce))
        = ((resp.Signature, none), rand2) := by
  unfold CalculateRSASignatureResponse at h
  rcases hg : generateNonce rand with ⟨⟨nonce, _ | err⟩, rand1⟩
  · rw [hg] at h
    simp only [] at h
    have hlen := generateNonce_length rand rand1 nonce hg
    rcases hc : combineNonces c ch.Nonce nonce with ⟨combined, _ | err⟩
    · rw [hc] at h
      simp only [] at h
      obtain ⟨h1, _, hd⟩ := combineNonces_ok c ch.Nonce nonce combined hc
      rcases hs : c.SignPSS rand1 k combined with ⟨⟨sig, _ | err⟩, r2⟩
      · rw [hs] at h
        simp only [Prod.mk.injEq, Option.some.injEq, and_true] at h
        obtain ⟨hresp, hr2⟩ := h
        subst hresp
        subst hr2
        exact ⟨h1, hlen, rand1, by rw [← hd]; exact hs⟩
      · rw [hs] at h
        simp at h
    · rw [hc] at h
      simp at h
  · rw [hg] at h
    simp at h

/-- What a successful `CalculateECDSASignatureResponse` returns: a nonce of `nonceLen` bytes
and the bytes of the two integers of the signature of the digest of the two nonces. -/
theorem CalculateECDSASignatureResponse_ok (c : Crypto) (rand rand2 : Reader)
    (k : ECDSAPrivateKey) (ch : ECDSASignatureChallenge) (resp : ECDSASignatureResponse)
    (h : CalculateECDSASignatureResponse c rand k ch = ((some resp, none), rand2)) :
    ch.Nonce.length = nonceLen ∧ resp.Nonce.length = nonceLen ∧
      ∃ rand1 r s, c.ecdsaSign rand1 k (c.Sum256 (ch.Nonce ++ resp.Nonce))
        = (((r, s), none), rand2) ∧ resp.R = Bytes r ∧ resp.S = Bytes s := by
  unfold CalculateECDSASignatureResponse at h
  rcases hg : generateNonce rand with ⟨⟨nonce, _ | err⟩, rand1⟩
  · rw [hg] at h
    simp only [] at h
    have hlen := generateNonce_length rand rand1 nonce hg
    rcases hc : combineNonces c ch.Nonce nonce with ⟨combined, _ | err⟩
    · rw [hc] at h
      simp only [] at h
      obtain ⟨h1, _, hd⟩ := combineNonces_ok c ch.Nonce nonce combined hc
      rcases hs : c.ecdsaSign rand1 k combined with ⟨⟨⟨r, s⟩, _ | err⟩, r2⟩
      · rw [hs] at h
        simp only [Prod.mk.injEq, Option.some.injEq, and_true] at h
        obtain ⟨hresp, hr2⟩ := h
        subst hresp
        subst hr2
        exact ⟨h1, hlen, rand1, r, s, by rw [← hd]; exact hs, rfl, rfl⟩
      · rw [hs] at h
        simp at h
    · rw [hc] at h
      simp at h
  · rw [hg] at h
    simp at h

end x509pop

namespace x509pop

/-! ## The round trip -/

/-- The function `CalculateRSASignatureResponse` never returns a nil response without an
error. -/
theorem CalculateRSASignatureResponse_not_nil (c : Crypto) (rand rand2 : Reader)
    (k : RSAPrivateKey) (ch : RSASignatureChallenge) :
    CalculateRSASignatureResponse c rand k ch ≠ ((none, none), rand2) := by
  unfold CalculateRSASignatureResponse
  split
  · simp
  · split
    · simp
    · split <;> simp

/-- The function `CalculateECDSASignatureResponse` never returns a nil response without an
error. -/
theorem CalculateECDSASignatureResponse_not_nil (c : Crypto) (rand rand2 : Reader)
    (k : ECDSAPrivateKey) (ch : ECDSASignatureChallenge) :
    CalculateECDSASignatureResponse c rand k ch ≠ ((none, none), rand2) := by
  unfold CalculateECDSASignatureResponse
  split
  · simp
  · split
    · simp
    · split <;> simp

/-- C13: given that the signing and verifying primitives are correct (a signature that
`rsa.SignPSS` or `ecdsa.Sign` produces with a private key verifies, on the same digest, under
the public key of that private key), for every RSA or ECDSA key pair and every certificate
carrying the public key: if `GenerateChallenge` and then `CalculateResponse` both succeed,
`VerifyChallengeResponse` returns no error. -/
theorem challenge_response_round_trip (c : Crypto) (randV randC randV1 randC1 : Reader)
    (cert : Certificate) (priv : PrivateKey) (pub : PublicKey)
    (challenge : Challenge) (response : Response)
    (hrsa : ∀ rand k digest sig rand1, c.SignPSS rand k digest = ((sig, none), rand1) →
      c.VerifyPSS k.PublicKey digest sig = none)
    (hecdsa : ∀ rand k digest r s rand1, c.ecdsaSign rand k digest = (((r, s), none), rand1) →
      c.ecdsaVerify k.PublicKey digest r s = true)
    (hpair : KeyPair priv pub) (hcert : cert.PublicKey = pub)
    (hchallenge : GenerateChallenge randV cert = ((some challenge, none), randV1))
    (hresponse : CalculateResponse c randC priv challenge = ((some response, none), randC1)) :
    VerifyChallengeResponse c pub challenge response = none := by
  cases priv with
  | rsa k =>
    cases pub with
    | rsa p =>
      have hp : p = k.PublicKey := hpair
      subst hp
      unfold CalculateResponse at hresponse
      simp only [] at hresponse
      cases hch : challenge.RSASignature with
      | none => rw [hch] at hresponse; simp at hresponse
      | some ch =>
        rw [hch] at hresponse
        simp only [] at hresponse
        rcases hcalc : CalculateRSASignatureResponse c randC k ch with ⟨⟨resp, _ | err⟩, r1⟩
        · rw [hcalc] at hresponse
          simp only [Prod.mk.injEq, Option.some.injEq, and_true] at hresponse
          obtain ⟨hresp, hr1⟩ := hresponse
          subst hr1
          cases resp with
          | none => exact absurd hcalc (CalculateRSASignatureResponse_not_nil c randC r1 k ch)
          | some rr =>
            obtain ⟨h1, h2, rand1, hsign⟩ :=
              CalculateRSASignatureResponse_ok c randC r1 k ch rr hcalc
            have hresp2 : response = ⟨some rr, none⟩ := hresp.symm
            subst hresp2
            simp only [VerifyChallengeResponse, hch, VerifyRSASignatureResponse,
              combineNonces_eq c ch.Nonce rr.Nonce h1 h2,
              hrsa rand1 k _ rr.Signature r1 hsign]
        · rw [hcalc] at hresponse
          simp at hresponse
    | ecdsa p => exact absurd hpair (by simp [KeyPair])
    | other t => exact absurd hpair (by simp [KeyPair])
  | ecdsa k =>
    cases pub with
    | rsa p => exact absurd hpair (by simp [KeyPair])
    | ecdsa p =>
      have hp : p = k.PublicKey := hpair
      subst hp
      unfold CalculateResponse at hresponse
      simp only [] at hresponse
      cases hch : challenge.ECDSASignature with
      | none => rw [hch] at hresponse; simp at hresponse
      | some ch =>
        rw [hch] at hresponse
        simp only [] at hresponse
        rcases hcalc : CalculateECDSASignatureResponse c randC k ch with
          ⟨⟨resp, _ | err⟩, r1⟩
        · rw [hcalc] at hresponse
          simp only [Prod.mk.injEq, Option.some.injEq, and_true] at hresponse
          obtain ⟨hresp, hr1⟩ := hresponse
          subst hr1
          cases resp with
          | none =>
            exact absurd hcalc (CalculateECDSASignatureResponse_not_nil c randC r1 k ch)
          | some rr =>
            obtain ⟨h1, h2, rand1, r, s, hsign, hR, hS⟩ :=
              CalculateECDSASignatureResponse_ok c randC r1 k ch rr hcalc
            have hresp2 : response = ⟨none, some rr⟩ := hresp.symm
            subst hresp2
            simp only [VerifyChallengeResponse, hch, VerifyECDSASignatureResponse,
              combineNonces_eq c ch.Nonce rr.Nonce h1 h2, hR, hS, SetBytes_Bytes,
              hecdsa rand1 k _ r s r1 hsign]
            rfl
        · rw [hcalc] at hresponse
          simp at hresponse
    | other t => exact absurd hpair (by simp [KeyPair])
  | other t => exact absurd hpair (by simp [KeyPair])

/-- Witness of C13: with the sample primitives, the RSA exchange on the sample certificate and
key verifies. -/
theorem challenge_response_round_trip_witness :
    VerifyChallengeResponse sampleCrypto (.rsa sampleRSAKey.PublicKey)
      ⟨some ⟨sampleNonce⟩, none⟩ ⟨some ⟨sampleNonce, [224, 12, 161]⟩, none⟩ = none :=
  challenge_response_round_trip sampleCrypto sampleReader sampleReader
    { sampleReader with pos := 32 } { sampleReader with pos := 32 }
    sampleRSACert (.rsa sampleRSAKey) (.rsa sampleRSAKey.PublicKey)
    ⟨some ⟨sampleNonce⟩, none⟩ ⟨some ⟨sampleNonce, [224, 12, 161]⟩, none⟩
    (by
      intro rand k digest sig rand1 h
      simp only [sampleCrypto, Prod.mk.injEq, and_true] at h
      simp only [sampleCrypto, h.1, if_true])
    (by
      intro rand k digest r s rand1 h
      simp only [sampleCrypto, Prod.mk.injEq, and_true] at h
      simp only [sampleCrypto, ← h.1.1, ← h.1.2, and_self, decide_True])
    rfl rfl rfl rfl

/-! ## Nonce lengths and the digest -/

/-- C15: when the challenge nonce or the response nonce does not have exactly 32 bytes,
`VerifyRSASignatureResponse` and `VerifyECDSASignatureResponse` return the invalid-nonce error
(for the challenge nonce first); the result is the same for every choice of primitives, key and
signature bytes, so no digest is computed and no signature is verified. -/
theorem Verify_rejects_bad_nonce_length (challenge response : List Byte)
    (hbad : challenge.length ≠ 32 ∨ response.length ≠ 32) :
    ∃ err, (err = Error.invalidChallengeNonce ∨ err = Error.invalidResponseNonce) ∧
      (∀ (c : Crypto) (publicKey : RSAPublicKey) (signature : List Byte),
        VerifyRSASignatureResponse c publicKey ⟨challenge⟩ ⟨response, signature⟩ = some err) ∧
      (∀ (c : Crypto) (publicKey : ECDSAPublicKey) (r s : List Byte),
        VerifyECDSASignatureResponse c publicKey ⟨challenge⟩ ⟨response, r, s⟩ = some err) := by
  by_cases h1 : challenge.length = nonceLen
  · have h2 : response.length ≠ nonceLen := by
      rcases hbad with h | h
      · exact absurd h1 h
      · exact h
    refine ⟨Error.invalidResponseNonce, Or.inr rfl, fun c p sig => ?_, fun c p r s => ?_⟩
    · simp only [VerifyRSASignatureResponse, combineNonces, h1, h2, ne_eq, not_true_eq_false,
        not_false_eq_true, if_false, if_true]
    · simp only [VerifyECDSASignatureResponse, combineNonces, h1, h2, ne_eq, not_true_eq_false,
        not_false_eq_true, if_false, if_true]
  · refine ⟨Error.invalidChallengeNonce, Or.inl rfl, fun c p sig => ?_, fun c p r s => ?_⟩
    · simp only [VerifyRSASignatureResponse, combineNonces, h1, ne_eq, not_false_eq_true,
        if_true]
    · simp only [VerifyECDSASignatureResponse, combineNonces, h1, ne_eq, not_false_eq_true,
        if_true]

/-- Witness of C15: a 31-byte response nonce is rejected. -/
theorem Verify_rejects_bad_nonce_length_witness :
    ∃ err, (err = Error.invalidChallengeNonce ∨ err = Error.invalidResponseNonce) ∧
      (∀ (c : Crypto) (publicKey : RSAPublicKey) (signature : List Byte),
        VerifyRSASignatureResponse c publicKey ⟨sampleNonce⟩ ⟨sampleNonce.tail, signature⟩
          = some err) ∧
      (∀ (c : Crypto) (publicKey : ECDSAPublicKey) (r s : List Byte),
        VerifyECDSASignatureResponse c publicKey ⟨sampleNonce⟩ ⟨sampleNonce.tail, r, s⟩
          = some err) :=
  Verify_rejects_bad_nonce_length sampleNonce sampleNonce.tail (Or.inr (by decide))

/-- C16: for two nonces of 32 bytes, `combineNonces` returns the SHA-256 digest of the 64 bytes
made of the challenge bytes followed by the response bytes; the verifying functions hand that
digest to `rsa.VerifyPSS` and `ecdsa.Verify`, and the signing functions hand the digest of the
challenge nonce followed by the freshly generated nonce to `rsa.SignPSS` and `ecdsa.Sign`. -/
theorem combineNonces_is_sha256_of_concatenation (c : Crypto) (challenge response : List Byte)
    (h1 : challenge.length = 32) (h2 : response.length = 32) :
    combineNonces c challenge response = (c.Sum256 (challenge ++ response), none) ∧
    (challenge ++ response).length = 64 ∧
    (∀ publicKey signature,
      VerifyRSASignatureResponse c publicKey ⟨challenge⟩ ⟨response, signature⟩ =
        match c.VerifyPSS publicKey (c.Sum256 (challenge ++ response)) signature with
        | some _ => some Error.rsaVerifyFailed
        | none => none) ∧
    (∀ publicKey r s,
      VerifyECDSASignatureResponse c publicKey ⟨challenge⟩ ⟨response, r, s⟩ =
        if !c.ecdsaVerify publicKey (c.Sum256 (challenge ++ response)) (SetBytes r)
            (SetBytes s) then some Error.ecdsaVerifyFailed
        else none) ∧
    (∀ rand rand1 privateKey, generateNonce rand = ((response, none), rand1) →
      CalculateRSASignatureResponse c rand privateKey ⟨challenge⟩ =
        match c.SignPSS rand1 privateKey (c.Sum256 (challenge ++ response)) with
        | ((_, some err), rand2) => ((none, some (Error.lib err)), rand2)
        | ((signature, none), rand2) => ((some ⟨response, signature⟩, none), rand2)) ∧
    (∀ rand rand1 privateKey, generateNonce rand = ((response, none), rand1) →
      CalculateECDSASignatureResponse c rand privateKey ⟨challenge⟩ =
        match c.ecdsaSign rand1 privateKey (c.Sum256 (challenge ++ response)) with
        | ((_, some err), rand2) => ((none, some (Error.lib err)), rand2)
        | (((r, s), none), rand2) => ((some ⟨response, Bytes r, Bytes s⟩, none), rand2)) := by
  have hc := combineNonces_eq c challenge response h1 h2
  refine ⟨hc, by rw [List.length_append, h1, h2], fun p sig => ?_, fun p r s => ?_,
    fun rand rand1 k hg => ?_, fun rand rand1 k hg => ?_⟩
  · simp only [VerifyRSASignatureResponse, hc]
  · simp only [VerifyECDSASignatureResponse, hc]
  · simp only [CalculateRSASignatureResponse, hg, hc]
  · simp only [CalculateECDSASignatureResponse, hg, hc]

/-- Witness of C16: the digest of the sample nonce followed by itself. -/
theorem combineNonces_is_sha256_of_concatenation_witness :
    combineNonces sampleCrypto sampleNonce sampleNonce
      = (sampleCrypto.Sum256 (sampleNonce ++ sampleNonce), none) :=
  (combineNonces_is_sha256_of_concatenation sampleCrypto sampleNonce sampleNonce
    (by decide) (by decide)).1

end x509pop

namespace x509pop

/-! ## Generated nonces -/

/-- What a successful `GenerateRSASignatureChallenge` returns. -/
theorem GenerateRSASignatureChallenge_ok (rand rand1 : Reader) (ch : RSASignatureChallenge)
    (h : GenerateRSASignatureChallenge rand = ((some ch, none), rand1)) :
    ch.Nonce.length = nonceLen := by
  unfold GenerateRSASignatureChallenge at h
  rcases hg : generateNonce rand with ⟨⟨nonce, _ | err⟩, r1⟩
  · rw [hg] at h
    simp only [Prod.mk.injEq, Option.some.injEq, and_true] at h
    rw [← h.1]
    exact generateNonce_length rand r1 nonce hg
  · rw [hg] at h
    simp at h

/-- What a successful `GenerateECDSASignatureChallenge` returns. -/
theorem GenerateECDSASignatureChallenge_ok (rand rand1 : Reader)
    (ch : ECDSASignatureChallenge)
    (h : GenerateECDSASignatureChallenge rand = ((some ch, none), rand1)) :
    ch.Nonce.length = nonceLen := by
  unfold GenerateECDSASignatureChallenge at h
  rcases hg : generateNonce rand with ⟨⟨nonce, _ | err⟩, r1⟩
  · rw [hg] at h
    simp only [Prod.mk.injEq, Option.some.injEq, and_true] at h
    rw [← h.1]
    exact generateNonce_length rand r1 nonce hg
  · rw [hg] at h
    simp at h

/-- The parts of a challenge that `GenerateChallenge` returns without error carry nonces of
`nonceLen` bytes. -/
theorem GenerateChallenge_ok (rand rand1 : Reader) (cert : Certificate)
    (challenge : Challenge)
    (h : GenerateChallenge rand cert = ((some challenge, none), rand1)) :
    (∀ ch, challenge.RSASignature = some ch → ch.Nonce.length = nonceLen) ∧
    (∀ ch, challenge.ECDSASignature = some ch → ch.Nonce.length = nonceLen) := by
  unfold GenerateChallenge at h
  split at h
  · simp at h
  · split at h
    · rcases hg : GenerateRSASignatureChallenge rand with ⟨⟨part, _ | err⟩, r1⟩
      · rw [hg] at h
        simp only [Prod.mk.injEq, Option.some.injEq, and_true] at h
        rw [← h.1]
        refine ⟨fun ch hch => ?_, fun ch hch => by simp at hch⟩
        simp only at hch
        rw [hch] at hg
        exact GenerateRSASignatureChallenge_ok rand r1 ch hg
      · rw [hg] at h
        simp at h
    · rcases hg : GenerateECDSASignatureChallenge rand with ⟨⟨part, _ | err⟩, r1⟩
      · rw [hg] at h
        simp only [Prod.mk.injEq, Option.some.injEq, and_true] at h
        rw [← h.1]
        refine ⟨fun ch hch => by simp at hch, fun ch hch => ?_⟩
        simp only at hch
        rw [hch] at hg
        exact GenerateECDSASignatureChallenge_ok rand r1 ch hg
      · rw [hg] at h
        simp at h
    · simp at h

/-- C17: every challenge returned without error by `GenerateChallenge`,
`GenerateRSASignatureChallenge` or `GenerateECDSASignatureChallenge`, and every response
returned without error by `CalculateRSASignatureResponse` or `CalculateECDSASignatureResponse`,
carries a nonce of exactly 32 bytes; so `combineNonces` on a generated challenge nonce and a
generated response nonce returns no error. -/
theorem generated_nonce_has_32_bytes (c : Crypto) (rand rand1 : Reader) :
    (∀ ch, GenerateRSASignatureChallenge rand = ((some ch, none), rand1) →
      ch.Nonce.length = 32) ∧
    (∀ ch, GenerateECDSASignatureChallenge rand = ((some ch, none), rand1) →
      ch.Nonce.length = 32) ∧
    (∀ cert challenge, GenerateChallenge rand cert = ((some challenge, none), rand1) →
      (∀ ch, challenge.RSASignature = some ch → ch.Nonce.length = 32) ∧
      (∀ ch, challenge.ECDSASignature = some ch → ch.Nonce.length = 32)) ∧
    (∀ k ch resp, CalculateRSASignatureResponse c rand k ch = ((some resp, none), rand1) →
      resp.Nonce.length = 32 ∧ (combineNonces c ch.Nonce resp.Nonce).2 = none) ∧
    (∀ k ch resp, CalculateECDSASignatureResponse c rand k ch = ((some resp, none), rand1) →
      resp.Nonce.length = 32 ∧ (combineNonces c ch.Nonce resp.Nonce).2 = none) ∧
    (∀ challenge response : List Byte, challenge.length = 32 → response.length = 32 →
      (combineNonces c challenge response).2 = none) := by
  refine ⟨fun ch h => GenerateRSASignatureChallenge_ok rand rand1 ch h,
    fun ch h => GenerateECDSASignatureChallenge_ok rand rand1 ch h,
    fun cert challenge h => GenerateChallenge_ok rand rand1 cert challenge h,
    fun k ch resp h => ?_, fun k ch resp h => ?_, fun challenge response h1 h2 => ?_⟩
  · obtain ⟨h1, h2, _⟩ := CalculateRSASignatureResponse_ok c rand rand1 k ch resp h
    exact ⟨h2, by rw [combineNonces_eq c ch.Nonce resp.Nonce h1 h2]⟩
  · obtain ⟨h1, h2, _⟩ := CalculateECDSASignatureResponse_ok c rand rand1 k ch resp h
    exact ⟨h2, by rw [combineNonces_eq c ch.Nonce resp.Nonce h1 h2]⟩
  · rw [combineNonces_eq c challenge response h1 h2]

/-- Witness of C17: the challenge generated from the sample source for the sample RSA
certificate, and the response calculated for it, carry 32-byte nonces. -/
theorem generated_nonce_has_32_bytes_witness :
    GenerateChallenge sampleReader sampleRSACert
      = ((some ⟨some ⟨sampleNonce⟩, none⟩, none), { sampleReader with pos := 32 }) ∧
    sampleNonce.length = 32 ∧
    (⟨sampleNonce, [224, 12, 161]⟩ : RSASignatureResponse).Nonce.length = 32 ∧
    (combineNonces sampleCrypto sampleNonce sampleNonce).2 = none :=
  ⟨rfl,
   ((generated_nonce_has_32_bytes sampleCrypto sampleReader
      { sampleReader with pos := 32 }).2.2.1 sampleRSACert ⟨some ⟨sampleNonce⟩, none⟩ rfl).1
      ⟨sampleNonce⟩ rfl,
   ((generated_nonce_has_32_bytes sampleCrypto sampleReader
      { sampleReader with pos := 32 }).2.2.2.1 sampleRSAKey ⟨sampleNonce⟩
      ⟨sampleNonce, [224, 12, 161]⟩ rfl).1,
   ((generated_nonce_has_32_bytes sampleCrypto sampleReader
      { sampleReader with pos := 32 }).2.2.2.1 sampleRSAKey ⟨sampleNonce⟩
      ⟨sampleNonce, [224, 12, 161]⟩ rfl).2⟩

/-! ## Key usage and key types -/

/-- C18: for a certificate whose key usage lacks the digital-signature bit, `GenerateChallenge`
returns the error "certificate not intended for digital signature use" and no challenge,
whatever the public key, and reads nothing from the random source. -/
theorem GenerateChallenge_requires_digital_signature (rand : Reader) (cert : Certificate)
    (husage : cert.KeyUsage &&& KeyUsageDigitalSignature = 0) :
    GenerateChallenge rand cert = ((none, some Error.notForDigitalSignature), rand) := by
  unfold GenerateChallenge
  rw [if_pos husage]

/-- Witness of C18: the certificate with the key-encipherment usage only is rejected. -/
theorem GenerateChallenge_requires_digital_signature_witness :
    GenerateChallenge sampleReader sampleEnciphermentCert
      = ((none, some Error.notForDigitalSignature), sampleReader) :=
  GenerateChallenge_requires_digital_signature sampleReader sampleEnciphermentCert (by decide)

/-- Counterexample to C19 as stated: for the sample RSA certificate, which has the
digital-signature key usage, `GenerateChallenge` returns no challenge when the random source
fails: it returns the error of the source. -/
theorem GenerateChallenge_rsa_without_challenge :
    sampleRSACert.KeyUsage &&& KeyUsageDigitalSignature ≠ 0 ∧
    sampleRSACert.PublicKey = .rsa sampleRSAKey.PublicKey ∧
    GenerateChallenge failingReader sampleRSACert
      = ((none, some (Error.lib "unexpected EOF")), failingReader) :=
  ⟨by decide, rfl, rfl⟩

/-- C19 as amended: for a certificate with the digital-signature key usage, if the public key
is RSA then `GenerateChallenge` returns, when the random source does not fail, a challenge with
only the RSA part set (the ECDSA part nil), and when the source fails, that error and no
challenge; likewise with only the ECDSA part set for an ECDSA key; for any other public-key
type it returns the unsupported-key-type error and no challenge. -/
theorem GenerateChallenge_by_key_type (rand : Reader) (cert : Certificate)
    (husage : cert.KeyUsage &&& KeyUsageDigitalSignature ≠ 0) :
    (∀ k, cert.PublicKey = .rsa k →
      (rand.err = none → ∃ ch rand1,
        GenerateChallenge rand cert = ((some ⟨some ch, none⟩, none), rand1)) ∧
      (∀ e, rand.err = some e →
        GenerateChallenge rand cert = ((none, some (Error.lib e)), rand))) ∧
    (∀ k, cert.PublicKey = .ecdsa k →
      (rand.err = none → ∃ ch rand1,
        GenerateChallenge rand cert = ((some ⟨none, some ch⟩, none), rand1)) ∧
      (∀ e, rand.err = some e →
        GenerateChallenge rand cert = ((none, some (Error.lib e)), rand))) ∧
    (∀ t, cert.PublicKey = .other t →
      GenerateChallenge rand cert = ((none, some (Error.unsupportedPublicKeyType t)), rand)) := by
  refine ⟨fun k hk => ⟨fun hok => ?_, fun e he => ?_⟩,
    fun k hk => ⟨fun hok => ?_, fun e he => ?_⟩, fun t ht => ?_⟩
  · refine ⟨⟨(List.range nonceLen).map (fun i => rand.stream (rand.pos + i))⟩,
      { rand with pos := rand.pos + nonceLen }, ?_⟩
    simp only [GenerateChallenge, husage, if_false, hk, GenerateRSASignatureChallenge,
      generateNonce_ok rand hok]
  · simp only [GenerateChallenge, husage, if_false, hk, GenerateRSASignatureChallenge,
      generateNonce_fail rand e he]
  · refine ⟨⟨(List.range nonceLen).map (fun i => rand.stream (rand.pos + i))⟩,
      { rand with pos := rand.pos + nonceLen }, ?_⟩
    simp only [GenerateChallenge, husage, if_false, hk, GenerateECDSASignatureChallenge,
      generateNonce_ok rand hok]
  · simp only [GenerateChallenge, husage, if_false, hk, GenerateECDSASignatureChallenge,
      generateNonce_fail rand e he]
  · simp only [GenerateChallenge, husage, if_false, ht]

/-- Witness of C19 as amended: the sample ECDSA certificate with the sample source gets a
challenge with only the ECDSA part, and the Ed25519 certificate the unsupported-key-type
error. -/
theorem GenerateChallenge_by_key_type_witness :
    (∃ ch rand1, GenerateChallenge sampleReader sampleECDSACert
      = ((some ⟨none, some ch⟩, none), rand1)) ∧
    GenerateChallenge sampleReader sampleEd25519Cert
      = ((none, some (Error.unsupportedPublicKeyType "ed25519.PublicKey")), sampleReader) :=
  ⟨((GenerateChallenge_by_key_type sampleReader sampleECDSACert (by decide)).2.1
      sampleECDSAKey.PublicKey rfl).1 rfl,
   (GenerateChallenge_by_key_type sampleReader sampleEd25519Cert (by decide)).2.2
      "ed25519.PublicKey" rfl⟩

/-- C20: a key/algorithm mismatch fails, whatever the primitives are, so without computing or
verifying a signature: for an RSA key, `CalculateResponse` and `VerifyChallengeResponse` return
"expecting RSA challenge" when the challenge has no RSA part, and `VerifyChallengeResponse`
returns "expecting RSA response" when the response has no RSA part, whatever the ECDSA parts
are; symmetrically for an ECDSA key; and for a key of another type both return the
unsupported-key-type error. -/
theorem key_algorithm_mismatch_fails (c : Crypto) (rand : Reader) (challenge : Challenge)
    (response : Response) :
    (∀ k, challenge.RSASignature = none →
      CalculateResponse c rand (.rsa k) challenge
        = ((none, some Error.expectingRSAChallenge), rand)) ∧
    (∀ p, challenge.RSASignature = none →
      VerifyChallengeResponse c (.rsa p) challenge response
        = some Error.expectingRSAChallenge) ∧
    (∀ p ch, challenge.RSASignature = some ch → response.RSASignature = none →
      VerifyChallengeResponse c (.rsa p) challenge response
        = some Error.expectingRSAResponse) ∧
    (∀ k, challenge.ECDSASignature = none →
      CalculateResponse c rand (.ecdsa k) challenge
        = ((none, some Error.expectingECDSAChallenge), rand)) ∧
    (∀ p, challenge.ECDSASignature = none →
      VerifyChallengeResponse c (.ecdsa p) challenge response
        = some Error.expectingECDSAChallenge) ∧
    (∀ p ch, challenge.ECDSASignature = some ch → response.ECDSASignature = none →
      VerifyChallengeResponse c (.ecdsa p) challenge response
        = some Error.expectingECDSAResponse) ∧
    (∀ t, CalculateResponse c rand (.other t) challenge
        = ((none, some (Error.unsupportedPrivateKeyType t)), rand)) ∧
    (∀ t, VerifyChallengeResponse c (.other t) challenge response
        = some (Error.unsupportedPrivateKeyType t)) := by
  refine ⟨fun k h => ?_, fun p h => ?_, fun p ch h1 h2 => ?_, fun k h => ?_, fun p h => ?_,
    fun p ch h1 h2 => ?_, fun t => rfl, fun t => rfl⟩
  · simp only [CalculateResponse, h]
  · simp only [VerifyChallengeResponse, h]
  · simp only [VerifyChallengeResponse, h1, h2]
  · simp only [CalculateResponse, h]
  · simp only [VerifyChallengeResponse, h]
  · simp only [VerifyChallengeResponse, h1, h2]

/-- Witness of C20: an RSA key against a well-formed ECDSA-only challenge and response. -/
theorem key_algorithm_mismatch_fails_witness :
    CalculateResponse sampleCrypto sampleReader (.rsa sampleRSAKey)
        ⟨none, some ⟨sampleNonce⟩⟩
      = ((none, some Error.expectingRSAChallenge), sampleReader) ∧
    VerifyChallengeResponse sampleCrypto (.rsa sampleRSAKey.PublicKey)
        ⟨none, some ⟨sampleNonce⟩⟩ ⟨none, some ⟨sampleNonce, [225], [6]⟩⟩
      = some Error.expectingRSAChallenge ∧
    VerifyChallengeResponse sampleCrypto (.rsa sampleRSAKey.PublicKey)
        ⟨some ⟨sampleNonce⟩, some ⟨sampleNonce⟩⟩ ⟨none, some ⟨sampleNonce, [225], [6]⟩⟩
      = some Error.expectingRSAResponse :=
  ⟨(key_algorithm_mismatch_fails sampleCrypto sampleReader ⟨none, some ⟨sampleNonce⟩⟩
      ⟨none, some ⟨sampleNonce, [225], [6]⟩⟩).1 sampleRSAKey rfl,
   (key_algorithm_mismatch_fails sampleCrypto sampleReader ⟨none, some ⟨sampleNonce⟩⟩
      ⟨none, some ⟨sampleNonce, [225], [6]⟩⟩).2.1 sampleRSAKey.PublicKey rfl,
   (key_algorithm_mismatch_fails sampleCrypto sampleReader
      ⟨some ⟨sampleNonce⟩, some ⟨sampleNonce⟩⟩
      ⟨none, some ⟨sampleNonce, [225], [6]⟩⟩).2.2.1 sampleRSAKey.PublicKey ⟨sampleNonce⟩
      rfl rfl⟩

end x509pop

namespace jwtsvid

/-! ## The signature is checked before the claims -/

/-- An expiry or audience error of `verifyAndValidate` comes after a verified parse. -/
theorem verifyAndValidate_claim_error (deps : Deps) (now : Time) (tok : JSONWebToken)
    (claims : Claims) (spiffeID : ID) (key : PublicKey) (audience : List String) (err : Error)
    (hres : (verifyAndValidate deps now tok claims spiffeID key audience).2.2 = some err)
    (herr : err = Error.expired ∨ ∃ a b, err = Error.audienceMismatch a b) :
    ∃ claimsMap, deps.VerifiedClaims tok key = .ok claimsMap := by
  unfold verifyAndValidate at hres
  cases hv : deps.VerifiedClaims tok key with
  | error e =>
    rw [hv] at hres
    simp only [Option.some.injEq] at hres
    subst hres
    simp at herr
  | ok claimsMap => exact ⟨claimsMap, rfl⟩

/-- An expiry or audience error of `ValidateToken`, under a store built by `NewKeyStore`, comes
from a run that passed every step up to and including the verified parse. -/
theorem ValidateToken_claim_error (deps : Deps) (now : Time) (token : String)
    (m : TrustDomainKeys) (audience : List String) (err : Error)
    (hres : (ValidateToken deps now token (NewKeyStore m) audience).2.2 = some err)
    (herr : err = Error.expired ∨ ∃ a b, err = Error.audienceMismatch a b) :
    ∃ tok h claims spiffeID key claimsMap,
      deps.ParseSigned token = .ok tok ∧ tok.Headers = [h] ∧
      supportedAlgorithm h.Algorithm = true ∧ h.KeyID ≠ "" ∧
      deps.UnsafeClaimsWithoutVerification tok = .ok claims ∧ claims.Subject ≠ "" ∧
      deps.FromString claims.Subject = .ok spiffeID ∧
      (NewKeyStore m).FindPublicKey spiffeID.TrustDomain h.KeyID = (key, none) ∧
      deps.VerifiedClaims tok key = .ok claimsMap := by
  cases hparse : deps.ParseSigned token with
  | error e =>
    simp only [ValidateToken, hparse, Option.some.injEq] at hres
    subst hres
    simp at herr
  | ok tok =>
    by_cases hone : ∃ h, tok.Headers = [h]
    · obtain ⟨h, hhdr⟩ := hone
      rw [ValidateToken_single_header deps now token (NewKeyStore m) audience tok h hparse
        hhdr] at hres
      by_cases halg : supportedAlgorithm h.Algorithm = true
      · by_cases hkid : h.KeyID = ""
        · simp only [halg, if_true, afterAlgorithmCheck, hkid, Option.some.injEq] at hres
          subst hres
          simp at herr
        · cases hclaims : deps.UnsafeClaimsWithoutVerification tok with
          | error e =>
            simp only [halg, if_true, afterAlgorithmCheck, hkid, if_false, resolveAndVerify,
              hclaims, Option.some.injEq] at hres
            subst hres
            simp at herr
          | ok claims =>
            by_cases hsub : claims.Subject = ""
            · simp only [halg, if_true, afterAlgorithmCheck, hkid, if_false, resolveAndVerify,
                hclaims, hsub, Option.some.injEq] at hres
              subst hres
              simp at herr
            · cases hid : deps.FromString claims.Subject with
              | error e =>
                simp only [halg, if_true, afterAlgorithmCheck, hkid, if_false,
                  resolveAndVerify, hclaims, hsub, hid, Option.some.injEq] at hres
                subst hres
                simp at herr
              | ok spiffeID =>
                simp only [halg, if_true, afterAlgorithmCheck, hkid, if_false,
                  resolveAndVerify, hclaims, hsub, hid] at hres
                rcases hfind : (NewKeyStore m).FindPublicKey spiffeID.TrustDomain h.KeyID with
                  ⟨key, _ | e⟩
                · rw [hfind] at hres
                  simp only [] at hres
                  obtain ⟨claimsMap, hv⟩ := verifyAndValidate_claim_error deps now tok claims
                    spiffeID key audience err hres herr
                  exact ⟨tok, h, claims, spiffeID, key, claimsMap, rfl, hhdr, halg, hkid,
                    hclaims, hsub, hid, hfind, hv⟩
                · rw [hfind] at hres
                  simp only [Option.some.injEq] at hres
                  subst hres
                  exfalso
                  simp only [NewKeyStore, keyStore.FindPublicKey] at hfind
                  rcases herr with herr | ⟨a, b, herr⟩ <;> subst herr <;>
                    (split at hfind
                     · simp at hfind
                     · split at hfind <;> simp at hfind)
      · simp only [halg, Bool.false_eq_true, if_false, Option.some.injEq] at hres
        subst hres
        simp at herr
    · unfold ValidateToken at hres
      rw [hparse] at hres
      simp only [] at hres
      split at hres
      · next h heq => exact absurd ⟨h, heq⟩ hone
      · simp only [Option.some.injEq] at hres
        subst hres
        simp at herr

/-- C26: for a token that passes the header, algorithm, key-id, subject and key-lookup steps and
whose signature-verified parse fails under the key that was looked up, `ValidateToken` returns
the wrapped error of that parse, with the zero id and no claim map, whatever the current time
and the expected audience are and whatever the other claims of the unverified payload are (the
subject, which selects the key, being the same); and under a store built by `NewKeyStore` the
errors "token has expired" and "expected audience in ..." are returned only by runs in which
the signature-verified parse succeeded. -/
theorem ValidateToken_signature_before_claims (deps : Deps) (now : Time) (token : String)
    (m : TrustDomainKeys) (audience : List String) (tok : JSONWebToken) (h : Header)
    (claims : Claims) (spiffeID : ID) (key : PublicKey) (e : String)
    (hparse : deps.ParseSigned token = .ok tok) (hhdr : tok.Headers = [h])
    (halg : h.Algorithm ∈ ["RS256", "RS384", "RS512", "ES256", "ES384", "ES512",
        "PS256", "PS384", "PS512"])
    (hkid : h.KeyID ≠ "")
    (hclaims : deps.UnsafeClaimsWithoutVerification tok = .ok claims)
    (hsub : claims.Subject ≠ "") (hid : deps.FromString claims.Subject = .ok spiffeID)
    (hfind : (NewKeyStore m).FindPublicKey spiffeID.TrustDomain h.KeyID = (key, none))
    (hverify : deps.VerifiedClaims tok key = .error e) :
    ValidateToken deps now token (NewKeyStore m) audience
      = (ID.zero, none, some (Error.wrap e)) ∧
    (∀ (claims2 : Claims) (now2 : Time) (audience2 : List String),
      claims2.Subject = claims.Subject →
      ValidateToken { deps with UnsafeClaimsWithoutVerification := fun _ => .ok claims2 }
        now2 token (NewKeyStore m) audience2 = (ID.zero, none, some (Error.wrap e))) ∧
    (∀ (token2 : String) (now2 : Time) (audience2 : List String) (err : Error),
      (ValidateToken deps now2 token2 (NewKeyStore m) audience2).2.2 = some err →
      (err = Error.expired ∨ ∃ a b, err = Error.audienceMismatch a b) →
      ∃ tok2 h2 claims2 id2 key2 claimsMap,
        deps.ParseSigned token2 = .ok tok2 ∧ tok2.Headers = [h2] ∧
        deps.UnsafeClaimsWithoutVerification tok2 = .ok claims2 ∧
        deps.FromString claims2.Subject = .ok id2 ∧
        (NewKeyStore m).FindPublicKey id2.TrustDomain h2.KeyID = (key2, none) ∧
        deps.VerifiedClaims tok2 key2 = .ok claimsMap) := by
  have hs : supportedAlgorithm h.Algorithm = true := (supportedAlgorithm_iff h.Algorithm).mpr halg
  refine ⟨?_, fun claims2 now2 audience2 hsame => ?_, fun token2 now2 audience2 err hres herr => ?_⟩
  · rw [ValidateToken_resolved deps now token (NewKeyStore m) audience tok h claims spiffeID
      hparse hhdr hs hkid hclaims hsub hid, hfind]
    simp only [verifyAndValidate, hverify]
  · rw [ValidateToken_resolved { deps with UnsafeClaimsWithoutVerification := fun _ => .ok claims2 }
      now2 token (NewKeyStore m) audience2 tok h claims2 spiffeID
      hparse hhdr hs hkid rfl (by rw [hsame]; exact hsub) (by rw [hsame]; exact hid), hfind]
    simp only [verifyAndValidate, hverify]
  · obtain ⟨tok2, h2, claims2, id2, key2, claimsMap, h1, h2', _, _, h5, _, h7, h8, h9⟩ :=
      ValidateToken_claim_error deps now2 token2 m audience2 err hres herr
    exact ⟨tok2, h2, claims2, id2, key2, claimsMap, h1, h2', h5, h7, h8, h9⟩

/-- Witness of C26: the token `blog`, looked up in a store that holds the key `ec-2` under
`k1`, fails with the signature error. -/
theorem ValidateToken_signature_before_claims_witness :
    ValidateToken sampleDeps sampleNow "blog" (NewKeyStore wrongKeyMap) ["bar"]
      = (ID.zero, none,
          some (Error.wrap "square/go-jose: error in cryptographic primitive")) ∧
    (∀ (claims2 : Claims) (now2 : Time) (audience2 : List String),
      claims2.Subject = blogClaims.Subject →
      ValidateToken
        { sampleDeps with UnsafeClaimsWithoutVerification := fun _ => .ok claims2 }
        now2 "blog" (NewKeyStore wrongKeyMap) audience2
        = (ID.zero, none,
            some (Error.wrap "square/go-jose: error in cryptographic primitive"))) ∧
    (∀ (token2 : String) (now2 : Time) (audience2 : List String) (err : Error),
      (ValidateToken sampleDeps now2 token2 (NewKeyStore wrongKeyMap) audience2).2.2
        = some err →
      (err = Error.expired ∨ ∃ a b, err = Error.audienceMismatch a b) →
      ∃ tok2 h2 claims2 id2 key2 claimsMap,
        sampleDeps.ParseSigned token2 = .ok tok2 ∧ tok2.Headers = [h2] ∧
        sampleDeps.UnsafeClaimsWithoutVerification tok2 = .ok claims2 ∧
        sampleDeps.FromString claims2.Subject = .ok id2 ∧
        (NewKeyStore wrongKeyMap).FindPublicKey id2.TrustDomain h2.KeyID = (key2, none) ∧
        sampleDeps.VerifiedClaims tok2 key2 = .ok claimsMap) :=
  ValidateToken_signature_before_claims sampleDeps sampleNow "blog" wrongKeyMap ["bar"]
    ⟨[⟨"k1", "ES256"⟩], "blog"⟩ ⟨"k1", "ES256"⟩ blogClaims ⟨exampleOrg, "/blog"⟩
    (PublicKey.key "ec-2") "square/go-jose: error in cryptographic primitive"
    rfl rfl (by decide) (by decide) rfl (by decide) rfl rfl rfl

end jwtsvid

namespace x509pop

/-! ## The encoding of the ECDSA signature -/

/-- Leading zero bytes do not change the integer `SetBytes` reads. -/
theorem SetBytes_leading_zeros (n : Nat) (l : List Byte) :
    SetBytes (List.replicate n 0 ++ l) = SetBytes l := by
  have hz : ∀ k : Nat, List.foldl (fun (acc : Nat) (b : Byte) => acc * 256 + b.val) 0
      (List.replicate k (0 : Byte)) = 0 := by
    intro k
    induction k with
    | zero => rfl
    | succ k ih =>
      rw [List.replicate_succ, List.foldl_cons]
      exact ih
  simp only [SetBytes, List.foldl_append, hz]

/-- C30: `VerifyECDSASignatureResponse` reads `R` and `S` as unsigned big-endian integers: for
every public key, challenge and response, prepending any number of zero bytes to `R` and to `S`
leaves the result unchanged; and for every response that `CalculateECDSASignatureResponse`
returns, `R` and `S` decode, by `SetBytes`, to the pair `(r, s)` that `ecdsa.Sign` produced on
the digest of the two nonces. -/
theorem ECDSA_signature_bytes_big_endian (c : Crypto) (rand rand2 : Reader)
    (privateKey : ECDSAPrivateKey) (challenge : ECDSASignatureChallenge)
    (resp : ECDSASignatureResponse)
    (hcalc : CalculateECDSASignatureResponse c rand privateKey challenge
      = ((some resp, none), rand2)) :
    (∀ (publicKey : ECDSAPublicKey) (challenge2 : ECDSASignatureChallenge)
        (response : ECDSASignatureResponse) (n k : Nat),
      VerifyECDSASignatureResponse c publicKey challenge2
        ⟨response.Nonce, List.replicate n 0 ++ response.R, List.replicate k 0 ++ response.S⟩
        = VerifyECDSASignatureResponse c publicKey challenge2 response) ∧
    (∃ rand1 r s,
      c.ecdsaSign rand1 privateKey (c.Sum256 (challenge.Nonce ++ resp.Nonce))
        = (((r, s), none), rand2) ∧
      SetBytes resp.R = r ∧ SetBytes resp.S = s) := by
  refine ⟨fun publicKey challenge2 response n k => ?_, ?_⟩
  · simp only [VerifyECDSASignatureResponse, SetBytes_leading_zeros]
  · obtain ⟨_, _, rand1, r, s, hsign, hr, hs⟩ :=
      CalculateECDSASignatureResponse_ok c rand rand2 privateKey challenge resp hcalc
    exact ⟨rand1, r, s, hsign, by rw [hr, SetBytes_Bytes], by rw [hs, SetBytes_Bytes]⟩

/-- Witness of C30: with the sample primitives the response to the sample challenge carries the
bytes of the pair (225, 6), and zero bytes in front of them change no verification. -/
theorem ECDSA_signature_bytes_big_endian_witness :
    (∀ (publicKey : ECDSAPublicKey) (challenge2 : ECDSASignatureChallenge)
        (response : ECDSASignatureResponse) (n k : Nat),
      VerifyECDSASignatureResponse sampleCrypto publicKey challenge2
        ⟨response.Nonce, List.replicate n 0 ++ response.R, List.replicate k 0 ++ response.S⟩
        = VerifyECDSASignatureResponse sampleCrypto publicKey challenge2 response) ∧
    (∃ rand1 r s,
      sampleCrypto.ecdsaSign rand1 sampleECDSAKey
          (sampleCrypto.Sum256 (sampleNonce ++ sampleNonce))
        = (((r, s), none), { sampleReader with pos := 32 }) ∧
      SetBytes [225] = r ∧ SetBytes [6] = s) :=
  ECDSA_signature_bytes_big_endian sampleCrypto sampleReader { sampleReader with pos := 32 }
    sampleECDSAKey ⟨sampleNonce⟩ ⟨sampleNonce, [225], [6]⟩ rfl

end x509pop

namespace sshpop

/-! ## Lemmas on the certificate checker -/

/-- An authority either parses or fails to parse. -/
theorem parse_ok_or_error (env : Env) (cas : List String) :
    (∀ ca ∈ cas, ∃ k, env.ParseAuthorizedKey ca = .ok k) ∨
    (∃ ca ∈ cas, ∃ e, env.ParseAuthorizedKey ca = .error e) := by
  induction cas with
  | nil => left; intro ca hca; cases hca
  | cons ca rest ih =>
    cases hp : env.ParseAuthorizedKey ca with
    | error e => right; exact ⟨ca, List.mem_cons_self _ _, e, hp⟩
    | ok k =>
      rcases ih with hall | ⟨bad, hbad, e, he⟩
      · left
        intro x hx
        rcases List.mem_cons.mp hx with rfl | hx
        · exact ⟨k, hp⟩
        · exact hall x hx
      · right; exact ⟨bad, List.mem_cons_of_mem _ hbad, e, he⟩

/-- When every authority parses, the loop ends without error and the map holds the
fingerprints it held before and those of the parsed authorities. -/
theorem collectAuthorities_ok (env : Env) (cas : List String) (authorities : String → Bool)
    (hall : ∀ ca ∈ cas, ∃ k, env.ParseAuthorizedKey ca = .ok k) :
    ∃ result, collectAuthorities env authorities cas = (result, none) ∧
      ∀ fp, result fp = true ↔
        (authorities fp = true ∨
          ∃ ca ∈ cas, ∃ k, env.ParseAuthorizedKey ca = .ok k ∧ env.FingerprintSHA256 k = fp) := by
  induction cas generalizing authorities with
  | nil =>
    refine ⟨authorities, rfl, fun fp => ?_⟩
    simp
  | cons ca rest ih =>
    obtain ⟨k, hk⟩ := hall ca (List.mem_cons_self _ _)
    obtain ⟨result, hres, hiff⟩ := ih (setAuthority authorities (env.FingerprintSHA256 k))
      (fun x hx => hall x (List.mem_cons_of_mem _ hx))
    refine ⟨result, ?_, fun fp => ?_⟩
    · simp only [collectAuthorities, hk, hres]
    · rw [hiff fp]
      constructor
      · rintro (h | ⟨x, hx, k2, hk2, hfp⟩)
        · unfold setAuthority at h
          by_cases hfp : fp = env.FingerprintSHA256 k
          · right; exact ⟨ca, List.mem_cons_self _ _, k, hk, hfp.symm⟩
          · rw [if_neg hfp] at h; left; exact h
        · right; exact ⟨x, List.mem_cons_of_mem _ hx, k2, hk2, hfp⟩
      · rintro (h | ⟨x, hx, k2, hk2, hfp⟩)
        · left
          unfold setAuthority
          by_cases hfp : fp = env.FingerprintSHA256 k
          · rw [if_pos hfp]
          · rw [if_neg hfp]; exact h
        · rcases List.mem_cons.mp hx with rfl | hx
          · left
            rw [hk] at hk2
            cases hk2
            unfold setAuthority
            rw [if_pos hfp.symm]
          · right; exact ⟨x, hx, k2, hk2, hfp⟩

/-- When an authority fails to parse, the loop ends with the parse error of one of them. -/
theorem collectAuthorities_error (env : Env) (cas : List String) (authorities : String → Bool)
    (hbad : ∃ ca ∈ cas, ∃ e, env.ParseAuthorizedKey ca = .error e) :
    ∃ result ca e, collectAuthorities env authorities cas
      = (result, some (Error.parsePublicKey ca e)) := by
  induction cas generalizing authorities with
  | nil => obtain ⟨ca, hca, _⟩ := hbad; cases hca
  | cons ca rest ih =>
    cases hp : env.ParseAuthorizedKey ca with
    | error e => exact ⟨authorities, ca, e, by simp only [collectAuthorities, hp]⟩
    | ok k =>
      obtain ⟨bad, hmem, e, he⟩ := hbad
      rcases List.mem_cons.mp hmem with rfl | hmem
      · rw [hp] at he; cases he
      · obtain ⟨result, ca2, e2, h2⟩ := ih (setAuthority authorities (env.FingerprintSHA256 k))
          ⟨bad, hmem, e, he⟩
        exact ⟨result, ca2, e2, by simp only [collectAuthorities, hp, h2]⟩

/-- The three outcomes of `certCheckerFromPubkeys`. -/
theorem certCheckerFromPubkeys_cases (env : Env) (cas : List String) :
    (cas = [] ∧ certCheckerFromPubkeys env cas = (none, some Error.noCertAuthority)) ∨
    (cas ≠ [] ∧ (∃ ca ∈ cas, ∃ e, env.ParseAuthorizedKey ca = .error e) ∧
      ∃ ca e, certCheckerFromPubkeys env cas = (none, some (Error.parsePublicKey ca e))) ∨
    (cas ≠ [] ∧ (∀ ca ∈ cas, ∃ k, env.ParseAuthorizedKey ca = .ok k) ∧
      ∃ checker, certCheckerFromPubkeys env cas = (some checker, none) ∧
        ∀ k a, checker.IsHostAuthority k a = true ↔
          ∃ ca ∈ cas, ∃ authority, env.ParseAuthorizedKey ca = .ok authority ∧
            env.FingerprintSHA256 authority = env.FingerprintSHA256 k) := by
  by_cases hnil : cas = []
  · left
    subst hnil
    exact ⟨rfl, rfl⟩
  · right
    have hlen : ¬ cas.length = 0 := fun h => hnil (List.length_eq_zero.mp h)
    rcases parse_ok_or_error env cas with hall | hbad
    · right
      obtain ⟨result, hres, hiff⟩ := collectAuthorities_ok env cas (fun _ => false) hall
      refine ⟨hnil, hall, ⟨fun auth _ => result (env.FingerprintSHA256 auth)⟩, ?_, fun k a => ?_⟩
      · simp only [certCheckerFromPubkeys, if_neg hlen, hres]
      · simp only [hiff, Bool.false_eq_true, false_or]
    · left
      obtain ⟨result, ca, e, hres⟩ := collectAuthorities_error env cas (fun _ => false) hbad
      exact ⟨hnil, hbad, ca, e, by simp only [certCheckerFromPubkeys, if_neg hlen, hres]⟩

/-- C21: for every non-empty list of authorities that all parse, `certCheckerFromPubkeys`
returns a checker, and for every candidate key `k` and every address `a` its `IsHostAuthority`
is true of `(k, a)` if and only if the SHA-256 fingerprint of `k` is the fingerprint of one of
the parsed authorities; the result is the same for every address. -/
theorem IsHostAuthority_iff_fingerprint_configured (env : Env) (certAuthorities : List String)
    (hne : certAuthorities ≠ [])
    (hparse : ∀ ca ∈ certAuthorities, ∃ k, env.ParseAuthorizedKey ca = .ok k) :
    ∃ checker, certCheckerFromPubkeys env certAuthorities = (some checker, none) ∧
      ∀ (k : PublicKey) (a : String),
        (checker.IsHostAuthority k a = true ↔
          ∃ ca ∈ certAuthorities, ∃ authority, env.ParseAuthorizedKey ca = .ok authority ∧
            env.FingerprintSHA256 authority = env.FingerprintSHA256 k) ∧
        ∀ b : String, checker.IsHostAuthority k b = checker.IsHostAuthority k a := by
  rcases certCheckerFromPubkeys_cases env certAuthorities with
    ⟨hnil, _⟩ | ⟨_, ⟨ca, hca, e, he⟩, _⟩ | ⟨_, _, checker, hres, hiff⟩
  · exact absurd hnil hne
  · obtain ⟨k, hk⟩ := hparse ca hca
    rw [hk] at he
    cases he
  · refine ⟨checker, hres, fun k a => ⟨hiff k a, fun b => ?_⟩⟩
    have hb := hiff k b
    have ha := hiff k a
    cases h1 : checker.IsHostAuthority k b <;> cases h2 : checker.IsHostAuthority k a
    · rfl
    · exact absurd (hb.mpr (ha.mp h2)) (by rw [h1]; decide)
    · exact absurd (ha.mpr (hb.mp h1)) (by rw [h2]; decide)
    · rfl

/-- Witness of C21: the checker built from the two sample authorities. -/
theorem IsHostAuthority_iff_fingerprint_configured_witness :
    ∃ checker,
      certCheckerFromPubkeys sampleEnv ["ssh-ed25519 AAAA", "ssh-rsa BBBB"]
        = (some checker, none) ∧
      ∀ (k : PublicKey) (a : String),
        (checker.IsHostAuthority k a = true ↔
          ∃ ca ∈ ["ssh-ed25519 AAAA", "ssh-rsa BBBB"], ∃ authority,
            sampleEnv.ParseAuthorizedKey ca = .ok authority ∧
            sampleEnv.FingerprintSHA256 authority = sampleEnv.FingerprintSHA256 k) ∧
        ∀ b : String, checker.IsHostAuthority k b = checker.IsHostAuthority k a :=
  IsHostAuthority_iff_fingerprint_configured sampleEnv ["ssh-ed25519 AAAA", "ssh-rsa BBBB"]
    (by decide)
    (by
      intro ca hca
      rcases List.mem_cons.mp hca with rfl | hca
      · exact ⟨⟨"ssh-ed25519", "AAAA"⟩, rfl⟩
      · rcases List.mem_cons.mp hca with rfl | hca
        · exact ⟨⟨"ssh-rsa", "BBBB"⟩, rfl⟩
        · cases hca)

/-! ## The server -/

/-- The result of `NewServer` once the trust domain and the configuration have been read. -/
theorem NewServer_decoded (env : Env) (trustDomain configString : String) (td : TrustDomain)
    (config : ServerConfig) (htd : env.TrustDomainFromString trustDomain = .ok td)
    (hdec : env.Decode configString = .ok config) :
    NewServer env trustDomain configString =
      if config.CertAuthorities = none ∧ config.CertAuthoritiesPath = "" then
        (none, some StatusError.missingAuthorities)
      else
        match gatherCertAuthorities env config with
        | (_, some err) => (none, some err)
        | (certAuthorities, none) =>
          match certCheckerFromPubkeys env certAuthorities with
          | (_, some err) => (none, some (StatusError.certChecker err))
          | (none, none) => (none, none)
          | (some certChecker, none) =>
            if config.AgentPathTemplate ≠ "" then
              match env.Parse config.AgentPathTemplate with
              | .error _ => (none, some (StatusError.templateParse config.AgentPathTemplate))
              | .ok tmpl => (some ⟨certChecker, tmpl, td, config.CanonicalDomain⟩, none)
            else
              (some ⟨certChecker, env.DefaultAgentPathTemplate, td, config.CanonicalDomain⟩,
                none) := by
  simp only [NewServer, htd, hdec]

/-- The result of `NewServer` once the authorities have been gathered. -/
theorem NewServer_gathered (env : Env) (trustDomain configString : String) (td : TrustDomain)
    (config : ServerConfig) (cas : List String)
    (htd : env.TrustDomainFromString trustDomain = .ok td)
    (hdec : env.Decode configString = .ok config)
    (hset : ¬ (config.CertAuthorities = none ∧ config.CertAuthoritiesPath = ""))
    (hgather : gatherCertAuthorities env config = (cas, none)) :
    NewServer env trustDomain configString =
      match certCheckerFromPubkeys env cas with
      | (_, some err) => (none, some (StatusError.certChecker err))
      | (none, none) => (none, none)
      | (some certChecker, none) =>
        if config.AgentPathTemplate ≠ "" then
          match env.Parse config.AgentPathTemplate with
          | .error _ => (none, some (StatusError.templateParse config.AgentPathTemplate))
          | .ok tmpl => (some ⟨certChecker, tmpl, td, config.CanonicalDomain⟩, none)
        else
          (some ⟨certChecker, env.DefaultAgentPathTemplate, td, config.CanonicalDomain⟩,
            none) := by
  rw [NewServer_decoded env trustDomain configString td config htd hdec, if_neg hset, hgather]

/-- With neither setting present, nothing is gathered. -/
theorem gatherCertAuthorities_unset (env : Env) (config : ServerConfig)
    (h : config.CertAuthorities = none ∧ config.CertAuthoritiesPath = "") :
    gatherCertAuthorities env config = ([], none) := by
  simp only [gatherCertAuthorities, h.1, h.2, ne_eq, not_true_eq_false, if_false]

/-- A server that `NewServer` returns comes from a run in which every step passed. -/
theorem NewServer_success (env : Env) (trustDomain configString : String) (server : Server)
    (err : Option StatusError)
    (h : NewServer env trustDomain configString = (some server, err)) :
    err = none ∧ ∃ td config cas,
      env.TrustDomainFromString trustDomain = .ok td ∧ env.Decode configString = .ok config ∧
      ¬ (config.CertAuthorities = none ∧ config.CertAuthoritiesPath = "") ∧
      gatherCertAuthorities env config = (cas, none) ∧
      certCheckerFromPubkeys env cas = (some server.certChecker, none) ∧
      server.trustDomain = td ∧ server.canonicalDomain = config.CanonicalDomain := by
  cases htd : env.TrustDomainFromString trustDomain with
  | error e => simp [NewServer, htd] at h
  | ok td =>
    cases hdec : env.Decode configString with
    | error e => simp [NewServer, htd, hdec] at h
    | ok config =>
      rw [NewServer_decoded env trustDomain configString td config htd hdec] at h
      by_cases hset : config.CertAuthorities = none ∧ config.CertAuthoritiesPath = ""
      · rw [if_pos hset] at h
        simp at h
      · rw [if_neg hset] at h
        rcases hg : gatherCertAuthorities env config with ⟨cas, _ | gerr⟩
        · rw [hg] at h
          simp only [] at h
          rcases hc : certCheckerFromPubkeys env cas with ⟨_ | checker, _ | cerr⟩
          · rw [hc] at h; simp at h
          · rw [hc] at h; simp at h
          · rw [hc] at h
            simp only [] at h
            by_cases ht : config.AgentPathTemplate = ""
            · simp only [ht, ne_eq, not_true_eq_false, if_false, Prod.mk.injEq,
                Option.some.injEq] at h
              obtain ⟨hs, he⟩ := h
              subst hs
              exact ⟨he.symm, td, config, cas, rfl, rfl, hset, hg, hc, rfl, rfl⟩
            · simp only [ne_eq, ht, not_false_eq_true, if_true] at h
              cases hp : env.Parse config.AgentPathTemplate with
              | error e => rw [hp] at h; simp at h
              | ok tmpl =>
                rw [hp] at h
                simp only [Prod.mk.injEq, Option.some.injEq] at h
                obtain ⟨hs, he⟩ := h
                subst hs
                exact ⟨he.symm, td, config, cas, rfl, rfl, hset, hg, hc, rfl, rfl⟩
          · rw [hc] at h; simp at h
        · rw [hg] at h
          simp at h

/-- C22: `NewServer` returns an error and no `Server` when neither `cert_authorities` nor
`cert_authorities_path` is set, when the authorities cannot be gathered from the file, when the
gathered list is empty, and when one of the gathered authorities fails to parse; and every
`Server` that `NewServer` returns comes without error and holds the checker that
`certCheckerFromPubkeys` builds from a non-empty list of authorities that all parse. -/
theorem NewServer_requires_parsed_authorities (env : Env) (trustDomain configString : String) :
    (∀ td config, env.TrustDomainFromString trustDomain = .ok td →
      env.Decode configString = .ok config →
      (config.CertAuthorities = none ∧ config.CertAuthoritiesPath = "" →
        NewServer env trustDomain configString
          = (none, some StatusError.missingAuthorities)) ∧
      (∀ cas gerr, gatherCertAuthorities env config = (cas, some gerr) →
        ∃ err, NewServer env trustDomain configString = (none, some err)) ∧
      (∀ cas, gatherCertAuthorities env config = (cas, none) →
        (cas = [] ∨ ∃ ca ∈ cas, ∃ e, env.ParseAuthorizedKey ca = .error e) →
        ∃ err, NewServer env trustDomain configString = (none, some err))) ∧
    (∀ server err, NewServer env trustDomain configString = (some server, err) →
      err = none ∧ ∃ config cas, env.Decode configString = .ok config ∧
        gatherCertAuthorities env config = (cas, none) ∧ cas ≠ [] ∧
        (∀ ca ∈ cas, ∃ k, env.ParseAuthorizedKey ca = .ok k) ∧
        certCheckerFromPubkeys env cas = (some server.certChecker, none)) := by
  refine ⟨fun td config htd hdec => ⟨fun hunset => ?_, fun cas gerr hg => ?_, fun cas hg hbad => ?_⟩,
    fun server err h => ?_⟩
  · rw [NewServer_decoded env trustDomain configString td config htd hdec, if_pos hunset]
  · rw [NewServer_decoded env trustDomain configString td config htd hdec]
    by_cases hset : config.CertAuthorities = none ∧ config.CertAuthoritiesPath = ""
    · exact ⟨_, by rw [if_pos hset]⟩
    · exact ⟨gerr, by rw [if_neg hset, hg]⟩
  · by_cases hset : config.CertAuthorities = none ∧ config.CertAuthoritiesPath = ""
    · exact ⟨_, by rw [NewServer_decoded env trustDomain configString td config htd hdec,
        if_pos hset]⟩
    · rw [NewServer_gathered env trustDomain configString td config cas htd hdec hset hg]
      rcases certCheckerFromPubkeys_cases env cas with
        ⟨_, hres⟩ | ⟨_, _, ca, e, hres⟩ | ⟨hne, hall, _⟩
      · exact ⟨_, by rw [hres]⟩
      · exact ⟨_, by rw [hres]⟩
      · rcases hbad with hnil | ⟨ca, hca, e, he⟩
        · exact absurd hnil hne
        · obtain ⟨k, hk⟩ := hall ca hca
          rw [hk] at he
          cases he
  · obtain ⟨herr, td, config, cas, _, hdec, _, hg, hc, _, _⟩ :=
      NewServer_success env trustDomain configString server err h
    refine ⟨herr, config, cas, hdec, hg, ?_⟩
    rcases certCheckerFromPubkeys_cases env cas with
      ⟨_, hres⟩ | ⟨_, _, ca, e, hres⟩ | ⟨hne, hall, _⟩
    · rw [hres] at hc; simp at hc
    · rw [hres] at hc; simp at hc
    · exact ⟨hne, hall, hc⟩

/-- Witness of C22: with the sample environment, a configuration without authorities, one
with an empty list and one with an authority that does not parse are refused. -/
theorem NewServer_requires_parsed_authorities_witness :
    NewServer sampleEnv "example.org" "none" = (none, some StatusError.missingAuthorities) ∧
    (∃ err, NewServer sampleEnv "example.org" "empty" = (none, some err)) ∧
    (∃ err, NewServer sampleEnv "example.org" "badkey" = (none, some err)) :=
  ⟨((NewServer_requires_parsed_authorities sampleEnv "example.org" "none").1
      ⟨"example.org"⟩ ⟨none, "", "", ""⟩ rfl rfl).1 ⟨rfl, rfl⟩,
    ((NewServer_requires_parsed_authorities sampleEnv "example.org" "empty").1
      ⟨"example.org"⟩ ⟨some [], "", "", ""⟩ rfl rfl).2.2 [] rfl (Or.inl rfl),
    ((NewServer_requires_parsed_authorities sampleEnv "example.org" "badkey").1
      ⟨"example.org"⟩ ⟨some ["ssh-ed25519 AAAA", "garbage"], "", "", ""⟩ rfl rfl).2.2
      ["ssh-ed25519 AAAA", "garbage"] rfl
      (Or.inr ⟨"garbage", by decide, "ssh: no key found", rfl⟩)⟩

/-- C23: for a configuration whose trust domain is valid and whose authorities give a checker:
if `agent_path_template` is empty, `NewServer` returns a `Server` with
`DefaultAgentPathTemplate`; if it is not empty and does not parse, `NewServer` returns no
`Server` and the error "failed to parse agent svid template", of code `InvalidArgument`; if it
is not empty and parses, `NewServer` returns a `Server` with the parsed template. -/
theorem NewServer_agent_path_template (env : Env) (trustDomain configString : String)
    (td : TrustDomain) (config : ServerConfig) (cas : List String) (checker : CertChecker)
    (htd : env.TrustDomainFromString trustDomain = .ok td)
    (hdec : env.Decode configString = .ok config)
    (hgather : gatherCertAuthorities env config = (cas, none))
    (hchecker : certCheckerFromPubkeys env cas = (some checker, none)) :
    (config.AgentPathTemplate = "" →
      NewServer env trustDomain configString
        = (some ⟨checker, env.DefaultAgentPathTemplate, td, config.CanonicalDomain⟩, none)) ∧
    (config.AgentPathTemplate ≠ "" →
      ∀ e, env.Parse config.AgentPathTemplate = .error e →
        NewServer env trustDomain configString
          = (none, some (StatusError.templateParse config.AgentPathTemplate)) ∧
        (StatusError.templateParse config.AgentPathTemplate).code = Code.InvalidArgument) ∧
    (config.AgentPathTemplate ≠ "" →
      ∀ tmpl, env.Parse config.AgentPathTemplate = .ok tmpl →
        NewServer env trustDomain configString
          = (some ⟨checker, tmpl, td, config.CanonicalDomain⟩, none)) := by
  have hset : ¬ (config.CertAuthorities = none ∧ config.CertAuthoritiesPath = "") := by
    intro hunset
    rw [gatherCertAuthorities_unset env config hunset] at hgather
    have hcas : cas = [] := (congrArg Prod.fst hgather).symm
    subst hcas
    have hfail : certCheckerFromPubkeys env [] = (none, some Error.noCertAuthority) := rfl
    rw [hfail] at hchecker
    simp at hchecker
  rw [NewServer_gathered env trustDomain configString td config cas htd hdec hset hgather,
    hchecker]
  refine ⟨fun hempty => ?_, fun hfull e he => ⟨?_, rfl⟩, fun hfull tmpl ht => ?_⟩
  · simp only [hempty, ne_eq, not_true_eq_false, if_false]
  · simp only [ne_eq, hfull, not_false_eq_true, if_true, he]
  · simp only [ne_eq, hfull, not_false_eq_true, if_true, ht]

/-- Witness of C23: with the sample environment, a configuration without a template gives a
server with the default template, and one with the template of two opening braces is refused
with an `InvalidArgument` error. -/
theorem NewServer_agent_path_template_witness :
    NewServer sampleEnv "example.org" "inline"
      = (some ⟨⟨fun auth _ =>
            setAuthority (fun _ => false) "SHA256:AAAA" (sampleEnv.FingerprintSHA256 auth)⟩,
          sampleEnv.DefaultAgentPathTemplate, ⟨"example.org"⟩, ""⟩, none) ∧
    (NewServer sampleEnv "example.org" "badtemplate"
        = (none, some (StatusError.templateParse "\x7b\x7b")) ∧
      (StatusError.templateParse "\x7b\x7b").code = Code.InvalidArgument) :=
  ⟨(NewServer_agent_path_template sampleEnv "example.org" "inline" ⟨"example.org"⟩
      ⟨some ["ssh-ed25519 AAAA"], "", "", ""⟩ ["ssh-ed25519 AAAA"]
      ⟨fun auth _ =>
        setAuthority (fun _ => false) "SHA256:AAAA" (sampleEnv.FingerprintSHA256 auth)⟩
      rfl rfl rfl rfl).1 rfl,
    (NewServer_agent_path_template sampleEnv "example.org" "badtemplate" ⟨"example.org"⟩
      ⟨some ["ssh-ed25519 AAAA"], "", "", "\x7b\x7b"⟩ ["ssh-ed25519 AAAA"]
      ⟨fun auth _ =>
        setAuthority (fun _ => false) "SHA256:AAAA" (sampleEnv.FingerprintSHA256 auth)⟩
      rfl rfl rfl rfl).2.1 (by decide) "template: unclosed action" rfl⟩

/-! ## The authorities file -/

/-- A split has at least one segment. -/
theorem splitLines_ne_nil (cs : List Char) : splitLines cs ≠ [] := by
  cases cs with
  | nil => simp [splitLines]
  | cons c cs =>
    unfold splitLines
    split_ifs
    · simp
    · split <;> simp

/-- The function `splitLines` is the split of the standard library on the newline. -/
theorem splitLines_eq_splitOn (cs : List Char) : splitLines cs = cs.splitOn newline := by
  induction cs with
  | nil => rfl
  | cons c cs ih =>
    unfold splitLines
    rw [List.splitOn, List.splitOnP_cons]
    by_cases hc : c = newline
    · rw [if_pos hc, ih]
      simp [hc, List.splitOn]
    · rw [if_neg hc]
      have hne := splitLines_ne_nil cs
      rw [ih] at hne ⊢
      have hb : (c == newline) = false := by simpa using hc
      rw [hb]
      simp only [Bool.false_eq_true, if_false]
      cases hsplit : List.splitOn newline cs with
      | nil => exact absurd hsplit hne
      | cons seg rest =>
        rw [List.splitOn] at hsplit
        rw [hsplit]
        rfl

/-- Joining the segments with newlines gives the text back. -/
theorem intercalate_splitLines (cs : List Char) :
    [newline].intercalate (splitLines cs) = cs := by
  rw [splitLines_eq_splitOn]
  exact List.intercalate_splitOn cs newline

/-- No segment holds a newline. -/
theorem splitLines_no_newline (cs : List Char) : ∀ seg ∈ splitLines cs, newline ∉ seg := by
  induction cs with
  | nil =>
    intro seg hseg
    simp only [splitLines, List.mem_singleton] at hseg
    subst hseg
    simp
  | cons c cs ih =>
    intro seg hseg
    unfold splitLines at hseg
    by_cases hc : c = newline
    · rw [if_pos hc] at hseg
      rcases List.mem_cons.mp hseg with rfl | hseg
      · simp
      · exact ih seg hseg
    · rw [if_neg hc] at hseg
      cases hsplit : splitLines cs with
      | nil => exact absurd hsplit (splitLines_ne_nil cs)
      | cons first rest =>
        rw [hsplit] at hseg ih
        simp only [List.mem_cons] at hseg
        rcases hseg with rfl | hseg
        · intro hmem
          rcases List.mem_cons.mp hmem with h | h
          · exact hc h.symm
          · exact ih first (List.mem_cons_self _ _) h
        · exact ih seg (List.mem_cons_of_mem _ hseg)

/-- The loop of `pubkeysFromPath` appends the segments that are not empty. -/
theorem appendPubkeys_eq (pubkeys segments : List String) :
    appendPubkeys pubkeys segments = pubkeys ++ segments.filter (fun p => decide (p ≠ "")) := by
  induction segments generalizing pubkeys with
  | nil => simp [appendPubkeys]
  | cons p rest ih =>
    unfold appendPubkeys
    by_cases hp : p = ""
    · rw [if_pos hp, ih]
      simp [hp]
    · rw [if_neg hp, ih]
      simp [hp]

/-- C29: when the file cannot be read, `pubkeysFromPath` returns the read error; when it holds
the text `s`, `pubkeysFromPath` returns the segments of `s` between newlines that are not the
empty string, in their order and as they are in the file, or the error "no data found in file"
when there is no such segment; so it returns an error if and only if the file cannot be read or
every segment of its text is empty. -/
theorem pubkeysFromPath_nonempty_segments (env : Env) (pubkeysPath : String) :
    (∀ err, env.ReadFile pubkeysPath = .error err →
      pubkeysFromPath env pubkeysPath = ([], some (Error.readFile err))) ∧
    (∀ s, env.ReadFile pubkeysPath = .ok s →
      ((Split s).filter (fun p => decide (p ≠ "")) ≠ [] →
        pubkeysFromPath env pubkeysPath
          = ((Split s).filter (fun p => decide (p ≠ "")), none)) ∧
      ((Split s).filter (fun p => decide (p ≠ "")) = [] →
        pubkeysFromPath env pubkeysPath = ([], some (Error.noData pubkeysPath)))) ∧
    ((pubkeysFromPath env pubkeysPath).2 ≠ none ↔
      ((∃ err, env.ReadFile pubkeysPath = .error err) ∨
        ∃ s, env.ReadFile pubkeysPath = .ok s ∧ ∀ seg ∈ Split s, seg = "")) := by
  have hok : ∀ s, env.ReadFile pubkeysPath = .ok s →
      pubkeysFromPath env pubkeysPath =
        if (Split s).filter (fun p => decide (p ≠ "")) = [] then
          ([], some (Error.noData pubkeysPath))
        else ((Split s).filter (fun p => decide (p ≠ "")), none) := by
    intro s hs
    simp only [pubkeysFromPath, hs, appendPubkeys_eq, List.nil_append]
  refine ⟨fun err herr => ?_, fun s hs => ⟨fun hne => ?_, fun hnil => ?_⟩, ?_⟩
  · simp only [pubkeysFromPath, herr]
  · rw [hok s hs, if_neg hne]
  · rw [hok s hs, if_pos hnil]
  · cases hread : env.ReadFile pubkeysPath with
    | error err =>
      simp only [pubkeysFromPath, hread, ne_eq, reduceCtorEq, not_false_eq_true, true_iff]
      exact Or.inl ⟨err, rfl⟩
    | ok s =>
      rw [hok s hread]
      constructor
      · intro herr
        right
        refine ⟨s, rfl, fun seg hseg => ?_⟩
        by_contra hne
        have hmem : seg ∈ (Split s).filter (fun p => decide (p ≠ "")) :=
          List.mem_filter.mpr ⟨hseg, by simpa using hne⟩
        by_cases hnil : (Split s).filter (fun p => decide (p ≠ "")) = []
        · rw [hnil] at hmem
          cases hmem
        · rw [if_neg hnil] at herr
          exact herr rfl
      · rintro (⟨err, herr⟩ | ⟨s2, hs2, hall⟩)
        · cases herr
        · have hs : s = s2 := by
            cases hs2
            rfl
          subst hs
          have hnil : (Split s).filter (fun p => decide (p ≠ "")) = [] := by
            rw [List.filter_eq_nil_iff]
            intro seg hseg
            simp [hall seg hseg]
          rw [if_pos hnil]
          simp

/-- Witness of C29: the sample file gives its two keys, its whitespace-only line and its line
ending in a carriage return kept as they are, and a file of newlines only gives the error. -/
theorem pubkeysFromPath_nonempty_segments_witness :
    pubkeysFromPath sampleEnv "/etc/spire/authorities"
      = (["ssh-ed25519 AAAA", "  ", "ssh-rsa BBBB\r"], none) ∧
    pubkeysFromPath sampleEnv "/etc/spire/empty"
      = ([], some (Error.noData "/etc/spire/empty")) :=
  ⟨((pubkeysFromPath_nonempty_segments sampleEnv "/etc/spire/authorities").2.1
      (String.mk ("ssh-ed25519 AAAA".toList ++ [newline, newline] ++ "  ".toList
        ++ [newline] ++ "ssh-rsa BBBB".toList ++ [Char.ofNat 13, newline])) rfl).1
      (by decide),
    ((pubkeysFromPath_nonempty_segments sampleEnv "/etc/spire/empty").2.1
      (String.mk [newline, newline]) rfl).2 (by decide)⟩

end sshpop

namespace peertracker

/-! ## Connections without peer credentials -/

/-- Counterexample to C24 as stated: a plain TCP connection gives syscall-level access, so
`CallerFromUDSConn` calls the platform function on its descriptor; with the sample platform
function it returns a nil error and a `CallerInfo` that is not the zero value, and with any
platform function it returns `ErrInvalidConnection` only if that function does. -/
theorem CallerFromUDSConn_on_plain_TCP :
    sampleTCPConn.TCPConn.isSome = true ∧
    CallerFromUDSConn sampleGetCallerInfo sampleTCPConn
      = (⟨some "10.0.0.5:51234", 0, 4294967295, 4294967295⟩, none) ∧
    (CallerFromUDSConn sampleGetCallerInfo sampleTCPConn).1 ≠ CallerInfo.zero ∧
    ∀ f : Nat → CallerInfo × Option Error,
      (CallerFromUDSConn f sampleTCPConn).2 = some Error.ErrInvalidConnection →
      (f 9).2 = some Error.ErrInvalidConnection := by
  refine ⟨rfl, rfl, by decide, fun f hf => ?_⟩
  simp only [CallerFromUDSConn, sampleTCPConn] at hf
  rcases hfd : f 9 with ⟨info, _ | err⟩
  · rw [hfd] at hf
    simp at hf
  · rw [hfd] at hf
    exact hf

/-- C24 as amended: for every connection whose dynamic type does not implement `syscall.Conn`,
`CallerFromUDSConn` returns `ErrInvalidConnection` together with the zero `CallerInfo`: no
address, and process, user and group id 0; the platform function is not consulted.  For a
connection that implements it, as a `*net.TCPConn` does, and whose `SyscallConn` and `Control`
succeed, `CallerFromUDSConn` returns what the platform function gives for the descriptor: its
error with its `CallerInfo`, or without an error its `CallerInfo` with the remote address. -/
theorem CallerFromUDSConn_invalid_connection
    (getCallerInfoFromFileDescriptor : Nat → CallerInfo × Option Error) (conn : Conn)
    (hconn : conn.SyscallConn = none) :
    CallerFromUDSConn getCallerInfoFromFileDescriptor conn
      = (CallerInfo.zero, some Error.ErrInvalidConnection) ∧
    CallerInfo.zero = ⟨none, 0, 0, 0⟩ ∧
    (∀ other : Nat → CallerInfo × Option Error,
      CallerFromUDSConn other conn
        = CallerFromUDSConn getCallerInfoFromFileDescriptor conn) ∧
    (∀ (conn2 : Conn) (rawconn : RawConn) (fd : Nat),
      conn2.SyscallConn = some (.ok rawconn) → rawconn.controlFd = some fd →
      rawconn.controlErr = none →
      CallerFromUDSConn getCallerInfoFromFileDescriptor conn2 =
        match getCallerInfoFromFileDescriptor fd with
        | (info, some err) => (info, some err)
        | (info, none) => ({ info with Addr := conn2.RemoteAddr }, none)) := by
  refine ⟨?_, rfl, fun other => ?_, fun conn2 rawconn fd h2 hfd hctrl => ?_⟩
  · simp only [CallerFromUDSConn, hconn]
  · simp only [CallerFromUDSConn, hconn]
  · simp only [CallerFromUDSConn, h2, hfd, hctrl]
    rcases getCallerInfoFromFileDescriptor fd with ⟨info, _ | err⟩ <;> rfl

/-- Witness of C24 as amended: an in-memory connection. -/
theorem CallerFromUDSConn_invalid_connection_witness :
    CallerFromUDSConn sampleGetCallerInfo samplePipeConn
      = (CallerInfo.zero, some Error.ErrInvalidConnection) ∧
    (∀ other : Nat → CallerInfo × Option Error,
      CallerFromUDSConn other samplePipeConn
        = CallerFromUDSConn sampleGetCallerInfo samplePipeConn) ∧
    CallerFromUDSConn sampleGetCallerInfo sampleUDSConn
      = (⟨some "@", 4242, 1000, 1000⟩, none) :=
  have h := CallerFromUDSConn_invalid_connection sampleGetCallerInfo samplePipeConn rfl
  ⟨h.1, h.2.2.1, h.2.2.2 sampleUDSConn ⟨some 7, none⟩ 7 rfl rfl rfl⟩

/-- C25: `receiveTCPConn` returns the zero `CallerInfo` on every connection, and on the sample
TCP connection, whose peer has sent a well-formed request, it returns it with a nil error. -/
theorem receiveTCPConn_returns_zero_info :
    (∀ (ReadRequest : String → Except String Request) (conn : Conn),
      (receiveTCPConn ReadRequest conn).1 = CallerInfo.zero) ∧
    receiveTCPConn sampleReadRequest sampleTCPConn = (CallerInfo.zero, none) := by
  refine ⟨fun ReadRequest conn => ?_, rfl⟩
  unfold receiveTCPConn
  cases conn.TCPConn with
  | none => rfl
  | some tcpCon =>
    simp only []
    cases tcpCon.Read 4096 with
    | error e => rfl
    | ok payload =>
      simp only []
      cases ReadRequest payload with
      | error e => rfl
      | ok req => rfl

end peertracker

namespace awsiid

/-! ## The stored configuration over a sequence of calls -/

/-- The method `getConfig` fails exactly on a plugin without configuration. -/
theorem iid_getConfig_not_configured_iff (p : IIDAttestorPlugin) :
    (getConfig p).2 = some (status.Error.status status.Code.FailedPrecondition "not configured")
      ↔ p.config = none := by
  unfold getConfig
  by_cases h : p.config = none
  · simp [h]
  · simp [h]

/-- The configuration after a call is absent exactly when it was absent before and the call is
not a `Configure` that succeeds. -/
theorem iid_step_config_none (env : Env) (p : IIDAttestorPlugin) (call : Call) :
    (step env p call).config = none ↔ p.config = none ∧ call.succeeds env = false := by
  cases call with
  | AidAttestation => simp [step, Call.succeeds]
  | Configure hcl =>
    cases hd : env.Decode hcl with
    | error e => simp [step, Configure, Call.succeeds, hd]
    | ok config => simp [step, Configure, Call.succeeds, hd]

/-- The configuration after a sequence of calls is absent exactly when it was absent at the
start and no call of the sequence is a `Configure` that succeeds. -/
theorem iid_run_config_none (env : Env) (p : IIDAttestorPlugin) (calls : List Call) :
    (run env p calls).config = none
      ↔ p.config = none ∧ ∀ c ∈ calls, c.succeeds env = false := by
  induction calls generalizing p with
  | nil => simp [run]
  | cons call rest ih =>
    have hrun : run env p (call :: rest) = run env (step env p call) rest := rfl
    rw [hrun, ih, iid_step_config_none]
    simp only [List.mem_cons, forall_eq_or_imp, and_assoc]

/-- Calls that are not a `Configure` that succeeds leave the plugin as it is. -/
theorem iid_run_unchanged (env : Env) (p : IIDAttestorPlugin) (calls : List Call)
    (h : ∀ c ∈ calls, c.succeeds env = false) : run env p calls = p := by
  induction calls generalizing p with
  | nil => rfl
  | cons call rest ih =>
    have hrun : run env p (call :: rest) = run env (step env p call) rest := rfl
    rw [hrun, ih _ (fun c hc => h c (List.mem_cons_of_mem _ hc))]
    have hcall := h call (List.mem_cons_self _ _)
    cases call with
    | AidAttestation => rfl
    | Configure hcl =>
      cases hd : env.Decode hcl with
      | error e => simp only [step, Configure, hd]
      | ok config => simp [Call.succeeds, hd] at hcall

/-- The plugin after a sequence whose last successful `Configure` decodes `config`. -/
theorem iid_run_last_configure (env : Env) (p : IIDAttestorPlugin) (pre post : List Call)
    (hcl : String) (config : IIDAttestorConfig) (hd : env.Decode hcl = .ok config)
    (hpost : ∀ c ∈ post, c.succeeds env = false) :
    run env p (pre ++ Call.Configure hcl :: post) = ⟨some config⟩ := by
  unfold run
  rw [List.foldl_append, List.foldl_cons]
  have h := iid_run_unchanged env (step env (List.foldl (step env) p pre) (Call.Configure hcl))
    post hpost
  unfold run at h
  rw [h]
  simp only [step, Configure, hd]

end awsiid

namespace gcpiit

/-! ## The stored configuration over a sequence of calls -/

/-- The method `getConfig` fails exactly on a plugin without configuration. -/
theorem iit_getConfig_not_configured_iff (p : IITAttestorPlugin) :
    (getConfig p).2 = some (status.Error.status status.Code.FailedPrecondition "not configured")
      ↔ p.config = none := by
  unfold getConfig
  by_cases h : p.config = none
  · simp [h]
  · simp [h]

/-- The configuration after a call is absent exactly when it was absent before and the call is
not a `Configure` that succeeds. -/
theorem iit_step_config_none (env : Env) (p : IITAttestorPlugin) (call : Call) :
    (step env p call).config = none ↔ p.config = none ∧ call.succeeds env = false := by
  cases call with
  | AidAttestation => simp [step, Call.succeeds]
  | Configure hcl =>
    cases hd : env.Decode hcl with
    | error e => simp [step, Configure, Call.succeeds, hd]
    | ok config => simp [step, Configure, Call.succeeds, hd]

/-- The configuration after a sequence of calls is absent exactly when it was absent at the
start and no call of the sequence is a `Configure` that succeeds. -/
theorem iit_run_config_none (env : Env) (p : IITAttestorPlugin) (calls : List Call) :
    (run env p calls).config = none
      ↔ p.config = none ∧ ∀ c ∈ calls, c.succeeds env = false := by
  induction calls generalizing p with
  | nil => simp [run]
  | cons call rest ih =>
    have hrun : run env p (call :: rest) = run env (step env p call) rest := rfl
    rw [hrun, ih, iit_step_config_none]
    simp only [List.mem_cons, forall_eq_or_imp, and_assoc]

/-- Calls that are not a `Configure` that succeeds leave the plugin as it is. -/
theorem iit_run_unchanged (env : Env) (p : IITAttestorPlugin) (calls : List Call)
    (h : ∀ c ∈ calls, c.succeeds env = false) : run env p calls = p := by
  induction calls generalizing p with
  | nil => rfl
  | cons call rest ih =>
    have hrun : run env p (call :: rest) = run env (step env p call) rest := rfl
    rw [hrun, ih _ (fun c hc => h c (List.mem_cons_of_mem _ hc))]
    have hcall := h call (List.mem_cons_self _ _)
    cases call with
    | AidAttestation => rfl
    | Configure hcl =>
      cases hd : env.Decode hcl with
      | error e => simp only [step, Configure, hd]
      | ok config => simp [Call.succeeds, hd] at hcall

/-- The plugin after a sequence whose last successful `Configure` decodes `config`. -/
theorem iit_run_last_configure (env : Env) (p : IITAttestorPlugin) (pre post : List Call)
    (hcl : String) (config : IITAttestorConfig) (hd : env.Decode hcl = .ok config)
    (hpost : ∀ c ∈ post, c.succeeds env = false) :
    run env p (pre ++ Call.Configure hcl :: post) = ⟨some (withDefaults config)⟩ := by
  unfold run
  rw [List.foldl_append, List.foldl_cons]
  have h := iit_run_unchanged env (step env (List.foldl (step env) p pre) (Call.Configure hcl))
    post hpost
  unfold run at h
  rw [h]
  simp only [step, Configure, hd]

end gcpiit

namespace nodeattestor

/-! ## The configured state of the two node attestors -/

/-- Counterexample to C27 as stated, for `gcpiit`: the configuration the sample text `sa`
decodes to has an empty host, and after that `Configure` the method `getConfig` returns
another configuration, the one with the default host filled in. -/
theorem getConfig_not_the_decoded_configuration :
    gcpiit.sampleEnv.Decode "sa" = .ok ⟨"", "sa"⟩ ∧
    gcpiit.getConfig (gcpiit.Configure gcpiit.sampleEnv gcpiit.New "sa").1
      = (some ⟨"metadata.google.internal", "sa"⟩, none) ∧
    gcpiit.getConfig (gcpiit.Configure gcpiit.sampleEnv gcpiit.New "sa").1
      ≠ (some ⟨"", "sa"⟩, none) := by
  refine ⟨rfl, rfl, ?_⟩
  decide

/-- C27 as amended: for both plugins and every sequence of calls on a new plugin, `getConfig`
fails with `FailedPrecondition` "not configured" if and only if no `Configure` of the sequence
has succeeded, and then `AidAttestation` returns that error whatever the environment is; a
`Configure` whose input does not decode returns an `InvalidArgument` error and leaves the plugin
as it is; and after a sequence whose last successful `Configure` decoded `config`, `getConfig`
returns `config` for `awsiid`, and for `gcpiit` returns `config` with an empty service account
and an empty token host replaced by their defaults. -/
theorem getConfig_after_calls (envA : awsiid.Env) (envG : gcpiit.Env)
    (callsA : List awsiid.Call) (callsG : List gcpiit.Call) :
    (((awsiid.getConfig (awsiid.run envA awsiid.New callsA)).2
        = some (status.Error.status status.Code.FailedPrecondition "not configured")
        ↔ ∀ c ∈ callsA, c.succeeds envA = false) ∧
      ((∀ c ∈ callsA, c.succeeds envA = false) →
        ∀ env2 : awsiid.Env, awsiid.AidAttestation env2 (awsiid.run envA awsiid.New callsA)
          = some (status.Error.status status.Code.FailedPrecondition "not configured")) ∧
      (∀ (p : awsiid.IIDAttestorPlugin) (hcl e : String), envA.Decode hcl = .error e →
        awsiid.Configure envA p hcl
          = (p, none, some (status.Error.status status.Code.InvalidArgument
              ("unable to decode configuration: " ++ e)))) ∧
      (∀ pre hcl post config, callsA = pre ++ awsiid.Call.Configure hcl :: post →
        envA.Decode hcl = .ok config → (∀ c ∈ post, c.succeeds envA = false) →
        awsiid.getConfig (awsiid.run envA awsiid.New callsA) = (some config, none))) ∧
    (((gcpiit.getConfig (gcpiit.run envG gcpiit.New callsG)).2
        = some (status.Error.status status.Code.FailedPrecondition "not configured")
        ↔ ∀ c ∈ callsG, c.succeeds envG = false) ∧
      ((∀ c ∈ callsG, c.succeeds envG = false) →
        ∀ env2 : gcpiit.Env, gcpiit.AidAttestation env2 (gcpiit.run envG gcpiit.New callsG)
          = some (status.Error.status status.Code.FailedPrecondition "not configured")) ∧
      (∀ (p : gcpiit.IITAttestorPlugin) (hcl e : String), envG.Decode hcl = .error e →
        gcpiit.Configure envG p hcl
          = (p, none, some (status.Error.status status.Code.InvalidArgument
              ("unable to decode configuration: " ++ e)))) ∧
      (∀ pre hcl post config, callsG = pre ++ gcpiit.Call.Configure hcl :: post →
        envG.Decode hcl = .ok config → (∀ c ∈ post, c.succeeds envG = false) →
        gcpiit.getConfig (gcpiit.run envG gcpiit.New callsG)
          = (some (gcpiit.withDefaults config), none))) := by
  refine ⟨⟨?_, fun hnone env2 => ?_, fun p hcl e hd => ?_,
      fun pre hcl post config hcalls hd hpost => ?_⟩,
    ⟨?_, fun hnone env2 => ?_, fun p hcl e hd => ?_,
      fun pre hcl post config hcalls hd hpost => ?_⟩⟩
  · rw [awsiid.iid_getConfig_not_configured_iff, awsiid.iid_run_config_none]
    simp [awsiid.New]
  · rw [awsiid.iid_run_unchanged envA awsiid.New callsA hnone]
    rfl
  · simp only [awsiid.Configure, hd]
  · rw [hcalls, awsiid.iid_run_last_configure envA awsiid.New pre post hcl config hd hpost]
    rfl
  · rw [gcpiit.iit_getConfig_not_configured_iff, gcpiit.iit_run_config_none]
    simp [gcpiit.New]
  · rw [gcpiit.iit_run_unchanged envG gcpiit.New callsG hnone]
    rfl
  · simp only [gcpiit.Configure, hd]
  · rw [hcalls, gcpiit.iit_run_last_configure envG gcpiit.New pre post hcl config hd hpost]
    rfl

/-- Witness of C27 as amended: after an attestation, a `Configure` that does not decode, a
`Configure` that decodes and another that does not, `getConfig` returns the configuration of
the one that decoded; before them, `AidAttestation` fails with "not configured". -/
theorem getConfig_after_calls_witness :
    awsiid.getConfig (awsiid.run awsiid.sampleEnv awsiid.New
        [.AidAttestation, .Configure "\x7b", .Configure "http://169.254.169.254",
          .Configure "\x7b x"])
      = (some ⟨"http://169.254.169.254"⟩, none) ∧
    gcpiit.getConfig (gcpiit.run gcpiit.sampleEnv gcpiit.New
        [.AidAttestation, .Configure "\x7b", .Configure "sa", .Configure "\x7b x"])
      = (some ⟨"metadata.google.internal", "sa"⟩, none) ∧
    awsiid.AidAttestation awsiid.sampleEnv
        (awsiid.run awsiid.sampleEnv awsiid.New
          [.AidAttestation, .Configure "\x7b", .Configure "http://169.254.169.254",
            .Configure "\x7b x"])
      ≠ some (status.Error.status status.Code.FailedPrecondition "not configured") :=
  ⟨(getConfig_after_calls awsiid.sampleEnv gcpiit.sampleEnv
      [.AidAttestation, .Configure "\x7b", .Configure "http://169.254.169.254",
        .Configure "\x7b x"]
      [.AidAttestation, .Configure "\x7b", .Configure "sa", .Configure "\x7b x"]).1.2.2.2
      [.AidAttestation, .Configure "\x7b"] "http://169.254.169.254" [.Configure "\x7b x"]
      ⟨"http://169.254.169.254"⟩ rfl rfl (by decide),
    (getConfig_after_calls awsiid.sampleEnv gcpiit.sampleEnv
      [.AidAttestation, .Configure "\x7b", .Configure "http://169.254.169.254",
        .Configure "\x7b x"]
      [.AidAttestation, .Configure "\x7b", .Configure "sa", .Configure "\x7b x"]).2.2.2.2
      [.AidAttestation, .Configure "\x7b"] "sa" [.Configure "\x7b x"]
      ⟨"", "sa"⟩ rfl rfl (by decide),
    by decide⟩

end nodeattestor

namespace k8swsat

/-! ## The selectors of the embedded token -/

set_option maxRecDepth 100000 in
/-- The parser reads from `defaultSAToken` the claims of its payload. -/
theorem ParseUnverified_defaultSAToken :
    ParseUnverified defaultSAToken = .ok defaultSATokenClaims := by
  unfold ParseUnverified
  rfl

/-- The selector values of a token whose claims hold the namespace and the service account
name as strings. -/
theorem getSelectorValuesFromToken_of_claims (env : Env) (token : String) (claims : MapClaims)
    (saAndNs serviceaccount : List (String × JSON)) (ns name : String)
    (hparse : ParseUnverified token = .ok claims)
    (hk8s : claims.lookup "kubernetes.io" = some (.object saAndNs))
    (hns : saAndNs.lookup "namespace" = some (.string ns))
    (hsa : saAndNs.lookup "serviceaccount" = some (.object serviceaccount))
    (hname : serviceaccount.lookup "name" = some (.string name)) :
    getSelectorValuesFromToken env token = .returned ["sa:" ++ name, "ns:" ++ ns] := by
  simp only [getSelectorValuesFromToken, hparse, hk8s, hsa, hname, hns, formatS]

/-- The selector values of the embedded token. -/
theorem getSelectorValuesFromToken_defaultSAToken (env : Env) :
    getSelectorValuesFromToken env defaultSAToken = .returned ["sa:default", "ns:default"] :=
  getSelectorValuesFromToken_of_claims env defaultSAToken defaultSATokenClaims
    [("namespace", .string "default"),
      ("pod", .object [("name", .string "sh"),
        ("uid", .string "4af3f1ba-6f93-4fe1-b304-aa40b9de83fd")]),
      ("serviceaccount", .object [("name", .string "default"),
        ("uid", .string "450d2edf-5fa6-4f5b-902a-5e752ef8dc6b")]),
      ("warnafter", .number "1676573755")]
    [("name", .string "default"), ("uid", .string "450d2edf-5fa6-4f5b-902a-5e752ef8dc6b")]
    "default" "default" ParseUnverified_defaultSAToken rfl rfl rfl rfl

/-- An iteration of the loop of `Attest` in which the token gives a selector value returns the
response with the values of the token. -/
theorem attestLoop_of_values (env : Env) (steps attempt : Nat) (value : String)
    (values : List String)
    (h : getSelectorValuesFromToken env defaultSAToken = .returned (value :: values)) :
    attestLoop env (steps + 1) attempt = .returned (some ⟨value :: values⟩, none) := by
  unfold attestLoop
  simp only [h, List.nil_append, List.length_cons, gt_iff_lt, Nat.zero_lt_succ, if_true,
    ne_eq, reduceCtorEq, not_false_eq_true]

/-- C28: the parser of the jwt library reads from the embedded token `defaultSAToken` a payload
with the namespace `default` and the service account name `default` under `kubernetes.io`, so
`getSelectorValuesFromToken` gives `sa:default` and `ns:default` for it; and for every request
and every environment `Attest` returns, in the first iteration of its loop and with a nil
error, the response with these two selector values in that order: the result is the same for
any two requests and does not depend on the context. -/
theorem Attest_returns_selectors_of_embedded_token (env : Env) :
    getSelectorValuesFromToken env defaultSAToken = .returned ["sa:default", "ns:default"] ∧
    (∀ req : AttestRequest,
      Attest env req = .returned (some ⟨["sa:default", "ns:default"]⟩, none)) ∧
    (∀ steps : Nat,
      attestLoop env (steps + 1) 1 = .returned (some ⟨["sa:default", "ns:default"]⟩, none)) ∧
    (∀ (req1 req2 : AttestRequest) (env2 : Env), Attest env2 req1 = Attest env req2) := by
  have hloop : ∀ (e : Env) (steps : Nat),
      attestLoop e (steps + 1) 1
        = .returned (some ⟨["sa:default", "ns:default"]⟩, none) :=
    fun e steps => attestLoop_of_values e steps 1 "sa:default" ["ns:default"]
      (getSelectorValuesFromToken_defaultSAToken e)
  refine ⟨getSelectorValuesFromToken_defaultSAToken env, fun req => hloop env 59, hloop env,
    fun req1 req2 env2 => ?_⟩
  have h1 : Attest env2 req1 = .returned (some ⟨["sa:default", "ns:default"]⟩, none) :=
    hloop env2 59
  have h2 : Attest env req2 = .returned (some ⟨["sa:default", "ns:default"]⟩, none) :=
    hloop env 59
  rw [h1, h2]

end k8swsat
